import Mathlib

/-!
# vdrm: virtual DRM pipeline and controller event channel

Shallow embedding of `drivers/gpu/drm/vdrm/vdrm_controller.c`, `vdrm_crtc.c`
and `vdrm_plane.c`.

* Kernel objects reached through pointers (`struct vdrm_ctrl_device *`,
  `struct drm_plane *`, `struct drm_crtc *`) are indices into maps of a single
  `World`; a NULL pointer is `none`.
* A `struct vdrm_ctrl_pending_event *` held in a slot is represented by the
  record it points to. The record is immutable once `vdrm_ctrl_publish` has
  stored it, so the copy in the IDR and the copy in a slot agree while the
  event is live. The C code never clears a slot when the event is freed through
  another path; such a stale pointer is the record as it was when freed.
* `unsigned int` arithmetic is `Nat` arithmetic reduced modulo `2^32`.
* Calls into the DRM core, wait queues and timers are recorded in `World.trace`.
* The outcome of every memory allocation is read from the stream `World.mem`.
-/

namespace Vdrm

/-! ## Kernel constants -/

def ENOENT : Int := 2
def EAGAIN : Int := 11
def ENOMEM : Int := 12
def EFAULT : Int := 14
def EBUSY : Int := 16
def EINVAL : Int := 22
def ENOSPC : Int := 28
def EMSGSIZE : Int := 90
def ERESTARTSYS : Int := 512

/-- Number of values of a 32-bit `unsigned int`. -/
def UINT_MOD : Nat := 4294967296

def INT_MAX : Nat := 2147483647

/-- The fourcc code of NV12, `fourcc_code('N', 'V', '1', '2')`. -/
def DRM_FORMAT_NV12 : Nat := 842094158

/-! ## uapi: `v_controller_if.h` -/

def V_CTRL_NUM_GEMS_PER_BUFFER : Nat := 2

def V_CTRL_EVENT_TYPE_NEW_BUFFER : Nat := 1

structure v_ctrl_event where
  type : Nat
  length : Nat
deriving DecidableEq, Repr

structure v_ctrl_event_new_buffer where
  base : v_ctrl_event
  valid : Nat
  v_ctrl_buf_id : Nat
  drm_format : Nat
  stride : Nat
  width : Nat
  height : Nat
  dst_x : Nat
  dst_y : Nat
  dst_w : Nat
  dst_h : Nat
deriving DecidableEq, Repr

/-- The value of `sizeof(struct v_ctrl_event_new_buffer)`: twelve `__u32` fields. -/
def sizeof_v_ctrl_event_new_buffer : Nat := 48

/-! ## Data model -/

/-- The `struct vdrm_plane_update` of `vdrm_crtc.h`, without its list link. -/
structure vdrm_plane_update where
  plane : Nat
  active : Bool
  fourcc : Nat
  stride : Nat
  pos_x : Nat
  pos_y : Nat
  out_width : Nat
  out_height : Nat
  width : Nat
  height : Nat
  addr : Nat
  uv_addr : Nat
deriving DecidableEq, Repr

/-- The `struct vdrm_ctrl_pending_event` of `vdrm_controller.c`. `event` is the
payload the record points to, `dev` the owning channel, `crtc` the pipeline to
signal (NULL for an install publish). -/
structure vdrm_ctrl_pending_event where
  event : v_ctrl_event_new_buffer
  dev : Nat
  crtc : Option Nat
  need_cb : Bool
  id : Nat
  num_planes : Nat
  plane_addrs : List Nat
deriving DecidableEq, Repr

/-- The `struct vdrm_ctrl_device`: `event` is the Pending slot, `pending_event`
the Delivered (read, not yet acknowledged) slot. -/
structure vdrm_ctrl_device where
  plane : Nat
  event : Option vdrm_ctrl_pending_event
  pending_event : Option vdrm_ctrl_pending_event
  open_count : Int
deriving DecidableEq, Repr

/-- The fields of `struct drm_format_info` the driver reads. -/
structure drm_format_info where
  format : Nat
  cpp0 : Nat
  cpp1 : Nat
  hsub : Nat
  vsub : Nat
deriving DecidableEq, Repr

/-- The fields of `struct drm_framebuffer` the driver reads; `paddr0` and
`paddr1` are the `paddr` of the CMA GEM objects of planes 0 and 1. -/
structure drm_framebuffer where
  format : drm_format_info
  pitches0 : Nat
  pitches1 : Nat
  offsets0 : Nat
  offsets1 : Nat
  paddr0 : Nat
  paddr1 : Nat
deriving DecidableEq, Repr

/-- The fields of `struct drm_plane_state` the driver reads. -/
structure drm_plane_state where
  crtc : Option Nat
  fb : Option drm_framebuffer
  crtc_x : Int
  crtc_y : Int
  crtc_w : Nat
  crtc_h : Nat
  src_x : Nat
  src_y : Nat
  src_w : Nat
  src_h : Nat
  visible : Bool
deriving DecidableEq, Repr

/-- The `struct vdrm_plane` with the `state` pointer of its base `drm_plane`. -/
structure vdrm_plane where
  state : Option drm_plane_state
  vdev : Option Nat
  active : Int
deriving DecidableEq, Repr

/-- The `struct vdrm_crtc`. `event` is the armed `drm_pending_vblank_event`,
`state_event` is `crtc->state->event` of the base object, and
`framedone_completion` counts the `complete()` calls not yet consumed. -/
structure vdrm_crtc where
  plane : Nat
  id : Nat
  irq_requested : Bool
  wait_for_disable : Bool
  framedone_completion : Nat
  pending : Bool
  enabled : Bool
  event : Option Nat
  state_event : Option Nat
  fps : Nat
  nsec_to_vsync : Nat
  updates : List vdrm_plane_update
  num_pends : Nat
deriving DecidableEq, Repr

/-- Places where the driver has a `WARN_ON`. -/
inductive WarnSite where
  | publish_busy
  | release_open_count
  | install_active
  | uninstall_active
  | add_disable_alloc
  | add_enable_state
  | add_enable_fb
  | add_enable_alloc
  | arm_event_pending
  | atomic_enable_enabled
  | atomic_disable_enabled
deriving DecidableEq, Repr

/-- Calls out of the driver, in the order they are made. -/
inductive HostCall where
  | WARN_ON (site : WarnSite)
  | wake_up_event_wait (dev : Nat)
  | wake_up_pending_wait (crtc : Nat)
  | drm_handle_vblank (pipe : Nat)
  | drm_crtc_send_vblank_event (crtc : Nat) (ev : Nat)
  | drm_crtc_vblank_get (crtc : Nat)
  | drm_crtc_vblank_put (crtc : Nat)
  | drm_crtc_vblank_on (crtc : Nat)
  | drm_crtc_vblank_off (crtc : Nat)
  | complete_framedone (crtc : Nat)
  | hrtimer_forward_now (crtc : Nat) (ns : Nat)
  | hrtimer_start (crtc : Nat) (ns : Nat)
  | dev_err_framedone_timeout (pipe : Nat)
deriving DecidableEq, Repr

/-- The IDR `vdrm_ctrl_buf_idr`: position `id` holds the record registered
under `id`, if any. -/
abbrev Idr := List (Option vdrm_ctrl_pending_event)

/-- The whole driver state. `dma_addr_bits` is the width of `dma_addr_t` on the
platform, `mem` the outcomes of the allocations still to come (`true` is
success), `oops` records a NULL pointer dereference. -/
structure World where
  vdrm_ctrl_buf_idr : Idr
  devs : Nat → vdrm_ctrl_device
  planes : Nat → vdrm_plane
  crtcs : Nat → vdrm_crtc
  dma_addr_bits : Nat
  mem : Nat → Bool
  oops : Bool
  trace : List HostCall

/-! ## State helpers -/

def setDev (s : World) (i : Nat) (d : vdrm_ctrl_device) : World :=
  { s with devs := fun j => if j = i then d else s.devs j }

def setPlane (s : World) (i : Nat) (p : vdrm_plane) : World :=
  { s with planes := fun j => if j = i then p else s.planes j }

def setCrtc (s : World) (i : Nat) (c : vdrm_crtc) : World :=
  { s with crtcs := fun j => if j = i then c else s.crtcs j }

def call (s : World) (c : HostCall) : World :=
  { s with trace := s.trace ++ [c] }

/-- The kernel check `WARN_ON(cond)`: a warning is logged when `cond` holds. -/
def warn_on (s : World) (cond : Bool) (site : WarnSite) : World :=
  if cond = true then call s (HostCall.WARN_ON site) else s

/-- A NULL pointer dereference. -/
def null_deref (s : World) : World :=
  { s with oops := true }

/-- One `kzalloc`: the outcome is the head of the allocation stream. -/
def kzalloc (s : World) : Bool × World :=
  (s.mem 0, { s with mem := fun n => s.mem (n + 1) })

/-- The kernel primitive `atomic_add_unless(v, a, u)`: adds `a` unless the
value is `u`; returns whether it added, and the new value. -/
def atomic_add_unless (v a u : Int) : Bool × Int :=
  if v = u then (false, v) else (true, v + a)

/-! ## The kernel IDR -/

def idr_find (t : Idr) (id : Nat) : Option vdrm_ctrl_pending_event :=
  (t.get? id).join

/-- The lowest id with no entry. -/
def idr_first_free : Idr → Nat
  | [] => 0
  | none :: _ => 0
  | some _ :: t => idr_first_free t + 1

def idr_put : Idr → Nat → vdrm_ctrl_pending_event → Idr
  | [], 0, e => [some e]
  | [], n + 1, e => none :: idr_put [] n e
  | _ :: t, 0, e => some e :: t
  | x :: t, n + 1, e => x :: idr_put t n e

/-- The kernel call `idr_alloc(idr, ptr, 0, 0, gfp)`: the lowest free id in
`[0, INT_MAX]`, or `-ENOMEM` / `-ENOSPC`. -/
def idr_alloc (t : Idr) (gfp_ok : Bool) : Int :=
  if gfp_ok = false then -ENOMEM
  else if idr_first_free t > INT_MAX then -ENOSPC
  else (idr_first_free t : Int)

/-- The kernel call `idr_remove`: the removed entry (NULL if there was none)
and the new table. -/
def idr_remove (t : Idr) (id : Nat) : Option vdrm_ctrl_pending_event × Idr :=
  (idr_find t id, t.set id none)

/-! ## `vdrm_crtc.c`: outstanding counter -/

/-- The function `vdrm_crtc_signal`: `num_pends--` on an `unsigned int`. -/
def vdrm_crtc_signal (s : World) (crtc : Option Nat) : World :=
  match crtc with
  | none => null_deref s
  | some c =>
    setCrtc s c { s.crtcs c with
      num_pends := ((s.crtcs c).num_pends + UINT_MOD - 1) % UINT_MOD }

/-! ## `vdrm_controller.c` -/

/-- The payload built by `vdrm_ctrl_publish` before the handle is known. -/
def build_event (u : vdrm_plane_update) : v_ctrl_event_new_buffer :=
  if u.active then
    { base := { type := V_CTRL_EVENT_TYPE_NEW_BUFFER,
                length := sizeof_v_ctrl_event_new_buffer },
      valid := 1, v_ctrl_buf_id := 0, drm_format := u.fourcc,
      stride := u.stride, width := u.width, height := u.height,
      dst_x := u.pos_x, dst_y := u.pos_y,
      dst_w := u.out_width, dst_h := u.out_height }
  else
    { base := { type := V_CTRL_EVENT_TYPE_NEW_BUFFER,
                length := sizeof_v_ctrl_event_new_buffer },
      valid := 0, v_ctrl_buf_id := 0, drm_format := 0,
      stride := 0, width := 0, height := 0,
      dst_x := 0, dst_y := 0, dst_w := 0, dst_h := 0 }

/-- The record built by `vdrm_ctrl_publish` before the handle is known. -/
def build_pending (dev : Nat) (u : vdrm_plane_update) (crtc : Option Nat)
    (need_cb : Bool) : vdrm_ctrl_pending_event :=
  { event := build_event u, dev := dev, crtc := crtc, need_cb := need_cb, id := 0,
    num_planes := if u.active then (if u.uv_addr ≠ 0 then 2 else 1) else 0,
    plane_addrs :=
      if u.active then (if u.uv_addr ≠ 0 then [u.addr, u.uv_addr] else [u.addr, 0])
      else [0, 0] }

/-- The assignment `e->id = event->v_ctrl_buf_id = ret`. -/
def with_handle (e : vdrm_ctrl_pending_event) (id : Nat) : vdrm_ctrl_pending_event :=
  { e with id := id, event := { e.event with v_ctrl_buf_id := id } }

/-- The test `dev->event && dev->event->need_cb`. -/
def gating_pending (d : vdrm_ctrl_device) : Bool :=
  match d.event with
  | some e => e.need_cb
  | none => false

/-- The function `vdrm_ctrl_publish`. -/
def vdrm_ctrl_publish (s : World) (dev : Nat) (u : vdrm_plane_update)
    (crtc : Option Nat) (need_cb : Bool) : Int × World :=
  let a1 := kzalloc s
  if a1.1 = false then (-ENOMEM, a1.2)
  else
    let a2 := kzalloc a1.2
    if a2.1 = false then (-ENOMEM, a2.2)
    else
      let e := build_pending dev u crtc need_cb
      let s2 := a2.2
      if gating_pending (s2.devs dev) = true then
        (-EBUSY, call s2 (HostCall.WARN_ON WarnSite.publish_busy))
      else
        let a3 := kzalloc s2
        let ret := idr_alloc a3.2.vdrm_ctrl_buf_idr a3.1
        if ret < 0 then (ret, a3.2)
        else
          let e1 := with_handle e ret.toNat
          let s3 : World :=
            { a3.2 with vdrm_ctrl_buf_idr := idr_put a3.2.vdrm_ctrl_buf_idr ret.toNat e1 }
          let s4 := setDev s3 dev { s3.devs dev with event := some e1 }
          (0, call s4 (HostCall.wake_up_event_wait dev))

/-- The function `vdrm_ctrl_buf_submit_done` (the acknowledge ioctl) with
`d->v_ctrl_buf_id = id`. -/
def vdrm_ctrl_buf_submit_done (s : World) (dev : Nat) (id : Nat) : Int × World :=
  let r := idr_remove s.vdrm_ctrl_buf_idr id
  match r.1 with
  | none => (-ENOENT, s)
  | some e =>
    let s1 : World := { s with vdrm_ctrl_buf_idr := r.2 }
    let s2 := setDev s1 dev { s1.devs dev with pending_event := none }
    let s3 := if e.need_cb = true then vdrm_crtc_signal s2 e.crtc else s2
    (0, s3)

/-- The caller side of one `read(2)`: buffer size, `O_NONBLOCK`, whether the
user buffer passes `access_ok`, whether the copy to it faults, and whether a
signal interrupts the wait. -/
structure read_args where
  count : Nat
  nonblock : Bool
  access_ok : Bool
  copy_fault : Bool
  signal : Bool
deriving DecidableEq, Repr

/-- What one `read(2)` does: it returns `ret` with `copied` written to the user
buffer, or the task stays asleep on `event_wait`. -/
inductive read_result where
  | ret (n : Int) (copied : Option v_ctrl_event_new_buffer)
  | sleeping
deriving DecidableEq, Repr

/-- The function `vdrm_ctrl_read`. -/
def vdrm_ctrl_read (s : World) (dev : Nat) (a : read_args) : read_result × World :=
  if a.access_ok = false then (read_result.ret (-EFAULT) none, s)
  else
    match (s.devs dev).event with
    | none =>
      if a.nonblock = true then (read_result.ret (-EAGAIN) none, s)
      else if a.signal = true then (read_result.ret (-ERESTARTSYS) none, s)
      else (read_result.sleeping, s)
    | some e =>
      if e.event.base.length > a.count then (read_result.ret (-EMSGSIZE) none, s)
      else if a.copy_fault = true then (read_result.ret (-EFAULT) none, s)
      else
        (read_result.ret (e.event.base.length : Int) (some e.event),
         setDev s dev { s.devs dev with pending_event := some e, event := none })

/-- The function `vdrm_ctrl_poll`: the returned mask is `POLLIN | POLLRDNORM`
(`true`) or `0` (`false`). -/
def vdrm_ctrl_poll (s : World) (dev : Nat) : Bool :=
  match (s.devs dev).event with
  | none => true
  | some _ => false

/-! ## `vdrm_plane.c` -/

/-- The function `vdrm_plane_get_fb_paddr`. The products are `u32` products,
the sum is a `dma_addr_t` of `bits` bits. A format with `hsub` or `vsub` zero
would trap in C; here the quotient is then zero. -/
def vdrm_plane_get_fb_paddr (bits : Nat) (fb : drm_framebuffer) (x y : Nat)
    (is_uv : Bool) : Nat :=
  if is_uv = false then
    (fb.paddr0 + fb.offsets0 + (x * fb.format.cpp0) % UINT_MOD
      + (y * fb.pitches0) % UINT_MOD) % 2 ^ bits
  else
    (fb.paddr1 + fb.offsets1 + ((x * fb.format.cpp1) % UINT_MOD) / fb.format.hsub
      + ((y * fb.pitches1) % UINT_MOD) / fb.format.vsub) % 2 ^ bits

/-- The value of `v >> 16` for an `int32_t` stored into a `u32`. -/
def shr16_to_u32 (v : Int) : Nat :=
  ((v >>> 16) % (UINT_MOD : Int)).toNat

/-- The active update that `vdrm_crtc_add_enable` and
`vdrm_plane_install_consumer` both fill in from the plane state and its
framebuffer. -/
def update_of_state (bits : Nat) (plane : Nat) (state : drm_plane_state)
    (fb : drm_framebuffer) : vdrm_plane_update :=
  { plane := plane, active := true,
    fourcc := fb.format.format,
    stride := fb.pitches0,
    pos_x := shr16_to_u32 state.crtc_x,
    pos_y := shr16_to_u32 state.crtc_y,
    out_width := state.crtc_w >>> 16,
    out_height := state.crtc_h >>> 16,
    width := state.src_w >>> 16,
    height := state.src_h >>> 16,
    addr := vdrm_plane_get_fb_paddr bits fb (state.src_x >>> 16) (state.src_y >>> 16) false,
    uv_addr :=
      if fb.format.format = DRM_FORMAT_NV12 then
        vdrm_plane_get_fb_paddr bits fb (state.src_x >>> 16) (state.src_y >>> 16) true
      else 0 }

/-- The function `vdrm_plane_publish`. -/
def vdrm_plane_publish (s : World) (plane : Nat) (u : vdrm_plane_update)
    (crtc : Option Nat) (need_cb : Bool) : Int × World :=
  if (s.planes plane).active ≠ 0 then
    match (s.planes plane).vdev with
    | some dev => vdrm_ctrl_publish s dev u crtc need_cb
    | none => (-1, null_deref s)
  else (-1, s)

/-- The function `vdrm_plane_install_consumer`. -/
def vdrm_plane_install_consumer (s : World) (plane : Nat) : World :=
  let r := atomic_add_unless (s.planes plane).active 1 1
  let s1 := setPlane s plane { s.planes plane with active := r.2 }
  let s2 := warn_on s1 (!r.1) WarnSite.install_active
  match (s2.planes plane).state with
  | none => s2
  | some state =>
    match state.crtc with
    | none => s2
    | some _ =>
      let a := kzalloc s2
      if a.1 = false then null_deref a.2
      else
        match state.fb with
        | none => null_deref a.2
        | some fb =>
          (vdrm_plane_publish a.2 plane
            (update_of_state a.2.dma_addr_bits plane state fb) none false).2

/-- The function `vdrm_plane_uninstall_consumer`. -/
def vdrm_plane_uninstall_consumer (s : World) (plane : Nat) : World :=
  let r := atomic_add_unless (s.planes plane).active (-1) 0
  let s1 := setPlane s plane { s.planes plane with active := r.2 }
  warn_on s1 (!r.1) WarnSite.uninstall_active

/-! ## `vdrm_controller.c`: open and release -/

/-- The function `vdrm_ctrl_open`. -/
def vdrm_ctrl_open (s : World) (dev : Nat) : Int × World :=
  let r := atomic_add_unless (s.devs dev).open_count 1 1
  if r.1 = false then (-EBUSY, s)
  else
    let s1 := setDev s dev { s.devs dev with open_count := r.2 }
    (0, vdrm_plane_install_consumer s1 (s1.devs dev).plane)

/-- The event `vdrm_ctrl_release` takes out of the channel: the Pending one
if there is one, else the Delivered one. -/
def release_take (d : vdrm_ctrl_device) :
    Option vdrm_ctrl_pending_event × vdrm_ctrl_device :=
  match d.event with
  | some e => (some e, { d with event := none })
  | none =>
    match d.pending_event with
    | some e => (some e, { d with pending_event := none })
    | none => (none, d)

/-- The end of `vdrm_ctrl_release`:
`WARN_ON(!atomic_add_unless(&dev->open_count, -1, 0))`. -/
def release_open_count (s : World) (dev : Nat) : World :=
  let r := atomic_add_unless (s.devs dev).open_count (-1) 0
  warn_on (setDev s dev { s.devs dev with open_count := r.2 }) (!r.1)
    WarnSite.release_open_count

/-- The function `vdrm_ctrl_release`. -/
def vdrm_ctrl_release (s : World) (dev : Nat) : Int × World :=
  let s1 := vdrm_plane_uninstall_consumer s (s.devs dev).plane
  let t := release_take (s1.devs dev)
  let s2 := setDev s1 dev t.2
  match t.1 with
  | none => (0, release_open_count s2 dev)
  | some e =>
    let s3 : World :=
      { s2 with vdrm_ctrl_buf_idr := (idr_remove s2.vdrm_ctrl_buf_idr e.id).2 }
    let s4 := if e.need_cb = true then vdrm_crtc_signal s3 e.crtc else s3
    (0, release_open_count s4 dev)

/-! ## `vdrm_crtc.c` -/

/-- The loop of `vdrm_crtc_publish` over the entries still queued: publish the
first one with `need_cb = true`, count it if that returned 0, unlink it. -/
def vdrm_crtc_publish_loop (c : Nat) : List vdrm_plane_update → World → World
  | [], s => s
  | u :: rest, s =>
    let r := vdrm_plane_publish s u.plane u (some c) true
    let s1 :=
      if r.1 = 0 then
        setCrtc r.2 c { r.2.crtcs c with
          num_pends := ((r.2.crtcs c).num_pends + 1) % UINT_MOD }
      else r.2
    let s2 := setCrtc s1 c { s1.crtcs c with updates := rest }
    vdrm_crtc_publish_loop c rest s2

/-- The function `vdrm_crtc_publish`. -/
def vdrm_crtc_publish (s : World) (c : Nat) : World :=
  vdrm_crtc_publish_loop c (s.crtcs c).updates s

/-- The list walk of `vdrm_crtc_add_disable` and `vdrm_crtc_add_enable`: unlink
every entry of `plane`, then `list_add_tail` the new one. -/
def enqueue_update (q : List vdrm_plane_update) (update : vdrm_plane_update) :
    List vdrm_plane_update :=
  q.filter (fun search => decide (search.plane ≠ update.plane)) ++ [update]

/-- The update `vdrm_crtc_add_disable` builds in zeroed memory. -/
def disable_update (plane : Nat) : vdrm_plane_update :=
  { plane := plane, active := false, fourcc := 0, stride := 0, pos_x := 0, pos_y := 0,
    out_width := 0, out_height := 0, width := 0, height := 0, addr := 0, uv_addr := 0 }

/-- The function `vdrm_crtc_add_disable`. -/
def vdrm_crtc_add_disable (s : World) (c : Nat) (plane : Nat) : World :=
  let a := kzalloc s
  if a.1 = false then call a.2 (HostCall.WARN_ON WarnSite.add_disable_alloc)
  else
    setCrtc a.2 c { a.2.crtcs c with
      updates := enqueue_update (a.2.crtcs c).updates (disable_update plane) }

/-- The function `vdrm_crtc_add_enable`. -/
def vdrm_crtc_add_enable (s : World) (c : Nat) (plane : Nat) : World :=
  match (s.planes plane).state with
  | none => call s (HostCall.WARN_ON WarnSite.add_enable_state)
  | some state =>
    match state.fb with
    | none => call s (HostCall.WARN_ON WarnSite.add_enable_fb)
    | some fb =>
      let a := kzalloc s
      if a.1 = false then call a.2 (HostCall.WARN_ON WarnSite.add_enable_alloc)
      else
        setCrtc a.2 c { a.2.crtcs c with
          updates := enqueue_update (a.2.crtcs c).updates
            (update_of_state a.2.dma_addr_bits plane state fb) }

/-- The function `vdrm_crtc_vblank_irq`. -/
def vdrm_crtc_vblank_irq (s : World) (c : Nat) : World :=
  let s1 :=
    match (s.crtcs c).event with
    | some ev =>
      setCrtc (call s (HostCall.drm_crtc_send_vblank_event c ev)) c
        { s.crtcs c with event := none }
    | none => s
  let pending := (s1.crtcs c).pending
  let s2 := setCrtc s1 c { s1.crtcs c with pending := false }
  let s3 :=
    if (s2.crtcs c).wait_for_disable = true then
      call (setCrtc s2 c { s2.crtcs c with
              wait_for_disable := false,
              framedone_completion := (s2.crtcs c).framedone_completion + 1 })
        (HostCall.complete_framedone c)
    else s2
  let s4 := if pending = true then call s3 (HostCall.drm_crtc_vblank_put c) else s3
  call s4 (HostCall.wake_up_pending_wait c)

inductive hrtimer_restart where
  | HRTIMER_NORESTART
  | HRTIMER_RESTART
deriving DecidableEq, Repr

/-- The timer callback `vsync_timer` of pipeline `c`. -/
def vsync_timer (s : World) (c : Nat) : hrtimer_restart × World :=
  let s1 :=
    if (s.crtcs c).irq_requested = true ∧ (s.crtcs c).num_pends = 0 then
      vdrm_crtc_vblank_irq (call s (HostCall.drm_handle_vblank (s.crtcs c).id)) c
    else s
  (hrtimer_restart.HRTIMER_RESTART,
   call s1 (HostCall.hrtimer_forward_now c (s1.crtcs c).nsec_to_vsync))

/-- The function `vdrm_irq_enable_vblank`. -/
def vdrm_irq_enable_vblank (s : World) (c : Nat) : Int × World :=
  (0, setCrtc s c { s.crtcs c with irq_requested := true })

/-- The function `vdrm_irq_disable_vblank`. -/
def vdrm_irq_disable_vblank (s : World) (c : Nat) : World :=
  setCrtc s c { s.crtcs c with irq_requested := false }

/-- The function `vdrm_crtc_arm_event`. -/
def vdrm_crtc_arm_event (s : World) (c : Nat) : World :=
  let s1 := warn_on s (s.crtcs c).pending WarnSite.arm_event_pending
  let s2 := setCrtc s1 c { s1.crtcs c with pending := true }
  match (s2.crtcs c).state_event with
  | some ev => setCrtc s2 c { s2.crtcs c with event := some ev, state_event := none }
  | none => s2

/-- The function `vdrm_crtc_atomic_enable`. The value `drm_crtc_vblank_get`
returns is decided by the DRM core; the `WARN_ON(ret != 0)` after it is not
modelled. -/
def vdrm_crtc_atomic_enable (s : World) (c : Nat) : World :=
  if (s.crtcs c).enabled = true then call s (HostCall.WARN_ON WarnSite.atomic_enable_enabled)
  else
    let s1 := setCrtc s c { s.crtcs c with enabled := true }
    let s2 := vdrm_crtc_publish s1 c
    let s3 := call s2 (HostCall.drm_crtc_vblank_on c)
    let s4 := call s3 (HostCall.drm_crtc_vblank_get c)
    vdrm_crtc_arm_event s4 c

/-- The function `vdrm_crtc_atomic_flush`. The value `drm_crtc_vblank_get`
returns is decided by the DRM core; the `WARN_ON(ret != 0)` after it is not
modelled. -/
def vdrm_crtc_atomic_flush (s : World) (c : Nat) : World :=
  if (s.crtcs c).enabled = false then s
  else
    let s1 := call s (HostCall.drm_crtc_vblank_get c)
    let s2 := vdrm_crtc_publish s1 c
    vdrm_crtc_arm_event s2 c

/-! ## Runs of the channel and of the update queue -/

/-- The operations on a channel: the four file operations and a publish. -/
inductive ChanOp where
  | open_dev (dev : Nat)
  | publish (dev : Nat) (u : vdrm_plane_update) (crtc : Option Nat) (need_cb : Bool)
  | read (dev : Nat) (a : read_args)
  | ack (dev : Nat) (id : Nat)
  | close (dev : Nat)
deriving DecidableEq, Repr

def chan_step (s : World) : ChanOp → World
  | ChanOp.open_dev dev => (vdrm_ctrl_open s dev).2
  | ChanOp.publish dev u crtc need_cb => (vdrm_ctrl_publish s dev u crtc need_cb).2
  | ChanOp.read dev a => (vdrm_ctrl_read s dev a).2
  | ChanOp.ack dev id => (vdrm_ctrl_buf_submit_done s dev id).2
  | ChanOp.close dev => (vdrm_ctrl_release s dev).2

def chan_run (s : World) (ops : List ChanOp) : World :=
  ops.foldl chan_step s

/-- Every channel is as `vdrm_controller_create_device` leaves it and the IDR
is empty. -/
def fresh_channels (s : World) : Prop :=
  s.vdrm_ctrl_buf_idr = [] ∧
  ∀ dev, (s.devs dev).event = none ∧ (s.devs dev).pending_event = none ∧
    (s.devs dev).open_count = 0

/-- At most one of the Pending and the Delivered slot of `dev` is set. -/
def single_outstanding (s : World) (dev : Nat) : Prop :=
  (s.devs dev).event = none ∨ (s.devs dev).pending_event = none

instance (s : World) (dev : Nat) : Decidable (single_outstanding s dev) := by
  unfold single_outstanding
  exact inferInstance

/-- The channel an operation may publish to: the channel itself for a publish,
the channel attached to the surface for the install publish of an open. -/
def publish_target (s : World) : ChanOp → Option Nat
  | ChanOp.publish dev _ _ _ => some dev
  | ChanOp.open_dev dev => (s.planes (s.devs dev).plane).vdev
  | _ => none

/-- The operation does not publish to a channel that holds a Delivered event. -/
def no_publish_over_delivered (s : World) (op : ChanOp) : Prop :=
  ∀ dev, publish_target s op = some dev → (s.devs dev).pending_event = none

/-- States reached from fresh channels by operations none of which publishes
to a channel that holds a Delivered event. -/
inductive GuardedReach : World → Prop where
  | init (s : World) (h : fresh_channels s) : GuardedReach s
  | step (s : World) (op : ChanOp) (h : GuardedReach s)
      (g : no_publish_over_delivered s op) : GuardedReach (chan_step s op)

/-- The operations on the update queue of a pipeline. -/
inductive QueueOp where
  | add_enable (crtc : Nat) (plane : Nat)
  | add_disable (crtc : Nat) (plane : Nat)
  | drain (crtc : Nat)
deriving DecidableEq, Repr

def queue_step (s : World) : QueueOp → World
  | QueueOp.add_enable crtc plane => vdrm_crtc_add_enable s crtc plane
  | QueueOp.add_disable crtc plane => vdrm_crtc_add_disable s crtc plane
  | QueueOp.drain crtc => vdrm_crtc_publish s crtc

def queue_run (s : World) (ops : List QueueOp) : World :=
  ops.foldl queue_step s

/-- No two entries of the queue are for the same plane. -/
def distinct_planes (q : List vdrm_plane_update) : Prop :=
  (q.map (fun u => u.plane)).Nodup

/-- The entries of the queue for `plane`, in queue order. -/
def entries_of (q : List vdrm_plane_update) (plane : Nat) : List vdrm_plane_update :=
  q.filter (fun u => decide (u.plane = plane))

/-- The entries of the queue for the other planes, in queue order. -/
def entries_not_of (q : List vdrm_plane_update) (plane : Nat) : List vdrm_plane_update :=
  q.filter (fun u => decide (u.plane ≠ plane))

/-- The calls made between state `s` and the later state `t`. -/
def calls_since (s t : World) : List HostCall :=
  t.trace.drop s.trace.length

/-! ## Example states -/

def dev0 : vdrm_ctrl_device :=
  { plane := 0, event := none, pending_event := none, open_count := 0 }

def plane0 : vdrm_plane :=
  { state := none, vdev := some 0, active := 0 }

def crtc0 : vdrm_crtc :=
  { plane := 0, id := 0, irq_requested := false, wait_for_disable := false,
    framedone_completion := 0, pending := false, enabled := false, event := none,
    state_event := none, fps := 60, nsec_to_vsync := 16666666, updates := [],
    num_pends := 0 }

/-- The state after topology setup: channel `i` serves plane `i`, pipeline `i`
has primary plane `i`, nothing is open, queued or registered, and every
allocation will succeed. -/
def world0 : World :=
  { vdrm_ctrl_buf_idr := [],
    devs := fun i => { dev0 with plane := i },
    planes := fun i => { plane0 with vdev := some i },
    crtcs := fun i => { crtc0 with plane := i, id := i },
    dma_addr_bits := 64, mem := fun _ => true, oops := false, trace := [] }

def args0 : read_args :=
  { count := 48, nonblock := false, access_ok := true, copy_fault := false,
    signal := false }

/-- Channel 0 opened by a consumer. -/
def world_open : World := (vdrm_ctrl_open world0 0).2

/-- Channel 0 open, one disable update for plane 0 queued on pipeline 0, and
the pipeline enabled: the update is Pending on channel 0 under handle 0 and the
outstanding counter is 1. -/
def world_pending : World :=
  vdrm_crtc_atomic_enable (vdrm_crtc_add_disable world_open 0 0) 0

/-- The state `world_pending` after the consumer has read the event. -/
def world_delivered : World := (vdrm_ctrl_read world_pending 0 args0).2

/-- The state `world_delivered` after a second update was queued and flushed:
handle 1 is Pending, handle 0 is Delivered, the outstanding counter is 2. -/
def world_both : World :=
  vdrm_crtc_atomic_flush (vdrm_crtc_add_disable world_delivered 0 0) 0

/-- Channel 0 open, pipeline 0 enabled with nothing outstanding, and one
disable update for plane 0 queued and not yet flushed. -/
def world_ready : World :=
  vdrm_crtc_add_disable (vdrm_crtc_atomic_enable world_open 0) 0 0

/-- A 640x480 XRGB8888 framebuffer at physical address 0x10000000. -/
def fb0 : drm_framebuffer :=
  { format := { format := 875713112, cpp0 := 4, cpp1 := 0, hsub := 1, vsub := 1 },
    pitches0 := 2560, pitches1 := 0, offsets0 := 0, offsets1 := 0,
    paddr0 := 268435456, paddr1 := 0 }

/-- A visible plane state showing all of `fb0` at the origin of pipeline 0. -/
def state0 : drm_plane_state :=
  { crtc := some 0, fb := some fb0, crtc_x := 0, crtc_y := 0, crtc_w := 41943040,
    crtc_h := 31457280, src_x := 0, src_y := 0, src_w := 41943040, src_h := 31457280,
    visible := true }

/-- The state `world0` with every plane showing `fb0`. -/
def world_fb : World :=
  { world0 with planes := fun i => { state := some state0, vdev := some i, active := 0 } }

/-- The state `world_pending` after the DRM core has asked for vblank
interrupts on pipeline 0. -/
def world_requested : World := (vdrm_irq_enable_vblank world_pending 0).2

/-- An update that disables plane 0. -/
def upd0 : vdrm_plane_update := disable_update 0

/-- The event that `upd0`, published for pipeline 0 on channel 0 with
`need_cb = true`, is registered as under handle `id`. -/
def ev0 (id : Nat) : vdrm_ctrl_pending_event :=
  with_handle (build_pending 0 upd0 (some 0) true) id

/-! ## `vdrm_controller.c`: the address ioctl -/

/-- The `struct v_ctrl_provider_buf_to_paddr_array` of the uapi header;
`paddrs` has `V_CTRL_NUM_GEMS_PER_BUFFER` entries. -/
structure v_ctrl_provider_buf_to_paddr_array where
  v_ctrl_buf_id : Nat
  num_paddrs : Nat
  paddrs : List Nat
deriving DecidableEq, Repr

/-- The loop `for (i = 0; i < n; i++) paddrs[i] = (uint32_t)plane_addrs[i]`.
Both arrays have two entries; events built by `vdrm_ctrl_publish` have
`n ≤ 2`. -/
def copy_paddrs (plane_addrs : List Nat) (n : Nat) (paddrs : List Nat) : List Nat :=
  (List.range n).foldl
    (fun p i => p.set i ((plane_addrs.getD i 0) % UINT_MOD)) paddrs

/-- The function `vdrm_ctrl_buf_to_paddr_array` (the address ioctl) on the
request `d`; the second component is `d` as the function leaves it. -/
def vdrm_ctrl_buf_to_paddr_array (s : World) (_dev : Nat)
    (d : v_ctrl_provider_buf_to_paddr_array) :
    Int × v_ctrl_provider_buf_to_paddr_array × World :=
  match idr_find s.vdrm_ctrl_buf_idr d.v_ctrl_buf_id with
  | none => (-ENOENT, d, s)
  | some e =>
    if e.num_planes = 0 then (-EINVAL, d, s)
    else
      (0, { d with num_paddrs := e.num_planes,
                   paddrs := copy_paddrs e.plane_addrs e.num_planes d.paddrs }, s)

/-! ## Runs of the whole driver -/

/-- The body of the loop of `vdrm_crtc_publish` without the unlinking: publish
`u` with `need_cb = true` and count it if that returned 0. -/
def publish_one (c : Nat) (s : World) (u : vdrm_plane_update) : World :=
  let r := vdrm_plane_publish s u.plane u (some c) true
  if r.1 = 0 then
    setCrtc r.2 c { r.2.crtcs c with
      num_pends := ((r.2.crtcs c).num_pends + 1) % UINT_MOD }
  else r.2

/-- The state `s` with the update queue of pipeline `c` replaced by `q`. -/
def set_updates (s : World) (c : Nat) (q : List vdrm_plane_update) : World :=
  setCrtc s c { s.crtcs c with updates := q }

/-- The entry points of the driver: the channel operations, the queue
operations, the pipeline callbacks, the timer, and the DRM core replacing the
state of a plane or the event of a pipeline state. -/
inductive SysOp where
  | chan (op : ChanOp)
  | queue (op : QueueOp)
  | atomic_enable (crtc : Nat)
  | atomic_flush (crtc : Nat)
  | tick (crtc : Nat)
  | enable_vblank (crtc : Nat)
  | disable_vblank (crtc : Nat)
  | set_plane_state (plane : Nat) (state : Option drm_plane_state)
  | set_state_event (crtc : Nat) (ev : Option Nat)
deriving DecidableEq, Repr

def sys_step (s : World) : SysOp → World
  | SysOp.chan op => chan_step s op
  | SysOp.queue op => queue_step s op
  | SysOp.atomic_enable crtc => vdrm_crtc_atomic_enable s crtc
  | SysOp.atomic_flush crtc => vdrm_crtc_atomic_flush s crtc
  | SysOp.tick crtc => (vsync_timer s crtc).2
  | SysOp.enable_vblank crtc => (vdrm_irq_enable_vblank s crtc).2
  | SysOp.disable_vblank crtc => vdrm_irq_disable_vblank s crtc
  | SysOp.set_plane_state plane state =>
    setPlane s plane { s.planes plane with state := state }
  | SysOp.set_state_event crtc ev =>
    setCrtc s crtc { s.crtcs crtc with state_event := ev }

def sys_run (s : World) (ops : List SysOp) : World :=
  ops.foldl sys_step s

/-- The state after topology setup: fresh channels, an empty IDR, no consumer
on any plane, and every pipeline as `vdrm_crtc_init` leaves it (disabled, no
outstanding event, empty queue). -/
def fresh_world (s : World) : Prop :=
  fresh_channels s ∧
  (∀ p, (s.planes p).active = 0) ∧
  (∀ c, (s.crtcs c).num_pends = 0 ∧ (s.crtcs c).updates = [] ∧
    (s.crtcs c).enabled = false ∧ (s.crtcs c).pending = false ∧
    (s.crtcs c).irq_requested = false ∧ (s.crtcs c).wait_for_disable = false ∧
    (s.crtcs c).event = none)

/-- States reached from a fresh state by any sequence of entry points. -/
inductive SysReach : World → Prop where
  | init (s : World) (h : fresh_world s) : SysReach s
  | step (s : World) (op : SysOp) (h : SysReach s) : SysReach (sys_step s op)

/-- What one entry point can do to a channel: store a newly registered event
in the Pending slot, move the Pending event to the Delivered slot, empty the
Delivered slot, take an event out on release, or count an open or a release. -/
inductive dev_step : vdrm_ctrl_device → vdrm_ctrl_device → Prop where
  | publish (d : vdrm_ctrl_device) (e : vdrm_ctrl_pending_event)
      (h : e.event.v_ctrl_buf_id = e.id) : dev_step d { d with event := some e }
  | read (d : vdrm_ctrl_device) (e : vdrm_ctrl_pending_event) (h : d.event = some e) :
      dev_step d { d with pending_event := some e, event := none }
  | ack (d : vdrm_ctrl_device) : dev_step d { d with pending_event := none }
  | take (d : vdrm_ctrl_device) : dev_step d (release_take d).2
  | opened (d : vdrm_ctrl_device) :
      dev_step d { d with open_count := (atomic_add_unless d.open_count 1 1).2 }
  | closed (d : vdrm_ctrl_device) :
      dev_step d { d with open_count := (atomic_add_unless d.open_count (-1) 0).2 }

/-- Every channel of `t` is the channel of `s` after some channel steps. -/
def devs_evolve (s t : World) : Prop :=
  ∀ x, Relation.ReflTransGen dev_step (s.devs x) (t.devs x)

/-- The open-count of the channel is 0 or 1. -/
def open_count_ok (d : vdrm_ctrl_device) : Prop :=
  d.open_count = 0 ∨ d.open_count = 1

/-- The handle field of the payload of every event in a slot is the id of the
event record. -/
def slots_stamped (d : vdrm_ctrl_device) : Prop :=
  (∀ e, d.event = some e → e.event.v_ctrl_buf_id = e.id) ∧
  (∀ e, d.pending_event = some e → e.event.v_ctrl_buf_id = e.id)

/-! ## More example states -/

/-- The framebuffer `fb0` placed at physical address 0x100001000, above 4 GiB. -/
def fb_hi : drm_framebuffer := { fb0 with paddr0 := 4294971392 }

/-- The state `world0` with every plane showing `fb_hi`. -/
def world_hi : World :=
  { world0 with
    planes := fun i =>
      { state := some { state0 with fb := some fb_hi }, vdev := some i, active := 0 } }

/-- An empty address request for handle 0. -/
def req0 : v_ctrl_provider_buf_to_paddr_array :=
  { v_ctrl_buf_id := 0, num_paddrs := 0, paddrs := [0, 0] }

/-- A reader whose buffer holds 16 bytes. -/
def args_small : read_args := { args0 with count := 16 }

/-- A non-blocking reader. -/
def args_nonblock : read_args := { args0 with nonblock := true }

/-! ## `vdrm_crtc.c`: disable and init -/

/-- The part of `vdrm_crtc_atomic_disable` on an enabled pipeline that runs
under `event_lock`, before the wait: take a vblank reference, arm the event,
`reinit_completion`, set `wait_for_disable`. The value `drm_crtc_vblank_get`
returns is decided by the DRM core; the `WARN_ON(ret != 0)` is not modelled. -/
def atomic_disable_begin (s : World) (c : Nat) : World :=
  let s1 := call s (HostCall.drm_crtc_vblank_get c)
  let s2 := vdrm_crtc_arm_event s1 c
  setCrtc s2 c { s2.crtcs c with framedone_completion := 0, wait_for_disable := true }

/-- The part of `vdrm_crtc_atomic_disable` from the return of
`wait_for_completion_timeout`: the wait consumed a completion if there was one,
else it timed out and `dev_err` is called; then `enabled = false` and
`drm_crtc_vblank_off`. -/
def atomic_disable_end (s : World) (c : Nat) : World :=
  let s1 :=
    if (s.crtcs c).framedone_completion = 0 then
      call s (HostCall.dev_err_framedone_timeout (s.crtcs c).id)
    else
      setCrtc s c { s.crtcs c with
        framedone_completion := (s.crtcs c).framedone_completion - 1 }
  let s2 := setCrtc s1 c { s1.crtcs c with enabled := false }
  call s2 (HostCall.drm_crtc_vblank_off c)

/-- The function `vdrm_crtc_atomic_disable`; `during` is what the other
contexts (timer, consumer, DRM core) run while the caller sits in the bounded
wait of 500 ms. -/
def vdrm_crtc_atomic_disable (s : World) (c : Nat) (during : List SysOp) : World :=
  if (s.crtcs c).enabled = false then
    call s (HostCall.WARN_ON WarnSite.atomic_disable_enabled)
  else
    atomic_disable_end (sys_run (atomic_disable_begin s c) during) c

/-- What `vdrm_crtc_init` returns: the new pipeline, NULL, an `ERR_PTR`, or
nothing because the division by a zero refresh rate trapped. -/
inductive crtc_init_result where
  | crtc (c : Nat)
  | null
  | err_ptr (e : Int)
  | fault
deriving DecidableEq, Repr

/-- The function `vdrm_crtc_init`. `c` is the address `kzalloc` returns for
the new `struct vdrm_crtc`, `refresh` the `refresh` property of the device node
(if it can be read), `init_ret` the value `drm_crtc_init_with_planes` returns.
The quotient is `div64_u64(1000000000ull, fps)`, which traps for `fps = 0`. -/
def vdrm_crtc_init (s : World) (c id plane : Nat) (refresh : Option Nat)
    (init_ret : Int) : crtc_init_result × World :=
  let a := kzalloc s
  if a.1 = false then (crtc_init_result.err_ptr (-ENOMEM), a.2)
  else
    match refresh with
    | none => (crtc_init_result.null, a.2)
    | some fps =>
      if fps = 0 then (crtc_init_result.fault, { a.2 with oops := true })
      else
        if init_ret < 0 then (crtc_init_result.err_ptr init_ret, a.2)
        else
          let k : vdrm_crtc :=
            { plane := plane, id := id, irq_requested := false,
              wait_for_disable := false, framedone_completion := 0, pending := false,
              enabled := false, event := none, state_event := none, fps := fps,
              nsec_to_vsync := 1000000000 / fps, updates := [], num_pends := 0 }
          (crtc_init_result.crtc c,
           call (setCrtc a.2 c k) (HostCall.hrtimer_start c k.nsec_to_vsync))

/-! ## Accounting of a drain -/

/-- The states agree on the channels, the registry, the planes, the
allocation stream and every outstanding counter; they may differ in the other
pipeline fields and in the trace. -/
def same_channels_and_counters (s t : World) : Prop :=
  t.devs = s.devs ∧ t.vdrm_ctrl_buf_idr = s.vdrm_ctrl_buf_idr ∧
  t.planes = s.planes ∧ t.mem = s.mem ∧
  ∀ x, (t.crtcs x).num_pends = (s.crtcs x).num_pends

/-- The number of iterations of the loop of `vdrm_crtc_publish` over the
queue, started in state `s`, in which `vdrm_plane_publish` returns 0. -/
def drain_successes (c : Nat) : List vdrm_plane_update → World → Nat
  | [], _ => 0
  | u :: rest, s =>
    (if (vdrm_plane_publish s u.plane u (some c) true).1 = 0 then 1 else 0)
      + drain_successes c rest (set_updates (publish_one c s u) c rest)

/-- The number of registered events with `need_cb` that belong to pipeline
`c`. -/
def gating_count (t : Idr) (c : Nat) : Nat :=
  (t.filter (fun o =>
    match o with
    | some e => e.need_cb && decide (e.crtc = some c)
    | none => false)).length

/-- The registered event `e` is the Pending or the Delivered event of the
channel `e.dev` it belongs to. -/
def held_by_owner (s : World) (e : vdrm_ctrl_pending_event) : Prop :=
  (s.devs e.dev).event = some e ∨ (s.devs e.dev).pending_event = some e

instance (s : World) (e : vdrm_ctrl_pending_event) : Decidable (held_by_owner s e) := by
  unfold held_by_owner
  exact inferInstance

/-! ## Example runs -/

/-- The install event of `world_fb`: what the open of channel 0 registers
under handle `id`. -/
def ev_install (id : Nat) : vdrm_ctrl_pending_event :=
  with_handle (build_pending 0 (update_of_state 64 0 state0 fb0) none false) id

/-- Channel 0 of `world_fb` opened (the install event is Pending under handle
0), then a disable update queued and pipeline 0 enabled: the gating event
replaces the install event in the Pending slot. -/
def world_replaced : World :=
  sys_run world_fb
    [SysOp.chan (ChanOp.open_dev 0), SysOp.queue (QueueOp.add_disable 0 0),
     SysOp.atomic_enable 0]

/-- From `world0`: open channel 0, queue a disable update, enable pipeline 0,
acknowledge handle 0 without reading it, close the channel. -/
def world_underflow : World :=
  sys_run world0
    [SysOp.chan (ChanOp.open_dev 0), SysOp.queue (QueueOp.add_disable 0 0),
     SysOp.atomic_enable 0, SysOp.chan (ChanOp.ack 0 0), SysOp.chan (ChanOp.close 0)]

/-- The state `world_requested` after the consumer has read and acknowledged
the event: pipeline 0 is enabled with nothing outstanding. -/
def world_idle : World :=
  (vdrm_ctrl_buf_submit_done (vdrm_ctrl_read world_requested 0 args0).2 0 0).2

/-- The state `world_both` after one more read: event 1 takes the Delivered
slot that still held the unacknowledged event 0. -/
def world_reread : World := (vdrm_ctrl_read world_both 0 args0).2
/-! ## The registry and its handles -/

/-- Every event of the registry carries the handle it is registered under,
in its record and in its payload. -/
def registry_stamped (t : Idr) : Prop :=
  ∀ (i : Nat) (e : vdrm_ctrl_pending_event), idr_find t i = some e →
    e.id = i ∧ e.event.v_ctrl_buf_id = i

/-- What one entry point can do to the registry: register, under a handle, an
event that carries that handle, or remove a handle. -/
inductive idr_step : Idr → Idr → Prop where
  | put (t : Idr) (i : Nat) (e : vdrm_ctrl_pending_event)
      (h : e.id = i ∧ e.event.v_ctrl_buf_id = i) : idr_step t (idr_put t i e)
  | remove (t : Idr) (i : Nat) : idr_step t (idr_remove t i).2

/-- The registry of `t` is the registry of `s` after some registry steps. -/
def idr_evolve (s t : World) : Prop :=
  Relation.ReflTransGen idr_step s.vdrm_ctrl_buf_idr t.vdrm_ctrl_buf_idr

/-! ## A plane state in the units of the DRM core -/

/-- A visible plane state showing all of `fb0` (source rectangle in 16.16
fixed point, as in `state0`) in a 640x480 rectangle at (100, 50) of pipeline 0,
the destination rectangle `crtc_x, crtc_y, crtc_w, crtc_h` given in whole
pixels. -/
def state_px : drm_plane_state :=
  { state0 with crtc_x := 100, crtc_y := 50, crtc_w := 640, crtc_h := 480 }

/-- The state `world0` with every plane in the state `state_px`. -/
def world_px : World :=
  { world0 with planes := fun i => { state := some state_px, vdev := some i, active := 0 } }

/-- The plane state `state_px` with the destination rectangle written in
16.16 fixed point instead. -/
def state_fx : drm_plane_state :=
  { state0 with crtc_x := 100 * 65536, crtc_y := 50 * 65536 }

/-- The state `world0` with every plane in the state `state_fx`. -/
def world_fx : World :=
  { world0 with planes := fun i => { state := some state_fx, vdev := some i, active := 0 } }

/-- The destination rectangle `(dst_x, dst_y, dst_w, dst_h)` and the source
size `(width, height)` in the payload of the Pending event of channel `dev`. -/
def pending_geometry (s : World) (dev : Nat) : Option ((Nat × Nat × Nat × Nat) × (Nat × Nat)) :=
  (s.devs dev).event.map (fun e =>
    ((e.event.dst_x, e.event.dst_y, e.event.dst_w, e.event.dst_h),
     (e.event.width, e.event.height)))

/-! # Theorems -/

/-! ## Projections of the state helpers -/

@[simp] theorem warn_on_devs (s : World) (b : Bool) (w : WarnSite) :
    (warn_on s b w).devs = s.devs := by
  unfold warn_on; split_ifs <;> rfl

@[simp] theorem warn_on_planes (s : World) (b : Bool) (w : WarnSite) :
    (warn_on s b w).planes = s.planes := by
  unfold warn_on; split_ifs <;> rfl

@[simp] theorem warn_on_crtcs (s : World) (b : Bool) (w : WarnSite) :
    (warn_on s b w).crtcs = s.crtcs := by
  unfold warn_on; split_ifs <;> rfl

@[simp] theorem warn_on_idr (s : World) (b : Bool) (w : WarnSite) :
    (warn_on s b w).vdrm_ctrl_buf_idr = s.vdrm_ctrl_buf_idr := by
  unfold warn_on; split_ifs <;> rfl

@[simp] theorem warn_on_mem (s : World) (b : Bool) (w : WarnSite) :
    (warn_on s b w).mem = s.mem := by
  unfold warn_on; split_ifs <;> rfl

@[simp] theorem warn_on_bits (s : World) (b : Bool) (w : WarnSite) :
    (warn_on s b w).dma_addr_bits = s.dma_addr_bits := by
  unfold warn_on; split_ifs <;> rfl

@[simp] theorem signal_devs (s : World) (crtc : Option Nat) :
    (vdrm_crtc_signal s crtc).devs = s.devs := by
  cases crtc <;> rfl

@[simp] theorem signal_planes (s : World) (crtc : Option Nat) :
    (vdrm_crtc_signal s crtc).planes = s.planes := by
  cases crtc <;> rfl

@[simp] theorem signal_idr (s : World) (crtc : Option Nat) :
    (vdrm_crtc_signal s crtc).vdrm_ctrl_buf_idr = s.vdrm_ctrl_buf_idr := by
  cases crtc <;> rfl

@[simp] theorem signal_trace (s : World) (crtc : Option Nat) :
    (vdrm_crtc_signal s crtc).trace = s.trace := by
  cases crtc <;> rfl

@[simp] theorem uninstall_devs (s : World) (plane : Nat) :
    (vdrm_plane_uninstall_consumer s plane).devs = s.devs := by
  simp [vdrm_plane_uninstall_consumer, setPlane]

@[simp] theorem uninstall_idr (s : World) (plane : Nat) :
    (vdrm_plane_uninstall_consumer s plane).vdrm_ctrl_buf_idr = s.vdrm_ctrl_buf_idr := by
  simp [vdrm_plane_uninstall_consumer, setPlane]

@[simp] theorem uninstall_crtcs (s : World) (plane : Nat) :
    (vdrm_plane_uninstall_consumer s plane).crtcs = s.crtcs := by
  simp [vdrm_plane_uninstall_consumer, setPlane]

@[simp] theorem release_open_count_idr (s : World) (dev : Nat) :
    (release_open_count s dev).vdrm_ctrl_buf_idr = s.vdrm_ctrl_buf_idr := by
  simp [release_open_count, setDev]

@[simp] theorem release_open_count_crtcs (s : World) (dev : Nat) :
    (release_open_count s dev).crtcs = s.crtcs := by
  simp [release_open_count, setDev]

theorem release_open_count_devs (s : World) (dev x : Nat) :
    (release_open_count s dev).devs x =
      if x = dev then
        { s.devs dev with
          open_count := (atomic_add_unless (s.devs dev).open_count (-1) 0).2 }
      else s.devs x := by
  simp [release_open_count, setDev]

/-! ## The kernel IDR -/

theorem idr_find_nil (id : Nat) : idr_find [] id = none := by
  simp [idr_find]

theorem idr_find_cons_zero (x : Option vdrm_ctrl_pending_event) (t : Idr) :
    idr_find (x :: t) 0 = x := by
  simp [idr_find]

theorem idr_find_cons_succ (x : Option vdrm_ctrl_pending_event) (t : Idr) (n : Nat) :
    idr_find (x :: t) (n + 1) = idr_find t n := by
  simp [idr_find]

theorem idr_find_put (t : Idr) (i : Nat) (e : vdrm_ctrl_pending_event) (j : Nat) :
    idr_find (idr_put t i e) j = if j = i then some e else idr_find t j := by
  induction t generalizing i j with
  | nil =>
    induction i generalizing j with
    | zero =>
      cases j <;> simp [idr_put, idr_find]
    | succ n ih =>
      cases j with
      | zero => simp [idr_put, idr_find]
      | succ m =>
        have := ih m
        simp only [idr_put, idr_find_cons_succ, this, idr_find_nil]
        simp
  | cons x t ih =>
    cases i with
    | zero =>
      cases j <;> simp [idr_put, idr_find]
    | succ n =>
      cases j with
      | zero => simp [idr_put, idr_find]
      | succ m =>
        simp only [idr_put, idr_find_cons_succ, ih]
        simp

theorem idr_find_remove (t : Idr) (i j : Nat) :
    idr_find (idr_remove t i).2 j = if j = i then none else idr_find t j := by
  simp only [idr_remove, idr_find, List.get?_eq_getElem?, List.getElem?_set]
  by_cases h : i = j
  · subst h
    by_cases hl : i < t.length
    · simp [hl]
    · simp [hl, List.getElem?_eq_none (not_lt.mp hl)]
  · have h2 : ¬ j = i := fun e => h e.symm
    simp [h, h2]

theorem idr_remove_absent (t : Idr) (i : Nat) (h : idr_find t i = none) :
    (idr_remove t i).2 = t := by
  simp only [idr_remove]
  apply List.ext_getElem?
  intro j
  rw [List.getElem?_set]
  by_cases hij : i = j
  · subst hij
    by_cases hl : i < t.length
    · simp only [hl, if_true]
      simp only [idr_find, List.get?_eq_getElem?] at h
      rw [List.getElem?_eq_getElem hl] at h ⊢
      simp at h
      simp [h]
    · simp [hl, List.getElem?_eq_none (not_lt.mp hl)]
  · simp [hij]

theorem idr_alloc_ne_ebusy (t : Idr) (b : Bool) : idr_alloc t b ≠ -EBUSY := by
  unfold idr_alloc
  split_ifs <;> simp [ENOMEM, EBUSY, ENOSPC]

theorem gating_pending_iff (d : vdrm_ctrl_device) :
    gating_pending d = true ↔ ∃ e, d.event = some e ∧ e.need_cb = true := by
  unfold gating_pending
  cases h : d.event <;> simp

/-! ## The channel slots under each operation -/

theorem publish_pending_event (s : World) (dev : Nat) (u : vdrm_plane_update)
    (crtc : Option Nat) (need_cb : Bool) (x : Nat) :
    ((vdrm_ctrl_publish s dev u crtc need_cb).2.devs x).pending_event
      = (s.devs x).pending_event := by
  unfold vdrm_ctrl_publish
  simp only [kzalloc, setDev, call]
  split_ifs with h1 h2 h3 h4 <;> simp
  split_ifs with h6
  · subst h6; rfl
  · rfl

theorem publish_devs_other (s : World) (dev : Nat) (u : vdrm_plane_update)
    (crtc : Option Nat) (need_cb : Bool) (x : Nat) (hx : x ≠ dev) :
    (vdrm_ctrl_publish s dev u crtc need_cb).2.devs x = s.devs x := by
  unfold vdrm_ctrl_publish
  simp only [kzalloc, setDev, call]
  split_ifs <;> simp [hx]

theorem publish_single (s : World) (dev : Nat) (u : vdrm_plane_update)
    (crtc : Option Nat) (need_cb : Bool) (x : Nat)
    (hg : (s.devs dev).pending_event = none) (h : single_outstanding s x) :
    single_outstanding (vdrm_ctrl_publish s dev u crtc need_cb).2 x := by
  unfold single_outstanding at *
  by_cases hx : x = dev
  · subst hx
    right
    rw [publish_pending_event]
    exact hg
  · rw [publish_devs_other _ _ _ _ _ _ hx]
    exact h

theorem plane_publish_single (s : World) (plane : Nat) (u : vdrm_plane_update)
    (crtc : Option Nat) (need_cb : Bool) (x : Nat)
    (hg : ∀ dev, (s.planes plane).vdev = some dev → (s.devs dev).pending_event = none)
    (h : single_outstanding s x) :
    single_outstanding (vdrm_plane_publish s plane u crtc need_cb).2 x := by
  unfold vdrm_plane_publish
  split_ifs with ha
  · cases hv : (s.planes plane).vdev with
    | none => simpa [null_deref, single_outstanding] using h
    | some dev => exact publish_single s dev u crtc need_cb x (hg dev hv) h
  · exact h

theorem install_single (s : World) (plane : Nat) (x : Nat)
    (hg : ∀ dev, (s.planes plane).vdev = some dev → (s.devs dev).pending_event = none)
    (h : single_outstanding s x) :
    single_outstanding (vdrm_plane_install_consumer s plane) x := by
  have key : ∀ w : World, w.devs = s.devs →
      (w.planes plane).vdev = (s.planes plane).vdev →
      ∀ u, single_outstanding (vdrm_plane_publish w plane u none false).2 x := by
    intro w hd hv u
    apply plane_publish_single
    · intro dev hdev
      rw [hd]
      exact hg dev (hv ▸ hdev)
    · simpa [single_outstanding, hd] using h
  have base : ∀ w : World, w.devs = s.devs → single_outstanding w x := by
    intro w hd
    simpa [single_outstanding, hd] using h
  unfold vdrm_plane_install_consumer
  simp only []
  split
  · exact base _ (by simp [setPlane])
  · split
    · exact base _ (by simp [setPlane])
    · split_ifs with h1
      · exact base _ (by simp [setPlane, null_deref, kzalloc])
      · split
        · exact base _ (by simp [setPlane, null_deref, kzalloc])
        · apply key <;> simp [setPlane, kzalloc]

theorem open_single (s : World) (dev : Nat) (x : Nat)
    (hg : ∀ d, (s.planes (s.devs dev).plane).vdev = some d → (s.devs d).pending_event = none)
    (h : single_outstanding s x) :
    single_outstanding (vdrm_ctrl_open s dev).2 x := by
  unfold vdrm_ctrl_open
  simp only []
  split_ifs with h1
  · exact h
  · apply install_single
    · intro d hd
      simp only [setDev] at hd ⊢
      simp at hd
      have := hg d hd
      split_ifs with h2
      · subst h2; exact this
      · exact this
    · unfold single_outstanding at *
      simp only [setDev]
      split_ifs with h2
      · subst h2; exact h
      · exact h

theorem read_single (s : World) (dev : Nat) (a : read_args) (x : Nat)
    (h : single_outstanding s x) :
    single_outstanding (vdrm_ctrl_read s dev a).2 x := by
  unfold vdrm_ctrl_read
  by_cases h1 : a.access_ok = false
  · rw [if_pos h1]
    exact h
  · rw [if_neg h1]
    cases he : (s.devs dev).event with
    | none =>
      simp only []
      split_ifs <;> exact h
    | some e =>
      simp only []
      split_ifs
      · exact h
      · exact h
      · unfold single_outstanding at *
        simp only [setDev]
        split_ifs with h2
        · left; rfl
        · exact h

theorem ack_single (s : World) (dev : Nat) (id : Nat) (x : Nat)
    (h : single_outstanding s x) :
    single_outstanding (vdrm_ctrl_buf_submit_done s dev id).2 x := by
  unfold vdrm_ctrl_buf_submit_done
  simp only []
  split
  · exact h
  · unfold single_outstanding at *
    split_ifs with h1
    · rw [signal_devs]
      simp only [setDev]
      split_ifs with h2
      · right; rfl
      · exact h
    · simp only [setDev]
      split_ifs with h2
      · right; rfl
      · exact h

theorem release_take_event (d : vdrm_ctrl_device) : (release_take d).2.event = none := by
  unfold release_take
  cases h1 : d.event with
  | some e => rfl
  | none =>
    cases h2 : d.pending_event with
    | some e => rfl
    | none => simp [h1]

theorem release_devs (s : World) (dev : Nat) (x : Nat) :
    (vdrm_ctrl_release s dev).2.devs x =
      if x = dev then
        { (release_take (s.devs dev)).2 with
          open_count := (atomic_add_unless (s.devs dev).open_count (-1) 0).2 }
      else s.devs x := by
  have hopen : (release_take (s.devs dev)).2.open_count = (s.devs dev).open_count := by
    unfold release_take
    cases (s.devs dev).event <;> cases (s.devs dev).pending_event <;> rfl
  unfold vdrm_ctrl_release
  simp only [uninstall_devs]
  split
  · rw [release_open_count_devs]
    by_cases hx : x = dev <;> simp [hx, setDev, hopen]
  · rw [release_open_count_devs]
    by_cases hx : x = dev <;> simp [hx, setDev, hopen, apply_ite World.devs]

theorem release_single (s : World) (dev : Nat) (x : Nat)
    (h : single_outstanding s x) :
    single_outstanding (vdrm_ctrl_release s dev).2 x := by
  unfold single_outstanding at *
  rw [release_devs]
  by_cases hx : x = dev
  · left
    simp [hx, release_take_event]
  · simpa [hx] using h

theorem chan_step_single (s : World) (op : ChanOp)
    (g : no_publish_over_delivered s op) (x : Nat) (h : single_outstanding s x) :
    single_outstanding (chan_step s op) x := by
  cases op with
  | open_dev dev => exact open_single s dev x (fun d hd => g d hd) h
  | publish dev u crtc need_cb => exact publish_single s dev u crtc need_cb x (g dev rfl) h
  | read dev a => exact read_single s dev a x h
  | ack dev id => exact ack_single s dev id x h
  | close dev => exact release_single s dev x h

/-! ## C1: single outstanding event -/

/-- In every state reached from freshly created channels through open,
publish, read, acknowledge and close, where no publish (a direct one or the
install publish of an open) is made to a channel that holds a Delivered event,
at most one of the Pending and the Delivered slot of a channel is set. The
driver itself does not keep to that condition. -/
theorem guarded_single_outstanding (s : World) (h : GuardedReach s) (dev : Nat) :
    single_outstanding s dev := by
  induction h with
  | init s h => exact Or.inl (h.2 dev).1
  | step s op _ g ih => exact chan_step_single s op g dev ih

theorem world0_fresh : fresh_channels world0 :=
  ⟨rfl, fun _ => ⟨rfl, rfl, rfl⟩⟩

/-- C1 (the code at the failing input): from the fresh state `world0`, open,
`vdrm_crtc_add_disable`, `vdrm_crtc_atomic_enable`, read, `vdrm_crtc_add_disable`,
`vdrm_crtc_atomic_flush` is a run of entry points of the driver. After the read
channel 0 holds the Delivered event 0 and no Pending event; the flush publishes
event 1 all the same, and channel 0 then holds the Pending event 1 and the
Delivered event 0, both registered. The same happens with a direct
`vdrm_ctrl_publish` after a read. -/
theorem C1_both_slots_set :
    fresh_channels world0 ∧
    world_both =
      sys_run world0
        [SysOp.chan (ChanOp.open_dev 0), SysOp.queue (QueueOp.add_disable 0 0),
         SysOp.atomic_enable 0, SysOp.chan (ChanOp.read 0 args0),
         SysOp.queue (QueueOp.add_disable 0 0), SysOp.atomic_flush 0] ∧
    ((world_delivered.devs 0).event = none ∧
      (world_delivered.devs 0).pending_event = some (ev0 0) ∧
      (world_both.devs 0).event = some (ev0 1) ∧
      (world_both.devs 0).pending_event = some (ev0 0) ∧
      idr_find world_both.vdrm_ctrl_buf_idr 0 = some (ev0 0) ∧
      idr_find world_both.vdrm_ctrl_buf_idr 1 = some (ev0 1) ∧
      ¬ single_outstanding world_both 0) ∧
    ¬ single_outstanding
        (chan_run world0
          [ChanOp.open_dev 0, ChanOp.publish 0 upd0 (some 0) true, ChanOp.read 0 args0,
           ChanOp.publish 0 upd0 (some 0) true]) 0 :=
  ⟨world0_fresh, rfl, by decide, by decide⟩

/-! ## C2, C3: the Busy gate of publish -/

theorem publish_ret_busy_iff (s : World) (dev : Nat) (u : vdrm_plane_update)
    (crtc : Option Nat) (need_cb : Bool) :
    (vdrm_ctrl_publish s dev u crtc need_cb).1 = -EBUSY ↔
      (s.mem 0 = true ∧ s.mem 1 = true ∧ gating_pending (s.devs dev) = true) := by
  unfold vdrm_ctrl_publish
  simp only [kzalloc]
  by_cases h0 : s.mem 0 = true
  · by_cases h1 : s.mem 1 = true
    · by_cases hg : gating_pending (s.devs dev) = true
      · simp [h0, h1, hg]
      · simp only [h0, h1, hg]
        simp
        split_ifs with h
        · exact idr_alloc_ne_ebusy _ _
        · simp [EBUSY]
    · simp [h0, h1, ENOMEM, EBUSY]
  · simp [h0, ENOMEM, EBUSY]

/-- C2: when the two `kzalloc` calls of `vdrm_ctrl_publish` succeed, it returns
`-EBUSY` exactly when the channel has a Pending event whose `need_cb` is true;
the `need_cb` argument of the call plays no part in that. -/
theorem C2_publish_busy_iff (s : World) (dev : Nat) (u : vdrm_plane_update)
    (crtc : Option Nat) (need_cb : Bool) (h0 : s.mem 0 = true) (h1 : s.mem 1 = true) :
    ((vdrm_ctrl_publish s dev u crtc need_cb).1 = -EBUSY ↔
      ∃ e, (s.devs dev).event = some e ∧ e.need_cb = true) ∧
    ((vdrm_ctrl_publish s dev u crtc true).1 = -EBUSY ↔
      (vdrm_ctrl_publish s dev u crtc false).1 = -EBUSY) := by
  constructor
  · rw [publish_ret_busy_iff, ← gating_pending_iff]
    simp [h0, h1]
  · rw [publish_ret_busy_iff, publish_ret_busy_iff]

/-- C2 (witness): a gating event is Pending on channel 0 of `world_pending`. -/
theorem C2_publish_busy_iff_witness :
    (world_pending.mem 0 = true ∧ world_pending.mem 1 = true) ∧
    (((vdrm_ctrl_publish world_pending 0 upd0 (some 0) true).1 = -EBUSY ↔
      ∃ e, (world_pending.devs 0).event = some e ∧ e.need_cb = true) ∧
    ((vdrm_ctrl_publish world_pending 0 upd0 (some 0) true).1 = -EBUSY ↔
      (vdrm_ctrl_publish world_pending 0 upd0 (some 0) false).1 = -EBUSY)) :=
  ⟨⟨rfl, rfl⟩, C2_publish_busy_iff world_pending 0 upd0 (some 0) true rfl rfl⟩

/-- C3 (counterexample): with a gating event Pending on channel 0, a publish
with `need_cb = false` returns `-EBUSY`. -/
theorem C3_nongating_publish_busy :
    (∃ e, (world_pending.devs 0).event = some e ∧ e.need_cb = true) ∧
    (vdrm_ctrl_publish world_pending 0 upd0 none false).1 = -EBUSY :=
  ⟨⟨_, rfl, rfl⟩, by decide⟩

/-- C3 (amended): a publish with `need_cb = false` returns `-EBUSY` exactly
when its two `kzalloc` calls succeed and a `need_cb = true` event is Pending on
the channel; so it never does when the Pending slot is empty or holds a
non-gating event, and when it does, the Pending gating event, the Delivered slot
and the registry are left as they were. -/
theorem C3_nongating_publish_busy_iff (s : World) (dev : Nat) (u : vdrm_plane_update)
    (crtc : Option Nat) :
    ((vdrm_ctrl_publish s dev u crtc false).1 = -EBUSY ↔
      (s.mem 0 = true ∧ s.mem 1 = true ∧
        ∃ e, (s.devs dev).event = some e ∧ e.need_cb = true)) ∧
    ((vdrm_ctrl_publish s dev u crtc false).1 = -EBUSY →
      (vdrm_ctrl_publish s dev u crtc false).2.devs = s.devs ∧
      (vdrm_ctrl_publish s dev u crtc false).2.vdrm_ctrl_buf_idr = s.vdrm_ctrl_buf_idr) := by
  constructor
  · rw [publish_ret_busy_iff, ← gating_pending_iff]
  · intro h
    have hb := (publish_ret_busy_iff s dev u crtc false).1 h
    unfold vdrm_ctrl_publish
    simp [kzalloc, hb.1, hb.2.1, hb.2.2, call]

/-! ## C4: acknowledge does not look at the Delivered slot -/

/-- C4 (the code at the failing inputs): in `world_pending` handle 0 is
registered and is the Pending, never read event of channel 0 (the Delivered
slot is empty), yet acknowledging it on channel 0 returns 0, removes it from
the registry and decrements the outstanding counter of pipeline 0 from 1 to 0,
while the Pending slot of channel 0 still holds the released event. The same
acknowledge issued on channel 1, which does not own the event, does the same. -/
theorem C4_ack_of_pending_succeeds :
    (idr_find world_pending.vdrm_ctrl_buf_idr 0).isSome = true ∧
    (world_pending.devs 0).pending_event = none ∧
    (world_pending.crtcs 0).num_pends = 1 ∧
    (vdrm_ctrl_buf_submit_done world_pending 0 0).1 = 0 ∧
    idr_find (vdrm_ctrl_buf_submit_done world_pending 0 0).2.vdrm_ctrl_buf_idr 0 = none ∧
    ((vdrm_ctrl_buf_submit_done world_pending 0 0).2.crtcs 0).num_pends = 0 ∧
    (world_pending.devs 0).event = some (ev0 0) ∧
    ((vdrm_ctrl_buf_submit_done world_pending 0 0).2.devs 0).event = some (ev0 0) ∧
    ((ev0 0).dev = 0 ∧
      (vdrm_ctrl_buf_submit_done world_pending 1 0).1 = 0 ∧
      idr_find (vdrm_ctrl_buf_submit_done world_pending 1 0).2.vdrm_ctrl_buf_idr 0 = none ∧
      ((vdrm_ctrl_buf_submit_done world_pending 1 0).2.crtcs 0).num_pends = 0 ∧
      ((vdrm_ctrl_buf_submit_done world_pending 1 0).2.devs 0).event = some (ev0 0)) := by
  decide

theorem ack_registered (s : World) (dev id : Nat) (e : vdrm_ctrl_pending_event)
    (h : idr_find s.vdrm_ctrl_buf_idr id = some e) :
    (vdrm_ctrl_buf_submit_done s dev id).1 = 0 ∧
    (∀ j, idr_find (vdrm_ctrl_buf_submit_done s dev id).2.vdrm_ctrl_buf_idr j =
      if j = id then none else idr_find s.vdrm_ctrl_buf_idr j) ∧
    ((vdrm_ctrl_buf_submit_done s dev id).2.devs dev).pending_event = none ∧
    ((vdrm_ctrl_buf_submit_done s dev id).2.devs dev).event = (s.devs dev).event ∧
    (∀ x, x ≠ dev → (vdrm_ctrl_buf_submit_done s dev id).2.devs x = s.devs x) ∧
    (e.need_cb = true → ∀ c, e.crtc = some c →
      ((vdrm_ctrl_buf_submit_done s dev id).2.crtcs c).num_pends =
        ((s.crtcs c).num_pends + UINT_MOD - 1) % UINT_MOD ∧
      ∀ c2, c2 ≠ c → (vdrm_ctrl_buf_submit_done s dev id).2.crtcs c2 = s.crtcs c2) ∧
    (e.need_cb = false → (vdrm_ctrl_buf_submit_done s dev id).2.crtcs = s.crtcs) := by
  have hr : (idr_remove s.vdrm_ctrl_buf_idr id).1 = some e := h
  unfold vdrm_ctrl_buf_submit_done
  simp only [hr]
  refine ⟨?_, ?_, ?_, ?_, ?_, ?_, ?_⟩
  · trivial
  · intro j
    rw [← idr_find_remove]
    split_ifs <;> simp [setDev]
  · split_ifs <;> simp [setDev]
  · split_ifs <;> simp [setDev]
  · intro x hx
    split_ifs <;> simp [setDev, hx]
  · intro hcb c hc
    simp [hcb, hc, vdrm_crtc_signal, setCrtc, setDev]
    intro c2 hc2
    simp [hc2]
  · intro hcb
    simp [hcb, setDev]


/-! ## C5: close releases one event only -/

/-- C5 (the code at the failing input): in `world_both` channel 0 holds the
Pending event 1 and the Delivered event 0, both with `need_cb`, and the
outstanding counter of pipeline 0 is 2. After `vdrm_ctrl_release` the Pending
slot is empty, but event 0 is still in the Delivered slot and in the registry
and the counter is 1, not 0. -/
theorem C5_close_leaves_delivered :
    (world_both.devs 0).event = some (ev0 1) ∧
    (world_both.devs 0).pending_event = some (ev0 0) ∧
    (world_both.crtcs 0).num_pends = 2 ∧
    (vdrm_ctrl_release world_both 0).1 = 0 ∧
    ((vdrm_ctrl_release world_both 0).2.devs 0).event = none ∧
    ((vdrm_ctrl_release world_both 0).2.devs 0).pending_event = some (ev0 0) ∧
    idr_find (vdrm_ctrl_release world_both 0).2.vdrm_ctrl_buf_idr 0 = some (ev0 0) ∧
    idr_find (vdrm_ctrl_release world_both 0).2.vdrm_ctrl_buf_idr 1 = none ∧
    ((vdrm_ctrl_release world_both 0).2.crtcs 0).num_pends = 1 := by
  decide

/-! ## C8: a handle is released at most once -/

theorem ack_absent (s : World) (dev id : Nat)
    (h : idr_find s.vdrm_ctrl_buf_idr id = none) :
    vdrm_ctrl_buf_submit_done s dev id = (-ENOENT, s) := by
  have hr : (idr_remove s.vdrm_ctrl_buf_idr id).1 = none := h
  unfold vdrm_ctrl_buf_submit_done
  simp only [hr]

theorem ack_ok_removes (s : World) (dev id : Nat)
    (h : (vdrm_ctrl_buf_submit_done s dev id).1 = 0) :
    idr_find (vdrm_ctrl_buf_submit_done s dev id).2.vdrm_ctrl_buf_idr id = none := by
  cases hf : idr_find s.vdrm_ctrl_buf_idr id with
  | none =>
    rw [ack_absent s dev id hf] at h
    simp [ENOENT] at h
  | some e =>
    have hr : (idr_remove s.vdrm_ctrl_buf_idr id).1 = some e := hf
    unfold vdrm_ctrl_buf_submit_done
    simp only [hr]
    have := idr_find_remove s.vdrm_ctrl_buf_idr id id
    split_ifs <;> simpa [setDev] using this

/-- C8: once an acknowledge of handle `id` has succeeded, a second acknowledge
of `id`, on any channel and with nothing in between, returns `-ENOENT` and
leaves the whole state (registry, slots, counters) as it was; and an acknowledge
of a handle that is not in the registry returns `-ENOENT` and changes nothing. -/
theorem C8_second_ack_not_found (s : World) (dev id : Nat)
    (h : (vdrm_ctrl_buf_submit_done s dev id).1 = 0) :
    (∀ dev2, vdrm_ctrl_buf_submit_done (vdrm_ctrl_buf_submit_done s dev id).2 dev2 id =
      (-ENOENT, (vdrm_ctrl_buf_submit_done s dev id).2)) ∧
    (∀ (t : World) (dev2 id2 : Nat), idr_find t.vdrm_ctrl_buf_idr id2 = none →
      vdrm_ctrl_buf_submit_done t dev2 id2 = (-ENOENT, t)) :=
  ⟨fun dev2 => ack_absent _ dev2 id (ack_ok_removes s dev id h),
   fun t dev2 id2 ht => ack_absent t dev2 id2 ht⟩

/-- C8 (witness): handle 0 is acknowledged in `world_delivered`. -/
theorem C8_second_ack_not_found_witness :
    (vdrm_ctrl_buf_submit_done world_delivered 0 0).1 = 0 ∧
    (vdrm_ctrl_buf_submit_done (vdrm_ctrl_buf_submit_done world_delivered 0 0).2 0 0).1 =
      -ENOENT :=
  ⟨by decide,
   congrArg Prod.fst ((C8_second_ack_not_found world_delivered 0 0 (by decide)).1 0)⟩

/-! ## C6, C7: the round trip of one gating event -/

theorem publish_ok (s : World) (dev : Nat) (u : vdrm_plane_update) (crtc : Option Nat)
    (need_cb : Bool) (h0 : s.mem 0 = true) (h1 : s.mem 1 = true) (h2 : s.mem 2 = true)
    (hg : gating_pending (s.devs dev) = false)
    (hsp : idr_first_free s.vdrm_ctrl_buf_idr ≤ INT_MAX) :
    (vdrm_ctrl_publish s dev u crtc need_cb).1 = 0 ∧
    (vdrm_ctrl_publish s dev u crtc need_cb).2.vdrm_ctrl_buf_idr =
      idr_put s.vdrm_ctrl_buf_idr (idr_first_free s.vdrm_ctrl_buf_idr)
        (with_handle (build_pending dev u crtc need_cb)
          (idr_first_free s.vdrm_ctrl_buf_idr)) ∧
    (vdrm_ctrl_publish s dev u crtc need_cb).2.devs =
      (fun j => if j = dev then
          { s.devs dev with event := some (with_handle (build_pending dev u crtc need_cb)
              (idr_first_free s.vdrm_ctrl_buf_idr)) }
        else s.devs j) ∧
    (vdrm_ctrl_publish s dev u crtc need_cb).2.crtcs = s.crtcs ∧
    (vdrm_ctrl_publish s dev u crtc need_cb).2.planes = s.planes := by
  have hnl : ¬ ((idr_first_free s.vdrm_ctrl_buf_idr : Int) < 0) := by omega
  have hle : ¬ (idr_first_free s.vdrm_ctrl_buf_idr > INT_MAX) := by omega
  unfold vdrm_ctrl_publish
  simp [kzalloc, h0, h1, h2, hg, idr_alloc, hnl, hle, setDev, call]

theorem plane_publish_ok (s : World) (dev : Nat) (u : vdrm_plane_update)
    (crtc : Option Nat) (need_cb : Bool)
    (hact : (s.planes u.plane).active ≠ 0) (hvdev : (s.planes u.plane).vdev = some dev)
    (h0 : s.mem 0 = true) (h1 : s.mem 1 = true) (h2 : s.mem 2 = true)
    (hg : gating_pending (s.devs dev) = false)
    (hsp : idr_first_free s.vdrm_ctrl_buf_idr ≤ INT_MAX) :
    (vdrm_plane_publish s u.plane u crtc need_cb).1 = 0 ∧
    (vdrm_plane_publish s u.plane u crtc need_cb).2.vdrm_ctrl_buf_idr =
      idr_put s.vdrm_ctrl_buf_idr (idr_first_free s.vdrm_ctrl_buf_idr)
        (with_handle (build_pending dev u crtc need_cb)
          (idr_first_free s.vdrm_ctrl_buf_idr)) ∧
    (vdrm_plane_publish s u.plane u crtc need_cb).2.devs =
      (fun j => if j = dev then
          { s.devs dev with event := some (with_handle (build_pending dev u crtc need_cb)
              (idr_first_free s.vdrm_ctrl_buf_idr)) }
        else s.devs j) ∧
    (vdrm_plane_publish s u.plane u crtc need_cb).2.crtcs = s.crtcs ∧
    (vdrm_plane_publish s u.plane u crtc need_cb).2.planes = s.planes := by
  unfold vdrm_plane_publish
  simp only [hact, hvdev, ne_eq, not_false_eq_true, if_true]
  exact publish_ok s dev u crtc need_cb h0 h1 h2 hg hsp

theorem arm_event_devs (s : World) (c : Nat) : (vdrm_crtc_arm_event s c).devs = s.devs := by
  unfold vdrm_crtc_arm_event
  simp only []
  split <;> simp [setCrtc]

theorem arm_event_idr (s : World) (c : Nat) :
    (vdrm_crtc_arm_event s c).vdrm_ctrl_buf_idr = s.vdrm_ctrl_buf_idr := by
  unfold vdrm_crtc_arm_event
  simp only []
  split <;> simp [setCrtc]

theorem arm_event_num_pends (s : World) (c x : Nat) :
    ((vdrm_crtc_arm_event s c).crtcs x).num_pends = (s.crtcs x).num_pends := by
  unfold vdrm_crtc_arm_event
  simp only []
  split <;> by_cases hx : x = c <;> simp [setCrtc, hx]

/-- The event a flush of the single queued update `u` registers. -/
theorem flush_one (s : World) (c dev : Nat) (u : vdrm_plane_update)
    (hen : (s.crtcs c).enabled = true) (hq : (s.crtcs c).updates = [u])
    (hact : (s.planes u.plane).active ≠ 0) (hvdev : (s.planes u.plane).vdev = some dev)
    (h0 : s.mem 0 = true) (h1 : s.mem 1 = true) (h2 : s.mem 2 = true)
    (hg : gating_pending (s.devs dev) = false)
    (hsp : idr_first_free s.vdrm_ctrl_buf_idr ≤ INT_MAX) :
    (vdrm_crtc_atomic_flush s c).vdrm_ctrl_buf_idr =
      idr_put s.vdrm_ctrl_buf_idr (idr_first_free s.vdrm_ctrl_buf_idr)
        (with_handle (build_pending dev u (some c) true)
          (idr_first_free s.vdrm_ctrl_buf_idr)) ∧
    (vdrm_crtc_atomic_flush s c).devs =
      (fun j => if j = dev then
          { s.devs dev with event := some (with_handle (build_pending dev u (some c) true)
              (idr_first_free s.vdrm_ctrl_buf_idr)) }
        else s.devs j) ∧
    ((vdrm_crtc_atomic_flush s c).crtcs c).num_pends =
      ((s.crtcs c).num_pends + 1) % UINT_MOD := by
  have hp := plane_publish_ok (call s (HostCall.drm_crtc_vblank_get c)) dev u (some c) true
    hact hvdev h0 h1 h2 hg hsp
  obtain ⟨hp1, hp2, hp3, hp4, _⟩ := hp
  have hq2 : ((call s (HostCall.drm_crtc_vblank_get c)).crtcs c).updates = [u] := hq
  unfold vdrm_crtc_atomic_flush
  simp only [hen, Bool.true_eq_false, if_false]
  unfold vdrm_crtc_publish
  rw [hq2]
  simp only [vdrm_crtc_publish_loop, hp1, if_true]
  refine ⟨?_, ?_, ?_⟩
  · rw [arm_event_idr]
    simp only [setCrtc, hp2]
    rfl
  · rw [arm_event_devs]
    simp only [setCrtc, hp3]
    rfl
  · rw [arm_event_num_pends]
    simp only [setCrtc, hp4, if_true]
    rfl

theorem read_ok (s : World) (dev : Nat) (a : read_args) (e : vdrm_ctrl_pending_event)
    (he : (s.devs dev).event = some e) (hacc : a.access_ok = true)
    (hcopy : a.copy_fault = false) (hlen : e.event.base.length ≤ a.count) :
    vdrm_ctrl_read s dev a =
      (read_result.ret (e.event.base.length : Int) (some e.event),
       setDev s dev { s.devs dev with pending_event := some e, event := none }) := by
  have hl : ¬ (e.event.base.length > a.count) := by omega
  unfold vdrm_ctrl_read
  simp [hacc, he, hcopy, hl]

theorem build_event_length (u : vdrm_plane_update) :
    (build_event u).base.length = sizeof_v_ctrl_event_new_buffer := by
  unfold build_event
  split_ifs <;> rfl

theorem uint_dec_inc (n : Nat) (h : n < UINT_MOD) :
    ((n + 1) % UINT_MOD + UINT_MOD - 1) % UINT_MOD = n := by
  unfold UINT_MOD at *
  omega

/-- C6: Scenario A. Pipeline `c` is enabled, its counter is `n`, its queue
holds the single update `u` whose surface has a consumer on channel `dev`, no
gating event is Pending there, the allocations of the publish succeed and the
reader's buffer is valid and large enough. Then the flush registers an event
`e` with `need_cb` as the Pending event of `dev` and makes the counter `n + 1`
(as an `unsigned int`); the read returns the 48 payload bytes of `e`, whose
handle field is `e.id`; acknowledging `e.id` returns 0, removes the handle from
the registry, empties the Delivered slot and brings the counter back to `n`. -/
theorem C6_scenario_a (s : World) (c dev : Nat) (u : vdrm_plane_update) (n : Nat)
    (a : read_args)
    (hen : (s.crtcs c).enabled = true)
    (hn : (s.crtcs c).num_pends = n) (hlt : n < UINT_MOD)
    (hq : (s.crtcs c).updates = [u])
    (hact : (s.planes u.plane).active ≠ 0) (hvdev : (s.planes u.plane).vdev = some dev)
    (hg : gating_pending (s.devs dev) = false)
    (h0 : s.mem 0 = true) (h1 : s.mem 1 = true) (h2 : s.mem 2 = true)
    (hsp : idr_first_free s.vdrm_ctrl_buf_idr ≤ INT_MAX)
    (hacc : a.access_ok = true) (hcopy : a.copy_fault = false)
    (hcount : sizeof_v_ctrl_event_new_buffer ≤ a.count) :
    ∃ e : vdrm_ctrl_pending_event,
      ((vdrm_crtc_atomic_flush s c).crtcs c).num_pends = (n + 1) % UINT_MOD ∧
      (n + 1 < UINT_MOD → ((vdrm_crtc_atomic_flush s c).crtcs c).num_pends = n + 1) ∧
      ((vdrm_crtc_atomic_flush s c).devs dev).event = some e ∧
      e.need_cb = true ∧ e.crtc = some c ∧ e.event.v_ctrl_buf_id = e.id ∧
      idr_find (vdrm_crtc_atomic_flush s c).vdrm_ctrl_buf_idr e.id = some e ∧
      (vdrm_ctrl_read (vdrm_crtc_atomic_flush s c) dev a).1 =
        read_result.ret 48 (some e.event) ∧
      ((vdrm_ctrl_read (vdrm_crtc_atomic_flush s c) dev a).2.devs dev).pending_event
        = some e ∧
      (vdrm_ctrl_buf_submit_done
        (vdrm_ctrl_read (vdrm_crtc_atomic_flush s c) dev a).2 dev e.id).1 = 0 ∧
      idr_find (vdrm_ctrl_buf_submit_done
        (vdrm_ctrl_read (vdrm_crtc_atomic_flush s c) dev a).2 dev e.id).2.vdrm_ctrl_buf_idr
        e.id = none ∧
      ((vdrm_ctrl_buf_submit_done
        (vdrm_ctrl_read (vdrm_crtc_atomic_flush s c) dev a).2 dev e.id).2.devs
        dev).pending_event = none ∧
      ((vdrm_ctrl_buf_submit_done
        (vdrm_ctrl_read (vdrm_crtc_atomic_flush s c) dev a).2 dev e.id).2.crtcs
        c).num_pends = n := by
  obtain ⟨fi, fd, fc⟩ := flush_one s c dev u hen hq hact hvdev h0 h1 h2 hg hsp
  rw [hn] at fc
  refine ⟨with_handle (build_pending dev u (some c) true)
    (idr_first_free s.vdrm_ctrl_buf_idr), fc, ?_, ?_, rfl, rfl, rfl, ?_, ?_⟩
  · intro hlt2
    rw [fc]
    exact Nat.mod_eq_of_lt hlt2
  · rw [fd]
    simp
  · rw [fi, idr_find_put]
    simp [with_handle]
  · have hev : ((vdrm_crtc_atomic_flush s c).devs dev).event =
        some (with_handle (build_pending dev u (some c) true)
          (idr_first_free s.vdrm_ctrl_buf_idr)) := by
      rw [fd]
      simp
    have hlen : (with_handle (build_pending dev u (some c) true)
        (idr_first_free s.vdrm_ctrl_buf_idr)).event.base.length ≤ a.count := by
      have := build_event_length u
      simp only [with_handle, build_pending]
      omega
    have hr := read_ok (vdrm_crtc_atomic_flush s c) dev a _ hev hacc hcopy hlen
    have hfind : idr_find
        (vdrm_ctrl_read (vdrm_crtc_atomic_flush s c) dev a).2.vdrm_ctrl_buf_idr
        (with_handle (build_pending dev u (some c) true)
          (idr_first_free s.vdrm_ctrl_buf_idr)).id =
        some (with_handle (build_pending dev u (some c) true)
          (idr_first_free s.vdrm_ctrl_buf_idr)) := by
      rw [hr]
      simp only [setDev]
      rw [fi, idr_find_put]
      simp [with_handle]
    obtain ⟨k1, k2, k3, _, _, k6, _⟩ := ack_registered _ dev _ _ hfind
    refine ⟨?_, ?_, k1, ?_, k3, ?_⟩
    · rw [hr]
      have := build_event_length u
      simp only [with_handle, build_pending] at this ⊢
      simp [this, sizeof_v_ctrl_event_new_buffer]
    · rw [hr]
      simp [setDev]
    · rw [k2]
      simp
    · rw [(k6 rfl c rfl).1, hr]
      simp only [setDev]
      rw [fc]
      exact uint_dec_inc n hlt

/-- C6 (witness): the scenario run on `world_ready`. -/
theorem C6_scenario_a_witness :
    ((world_ready.crtcs 0).enabled = true ∧ (world_ready.crtcs 0).num_pends = 0 ∧
      (world_ready.crtcs 0).updates = [upd0] ∧ (world_ready.planes 0).active ≠ 0 ∧
      (world_ready.planes 0).vdev = some 0 ∧ gating_pending (world_ready.devs 0) = false ∧
      idr_first_free world_ready.vdrm_ctrl_buf_idr ≤ INT_MAX) ∧
    ∃ e : vdrm_ctrl_pending_event,
      ((vdrm_crtc_atomic_flush world_ready 0).devs 0).event = some e ∧
      ((vdrm_ctrl_buf_submit_done
        (vdrm_ctrl_read (vdrm_crtc_atomic_flush world_ready 0) 0 args0).2 0 e.id).2.crtcs
        0).num_pends = 0 :=
  ⟨by decide,
   (C6_scenario_a world_ready 0 0 upd0 0 args0 rfl rfl (by decide) rfl (by decide) rfl rfl
      rfl rfl rfl (by decide) rfl rfl (by decide)).imp
    (fun _ h => ⟨h.2.2.1, h.2.2.2.2.2.2.2.2.2.2.2.2⟩)⟩

theorem release_of_pending (s : World) (dev : Nat) (e : vdrm_ctrl_pending_event)
    (h : (s.devs dev).event = some e) :
    (vdrm_ctrl_release s dev).1 = 0 ∧
    (vdrm_ctrl_release s dev).2.vdrm_ctrl_buf_idr = (idr_remove s.vdrm_ctrl_buf_idr e.id).2 ∧
    (vdrm_ctrl_release s dev).2.crtcs =
      (if e.need_cb = true then vdrm_crtc_signal s e.crtc else s).crtcs := by
  have ht : release_take (s.devs dev) = (some e, { s.devs dev with event := none }) := by
    unfold release_take
    rw [h]
  unfold vdrm_ctrl_release
  simp only [uninstall_devs, ht]
  refine ⟨trivial, ?_, ?_⟩
  · rw [release_open_count_idr]
    split_ifs <;> simp [setDev]
  · rw [release_open_count_crtcs]
    split_ifs
    · cases e.crtc <;> simp [vdrm_crtc_signal, setDev, setCrtc, null_deref]
    · simp [setDev]

/-- C7: Scenario B. Pipeline `c` is enabled, its counter is `n`, its queue
holds the single update `u` whose surface has a consumer on channel `dev`, no
gating event is Pending there and the allocations of the publish succeed. Then
the flush registers an event `e` with `need_cb` as the Pending event of `dev`
and makes the counter `n + 1` (as an `unsigned int`); closing the channel
before any read returns 0, removes the handle of `e` from the registry, empties
the Pending slot and brings the counter back to `n`. -/
theorem C7_scenario_b (s : World) (c dev : Nat) (u : vdrm_plane_update) (n : Nat)
    (hen : (s.crtcs c).enabled = true)
    (hn : (s.crtcs c).num_pends = n) (hlt : n < UINT_MOD)
    (hq : (s.crtcs c).updates = [u])
    (hact : (s.planes u.plane).active ≠ 0) (hvdev : (s.planes u.plane).vdev = some dev)
    (hg : gating_pending (s.devs dev) = false)
    (h0 : s.mem 0 = true) (h1 : s.mem 1 = true) (h2 : s.mem 2 = true)
    (hsp : idr_first_free s.vdrm_ctrl_buf_idr ≤ INT_MAX) :
    ∃ e : vdrm_ctrl_pending_event,
      ((vdrm_crtc_atomic_flush s c).crtcs c).num_pends = (n + 1) % UINT_MOD ∧
      (n + 1 < UINT_MOD → ((vdrm_crtc_atomic_flush s c).crtcs c).num_pends = n + 1) ∧
      ((vdrm_crtc_atomic_flush s c).devs dev).event = some e ∧
      e.need_cb = true ∧ e.crtc = some c ∧
      idr_find (vdrm_crtc_atomic_flush s c).vdrm_ctrl_buf_idr e.id = some e ∧
      (vdrm_ctrl_release (vdrm_crtc_atomic_flush s c) dev).1 = 0 ∧
      idr_find (vdrm_ctrl_release (vdrm_crtc_atomic_flush s c) dev).2.vdrm_ctrl_buf_idr
        e.id = none ∧
      ((vdrm_ctrl_release (vdrm_crtc_atomic_flush s c) dev).2.devs dev).event = none ∧
      ((vdrm_ctrl_release (vdrm_crtc_atomic_flush s c) dev).2.crtcs c).num_pends = n := by
  obtain ⟨fi, fd, fc⟩ := flush_one s c dev u hen hq hact hvdev h0 h1 h2 hg hsp
  rw [hn] at fc
  have hev : ((vdrm_crtc_atomic_flush s c).devs dev).event =
      some (with_handle (build_pending dev u (some c) true)
        (idr_first_free s.vdrm_ctrl_buf_idr)) := by
    rw [fd]
    simp
  obtain ⟨r1, r2, r3⟩ := release_of_pending _ dev _ hev
  refine ⟨with_handle (build_pending dev u (some c) true)
    (idr_first_free s.vdrm_ctrl_buf_idr), fc, ?_, hev, rfl, rfl, ?_, r1, ?_, ?_, ?_⟩
  · intro hlt2
    rw [fc]
    exact Nat.mod_eq_of_lt hlt2
  · rw [fi, idr_find_put]
    simp [with_handle]
  · rw [r2, idr_find_remove]
    simp
  · rw [release_devs]
    simp [release_take_event]
  · rw [r3]
    have hcb : (with_handle (build_pending dev u (some c) true)
        (idr_first_free s.vdrm_ctrl_buf_idr)).need_cb = true := rfl
    have hcr : (with_handle (build_pending dev u (some c) true)
        (idr_first_free s.vdrm_ctrl_buf_idr)).crtc = some c := rfl
    simp only [hcb, hcr, if_true, vdrm_crtc_signal, setCrtc]
    rw [fc]
    exact uint_dec_inc n hlt

/-- C7 (witness): the scenario run on `world_ready`. -/
theorem C7_scenario_b_witness :
    ((world_ready.crtcs 0).enabled = true ∧ (world_ready.crtcs 0).num_pends = 0 ∧
      (world_ready.crtcs 0).updates = [upd0] ∧ (world_ready.planes 0).active ≠ 0 ∧
      (world_ready.planes 0).vdev = some 0 ∧ gating_pending (world_ready.devs 0) = false ∧
      idr_first_free world_ready.vdrm_ctrl_buf_idr ≤ INT_MAX) ∧
    ∃ e : vdrm_ctrl_pending_event,
      ((vdrm_crtc_atomic_flush world_ready 0).devs 0).event = some e ∧
      ((vdrm_ctrl_release (vdrm_crtc_atomic_flush world_ready 0) 0).2.crtcs 0).num_pends
        = 0 :=
  ⟨by decide,
   (C7_scenario_b world_ready 0 0 upd0 0 rfl rfl (by decide) rfl (by decide) rfl rfl
      rfl rfl rfl (by decide)).imp
    (fun _ h => ⟨h.2.2.1, h.2.2.2.2.2.2.2.2.2⟩)⟩

/-! ## C9: the vsync tick -/

theorem vblank_irq_trace (s : World) (c : Nat) :
    ∃ L : List HostCall, (vdrm_crtc_vblank_irq s c).trace = s.trace ++ L ∧
      HostCall.wake_up_pending_wait c ∈ L ∧ ∀ p, HostCall.drm_handle_vblank p ∉ L := by
  unfold vdrm_crtc_vblank_irq
  cases he : (s.crtcs c).event <;> cases hw : (s.crtcs c).wait_for_disable <;>
    cases hp : (s.crtcs c).pending <;>
    simp [setCrtc, call, he, hw, hp]

theorem vblank_irq_crtc (s : World) (c : Nat) :
    ((vdrm_crtc_vblank_irq s c).crtcs c).pending = false ∧
    ((vdrm_crtc_vblank_irq s c).crtcs c).event = none ∧
    ((vdrm_crtc_vblank_irq s c).crtcs c).wait_for_disable = false := by
  unfold vdrm_crtc_vblank_irq
  cases he : (s.crtcs c).event <;> cases hw : (s.crtcs c).wait_for_disable <;>
    cases hp : (s.crtcs c).pending <;>
    simp [setCrtc, call, he, hw, hp]

theorem tick_calls (s : World) (c : Nat) :
    (((s.crtcs c).irq_requested = true ∧ (s.crtcs c).num_pends = 0) →
      HostCall.drm_handle_vblank (s.crtcs c).id ∈ calls_since s (vsync_timer s c).2 ∧
      HostCall.wake_up_pending_wait c ∈ calls_since s (vsync_timer s c).2) ∧
    (¬ ((s.crtcs c).irq_requested = true ∧ (s.crtcs c).num_pends = 0) →
      calls_since s (vsync_timer s c).2 =
        [HostCall.hrtimer_forward_now c (s.crtcs c).nsec_to_vsync]) := by
  constructor
  · intro h
    obtain ⟨L, hL, hw, _⟩ :=
      vblank_irq_trace (call s (HostCall.drm_handle_vblank (s.crtcs c).id)) c
    have ht : (vsync_timer s c).2.trace =
        s.trace ++ ([HostCall.drm_handle_vblank (s.crtcs c).id] ++ L ++
          [HostCall.hrtimer_forward_now c
            ((vdrm_crtc_vblank_irq
              (call s (HostCall.drm_handle_vblank (s.crtcs c).id)) c).crtcs c).nsec_to_vsync])
        := by
      unfold vsync_timer
      simp only [h, and_self, if_true]
      simp only [call] at hL ⊢
      rw [hL]
      simp
    unfold calls_since
    rw [ht, List.drop_left]
    simp [hw]
  · intro h
    unfold calls_since vsync_timer
    simp only [h, if_false, call]
    rw [List.drop_left]

theorem tick_idle (s : World) (c : Nat)
    (h : ¬ ((s.crtcs c).irq_requested = true ∧ (s.crtcs c).num_pends = 0)) :
    (vsync_timer s c).2 =
      call s (HostCall.hrtimer_forward_now c (s.crtcs c).nsec_to_vsync) := by
  unfold vsync_timer
  simp only [h, if_false]

theorem ack_crtc (s : World) (dev id : Nat) (e : vdrm_ctrl_pending_event) (c : Nat)
    (h : idr_find s.vdrm_ctrl_buf_idr id = some e) (hcb : e.need_cb = true)
    (hc : e.crtc = some c) :
    (vdrm_ctrl_buf_submit_done s dev id).2.crtcs c =
      { s.crtcs c with num_pends := ((s.crtcs c).num_pends + UINT_MOD - 1) % UINT_MOD } := by
  have hr : (idr_remove s.vdrm_ctrl_buf_idr id).1 = some e := h
  unfold vdrm_ctrl_buf_submit_done
  simp [hr, hcb, hc, vdrm_crtc_signal, setCrtc, setDev]

/-- C9: a tick of the vsync timer of pipeline `c` raises the frame-boundary
notification (`drm_handle_vblank`) and runs `vdrm_crtc_vblank_irq` (whose last
call wakes `pending_wait`) exactly when `irq_requested` is set and `num_pends`
is 0. When it does, afterwards `pending` is false, the armed event is cleared
and `wait_for_disable` is false. When the counter is not 0 the tick leaves every
pipeline as it was and only re-arms the timer. Scenario D: with notifications
requested and one gating event outstanding, a tick raises nothing; after the
acknowledge of that event the next tick raises the notification. -/
theorem C9_vsync_gating (s : World) (c : Nat) :
    (HostCall.drm_handle_vblank (s.crtcs c).id ∈ calls_since s (vsync_timer s c).2 ↔
      ((s.crtcs c).irq_requested = true ∧ (s.crtcs c).num_pends = 0)) ∧
    (HostCall.wake_up_pending_wait c ∈ calls_since s (vsync_timer s c).2 ↔
      ((s.crtcs c).irq_requested = true ∧ (s.crtcs c).num_pends = 0)) ∧
    (((s.crtcs c).irq_requested = true ∧ (s.crtcs c).num_pends = 0) →
      (vsync_timer s c).2 =
        call (vdrm_crtc_vblank_irq (call s (HostCall.drm_handle_vblank (s.crtcs c).id)) c)
          (HostCall.hrtimer_forward_now c
            ((vdrm_crtc_vblank_irq
              (call s (HostCall.drm_handle_vblank (s.crtcs c).id)) c).crtcs c).nsec_to_vsync) ∧
      ((vsync_timer s c).2.crtcs c).pending = false ∧
      ((vsync_timer s c).2.crtcs c).event = none ∧
      ((vsync_timer s c).2.crtcs c).wait_for_disable = false) ∧
    ((s.crtcs c).num_pends ≠ 0 →
      (vsync_timer s c).2.crtcs = s.crtcs ∧
      calls_since s (vsync_timer s c).2 =
        [HostCall.hrtimer_forward_now c (s.crtcs c).nsec_to_vsync]) ∧
    (∀ (dev id : Nat) (e : vdrm_ctrl_pending_event),
      (s.crtcs c).irq_requested = true → (s.crtcs c).num_pends = 1 →
      idr_find s.vdrm_ctrl_buf_idr id = some e → e.need_cb = true → e.crtc = some c →
      (∀ p, HostCall.drm_handle_vblank p ∉ calls_since s (vsync_timer s c).2) ∧
      HostCall.drm_handle_vblank (s.crtcs c).id ∈
        calls_since (vdrm_ctrl_buf_submit_done (vsync_timer s c).2 dev id).2
          (vsync_timer (vdrm_ctrl_buf_submit_done (vsync_timer s c).2 dev id).2 c).2) := by
  have hc := tick_calls s c
  refine ⟨⟨?_, fun h => (hc.1 h).1⟩, ⟨?_, fun h => (hc.1 h).2⟩, ?_, ?_, ?_⟩
  · intro hin
    by_contra hn
    rw [hc.2 hn] at hin
    simp at hin
  · intro hin
    by_contra hn
    rw [hc.2 hn] at hin
    simp at hin
  · intro h
    have heq : (vsync_timer s c).2 =
        call (vdrm_crtc_vblank_irq (call s (HostCall.drm_handle_vblank (s.crtcs c).id)) c)
          (HostCall.hrtimer_forward_now c
            ((vdrm_crtc_vblank_irq
              (call s (HostCall.drm_handle_vblank (s.crtcs c).id)) c).crtcs c).nsec_to_vsync)
        := by
      unfold vsync_timer
      simp only [h, and_self, if_true]
    refine ⟨heq, ?_⟩
    rw [heq]
    exact vblank_irq_crtc (call s (HostCall.drm_handle_vblank (s.crtcs c).id)) c
  · intro hne
    have hn : ¬ ((s.crtcs c).irq_requested = true ∧ (s.crtcs c).num_pends = 0) :=
      fun h => hne h.2
    refine ⟨?_, hc.2 hn⟩
    rw [tick_idle s c hn]
    rfl
  · intro dev id e hirq hone hfind hcb hcrtc
    have hn : ¬ ((s.crtcs c).irq_requested = true ∧ (s.crtcs c).num_pends = 0) := by
      rw [hone]
      simp
    constructor
    · intro p hin
      rw [hc.2 hn] at hin
      simp at hin
    · have ht := tick_idle s c hn
      have hfind2 : idr_find (vsync_timer s c).2.vdrm_ctrl_buf_idr id = some e := by
        rw [ht]
        exact hfind
      have hk := ack_crtc (vsync_timer s c).2 dev id e c hfind2 hcb hcrtc
      have hcr : (vsync_timer s c).2.crtcs c = s.crtcs c := by
        rw [ht]
        rfl
      rw [hcr] at hk
      have hcond :
          ((vdrm_ctrl_buf_submit_done (vsync_timer s c).2 dev id).2.crtcs c).irq_requested
              = true ∧
          ((vdrm_ctrl_buf_submit_done (vsync_timer s c).2 dev id).2.crtcs c).num_pends
              = 0 := by
        rw [hk]
        simp [hirq, hone, UINT_MOD]
      have hid :
          ((vdrm_ctrl_buf_submit_done (vsync_timer s c).2 dev id).2.crtcs c).id
            = (s.crtcs c).id := by
        rw [hk]
      have := ((tick_calls (vdrm_ctrl_buf_submit_done (vsync_timer s c).2 dev id).2 c).1
        hcond).1
      rw [hid] at this
      exact this

/-- C9 (Scenario D on a concrete state): in `world_requested` vblank interrupts
are requested and event 0 is outstanding; the tick raises no notification, and
after the acknowledge of handle 0 the next tick raises it. -/
theorem C9_vsync_gating_witness :
    ((world_requested.crtcs 0).irq_requested = true ∧
      (world_requested.crtcs 0).num_pends = 1 ∧
      idr_find world_requested.vdrm_ctrl_buf_idr 0 = some (ev0 0)) ∧
    (∀ p, HostCall.drm_handle_vblank p ∉
      calls_since world_requested (vsync_timer world_requested 0).2) ∧
    HostCall.drm_handle_vblank (world_requested.crtcs 0).id ∈
      calls_since (vdrm_ctrl_buf_submit_done (vsync_timer world_requested 0).2 0 0).2
        (vsync_timer (vdrm_ctrl_buf_submit_done (vsync_timer world_requested 0).2 0 0).2
          0).2 :=
  ⟨by decide,
   (C9_vsync_gating world_requested 0).2.2.2.2 0 0 (ev0 0) rfl rfl (by decide) rfl rfl⟩

/-! ## C10: the update queue -/

theorem entries_of_enqueue (q : List vdrm_plane_update) (u : vdrm_plane_update) :
    entries_of (enqueue_update q u) u.plane = [u] := by
  unfold entries_of enqueue_update
  rw [List.filter_append, List.filter_filter]
  have h : List.filter
      (fun a => decide (a.plane = u.plane) && decide (a.plane ≠ u.plane)) q = [] := by
    rw [List.filter_eq_nil_iff]
    intro a _
    by_cases ha : a.plane = u.plane <;> simp [ha]
  rw [h]
  simp

theorem entries_not_of_enqueue (q : List vdrm_plane_update) (u : vdrm_plane_update) :
    entries_not_of (enqueue_update q u) u.plane = entries_not_of q u.plane := by
  unfold entries_not_of enqueue_update
  rw [List.filter_append, List.filter_filter]
  simp

theorem distinct_enqueue (q : List vdrm_plane_update) (u : vdrm_plane_update)
    (h : distinct_planes q) : distinct_planes (enqueue_update q u) := by
  unfold distinct_planes enqueue_update at *
  rw [List.map_append, List.nodup_append]
  refine ⟨?_, by simp, ?_⟩
  · exact (h.sublist ((List.filter_sublist q).map _))
  · intro a ha hb
    simp only [List.map_cons, List.map_nil, List.mem_singleton] at hb
    rw [List.mem_map] at ha
    obtain ⟨v, hv, hva⟩ := ha
    rw [List.mem_filter] at hv
    have := hv.2
    simp at this
    exact this (hva.trans hb)

theorem add_disable_updates (s : World) (c plane x : Nat) :
    ((vdrm_crtc_add_disable s c plane).crtcs x).updates =
      if x = c ∧ s.mem 0 = true then
        enqueue_update (s.crtcs c).updates (disable_update plane)
      else (s.crtcs x).updates := by
  unfold vdrm_crtc_add_disable
  by_cases hm : s.mem 0 = true
  · by_cases hx : x = c
    · subst hx
      simp [kzalloc, hm, setCrtc]
    · simp [kzalloc, hm, setCrtc, hx]
  · simp [kzalloc, hm, call]

theorem add_enable_updates (s : World) (c plane x : Nat) :
    ((vdrm_crtc_add_enable s c plane).crtcs x).updates =
      match (s.planes plane).state with
      | none => (s.crtcs x).updates
      | some state =>
        match state.fb with
        | none => (s.crtcs x).updates
        | some fb =>
          if x = c ∧ s.mem 0 = true then
            enqueue_update (s.crtcs c).updates
              (update_of_state s.dma_addr_bits plane state fb)
          else (s.crtcs x).updates := by
  unfold vdrm_crtc_add_enable
  cases hs : (s.planes plane).state with
  | none => simp [call]
  | some state =>
    simp only []
    cases hf : state.fb with
    | none => simp [call]
    | some fb =>
      simp only []
      by_cases hm : s.mem 0 = true
      · by_cases hx : x = c
        · subst hx
          simp [kzalloc, hm, setCrtc]
        · simp [kzalloc, hm, setCrtc, hx]
      · simp [kzalloc, hm, call]

theorem publish_crtcs (s : World) (dev : Nat) (u : vdrm_plane_update)
    (crtc : Option Nat) (need_cb : Bool) :
    (vdrm_ctrl_publish s dev u crtc need_cb).2.crtcs = s.crtcs := by
  unfold vdrm_ctrl_publish
  simp only [kzalloc, setDev, call]
  split_ifs <;> rfl

theorem plane_publish_crtcs (s : World) (plane : Nat) (u : vdrm_plane_update)
    (crtc : Option Nat) (need_cb : Bool) :
    (vdrm_plane_publish s plane u crtc need_cb).2.crtcs = s.crtcs := by
  unfold vdrm_plane_publish
  split_ifs
  · cases (s.planes plane).vdev with
    | none => rfl
    | some dev => exact publish_crtcs s dev u crtc need_cb
  · rfl

theorem publish_loop_updates (c x : Nat) (l : List vdrm_plane_update) (s : World) :
    ((vdrm_crtc_publish_loop c l s).crtcs x).updates =
      if x = c ∧ l ≠ [] then [] else (s.crtcs x).updates := by
  induction l generalizing s with
  | nil => simp [vdrm_crtc_publish_loop]
  | cons u rest ih =>
    simp only [vdrm_crtc_publish_loop]
    rw [ih]
    by_cases hx : x = c
    · subst hx
      by_cases hr : rest = []
      · simp [hr, setCrtc]
      · simp [hr]
    · simp only [hx, false_and, if_false]
      split_ifs <;> simp [setCrtc, hx, plane_publish_crtcs]

theorem crtc_publish_updates (s : World) (c x : Nat) :
    ((vdrm_crtc_publish s c).crtcs x).updates =
      if x = c then [] else (s.crtcs x).updates := by
  unfold vdrm_crtc_publish
  rw [publish_loop_updates]
  by_cases hx : x = c
  · subst hx
    by_cases hl : (s.crtcs x).updates = []
    · simp [hl]
    · simp [hl]
  · simp [hx]

theorem queue_step_distinct (s : World) (op : QueueOp)
    (h : ∀ x, distinct_planes (s.crtcs x).updates) (x : Nat) :
    distinct_planes ((queue_step s op).crtcs x).updates := by
  cases op with
  | add_enable c plane =>
    simp only [queue_step]
    rw [add_enable_updates]
    cases (s.planes plane).state with
    | none => exact h x
    | some state =>
      simp only []
      cases state.fb with
      | none => exact h x
      | some fb =>
        simp only []
        split_ifs
        · exact distinct_enqueue _ _ (h c)
        · exact h x
  | add_disable c plane =>
    simp only [queue_step]
    rw [add_disable_updates]
    split_ifs
    · exact distinct_enqueue _ _ (h c)
    · exact h x
  | drain c =>
    simp only [queue_step]
    rw [crtc_publish_updates]
    split_ifs
    · simp [distinct_planes]
    · exact h x

theorem queue_run_distinct (ops : List QueueOp) (s : World)
    (h : ∀ x, distinct_planes (s.crtcs x).updates) (x : Nat) :
    distinct_planes ((queue_run s ops).crtcs x).updates := by
  induction ops generalizing s with
  | nil => exact h x
  | cons op rest ih =>
    simp only [queue_run, List.foldl_cons]
    exact ih (queue_step s op) (fun y => queue_step_distinct s op h y)

/-- C10: last write wins. From empty queues, whatever sequence of
`vdrm_crtc_add_enable`, `vdrm_crtc_add_disable` and drains is run, no queue
ever holds two entries for the same plane. When the update is built (its
allocation succeeds; for an enable the plane has a state with a framebuffer),
after `vdrm_crtc_add_disable` or `vdrm_crtc_add_enable` for plane `S` the queue
holds exactly one entry for `S`, the new update, and the entries of the other
planes are the same, in the same order. Scenario C: `add_disable S` followed by
`add_enable S` leaves exactly one entry for `S`, the active update filled in by
the enable call. -/
theorem C10_last_write_wins (s : World) (c S : Nat) (state : drm_plane_state)
    (fb : drm_framebuffer) (h0 : s.mem 0 = true) (h1 : s.mem 1 = true)
    (hst : (s.planes S).state = some state) (hfb : state.fb = some fb) :
    (∀ (t : World) (ops : List QueueOp), (∀ x, (t.crtcs x).updates = []) →
      ∀ x, distinct_planes ((queue_run t ops).crtcs x).updates) ∧
    (entries_of ((vdrm_crtc_add_disable s c S).crtcs c).updates S = [disable_update S] ∧
      entries_not_of ((vdrm_crtc_add_disable s c S).crtcs c).updates S =
        entries_not_of (s.crtcs c).updates S) ∧
    (entries_of ((vdrm_crtc_add_enable s c S).crtcs c).updates S =
        [update_of_state s.dma_addr_bits S state fb] ∧
      entries_not_of ((vdrm_crtc_add_enable s c S).crtcs c).updates S =
        entries_not_of (s.crtcs c).updates S) ∧
    (entries_of
        ((vdrm_crtc_add_enable (vdrm_crtc_add_disable s c S) c S).crtcs c).updates S =
        [update_of_state s.dma_addr_bits S state fb] ∧
      (update_of_state s.dma_addr_bits S state fb).active = true ∧
      (update_of_state s.dma_addr_bits S state fb).plane = S ∧
      entries_not_of
        ((vdrm_crtc_add_enable (vdrm_crtc_add_disable s c S) c S).crtcs c).updates S =
        entries_not_of (s.crtcs c).updates S) := by
  have hd : ((vdrm_crtc_add_disable s c S).crtcs c).updates =
      enqueue_update (s.crtcs c).updates (disable_update S) := by
    rw [add_disable_updates]
    simp [h0]
  have he : ∀ w : World, w.mem 0 = true → (w.planes S).state = some state →
      ((vdrm_crtc_add_enable w c S).crtcs c).updates =
        enqueue_update (w.crtcs c).updates (update_of_state w.dma_addr_bits S state fb) := by
    intro w hw hws
    rw [add_enable_updates, hws]
    simp only [hfb]
    simp [hw]
  have eo := entries_of_enqueue
  have en := entries_not_of_enqueue
  have hdp : (disable_update S).plane = S := rfl
  have hup : ∀ b, (update_of_state b S state fb).plane = S := fun _ => rfl
  refine ⟨?_, ⟨?_, ?_⟩, ⟨?_, ?_⟩, ?_, rfl, rfl, ?_⟩
  · intro t ops ht x
    apply queue_run_distinct
    intro y
    rw [ht y]
    simp [distinct_planes]
  · rw [hd]
    have := eo (s.crtcs c).updates (disable_update S)
    rwa [hdp] at this
  · rw [hd]
    have := en (s.crtcs c).updates (disable_update S)
    rwa [hdp] at this
  · rw [he s h0 hst]
    have := eo (s.crtcs c).updates (update_of_state s.dma_addr_bits S state fb)
    rwa [hup] at this
  · rw [he s h0 hst]
    have := en (s.crtcs c).updates (update_of_state s.dma_addr_bits S state fb)
    rwa [hup] at this
  · have hm : (vdrm_crtc_add_disable s c S).mem 0 = true := by
      unfold vdrm_crtc_add_disable
      simp [kzalloc, h0, setCrtc, h1]
    have hp : ((vdrm_crtc_add_disable s c S).planes S).state = some state := by
      unfold vdrm_crtc_add_disable
      simp [kzalloc, h0, setCrtc, hst]
    have hb : (vdrm_crtc_add_disable s c S).dma_addr_bits = s.dma_addr_bits := by
      unfold vdrm_crtc_add_disable
      simp [kzalloc, h0, setCrtc]
    rw [he _ hm hp, hb]
    have := eo ((vdrm_crtc_add_disable s c S).crtcs c).updates
      (update_of_state s.dma_addr_bits S state fb)
    rwa [hup] at this
  · have hm : (vdrm_crtc_add_disable s c S).mem 0 = true := by
      unfold vdrm_crtc_add_disable
      simp [kzalloc, h0, setCrtc, h1]
    have hp : ((vdrm_crtc_add_disable s c S).planes S).state = some state := by
      unfold vdrm_crtc_add_disable
      simp [kzalloc, h0, setCrtc, hst]
    have hb : (vdrm_crtc_add_disable s c S).dma_addr_bits = s.dma_addr_bits := by
      unfold vdrm_crtc_add_disable
      simp [kzalloc, h0, setCrtc]
    rw [he _ hm hp, hb]
    have := en ((vdrm_crtc_add_disable s c S).crtcs c).updates
      (update_of_state s.dma_addr_bits S state fb)
    rw [hup] at this
    rw [this, hd]
    have := en (s.crtcs c).updates (disable_update S)
    rwa [hdp] at this

/-- C10 (witness): plane 0 of `world_fb` has a state with a framebuffer. -/
theorem C10_last_write_wins_witness :
    (world_fb.mem 0 = true ∧ world_fb.mem 1 = true ∧
      (world_fb.planes 0).state = some state0 ∧ state0.fb = some fb0) ∧
    entries_of
      ((vdrm_crtc_add_enable (vdrm_crtc_add_disable world_fb 0 0) 0 0).crtcs 0).updates 0 =
      [update_of_state world_fb.dma_addr_bits 0 state0 fb0] :=
  ⟨⟨rfl, rfl, rfl, rfl⟩,
   (C10_last_write_wins world_fb 0 0 state0 fb0 rfl rfl rfl rfl).2.2.2.1⟩

/-! ## C11: the drain -/

theorem publish_set_updates (s : World) (c : Nat) (q : List vdrm_plane_update)
    (dev : Nat) (u : vdrm_plane_update) (crtc : Option Nat) (need_cb : Bool) :
    vdrm_ctrl_publish (set_updates s c q) dev u crtc need_cb =
      ((vdrm_ctrl_publish s dev u crtc need_cb).1,
       set_updates (vdrm_ctrl_publish s dev u crtc need_cb).2 c q) := by
  unfold vdrm_ctrl_publish
  simp only [kzalloc, set_updates, setCrtc, setDev, call]
  split_ifs <;> rfl

theorem plane_publish_set_updates (s : World) (c : Nat) (q : List vdrm_plane_update)
    (plane : Nat) (u : vdrm_plane_update) (crtc : Option Nat) (need_cb : Bool) :
    vdrm_plane_publish (set_updates s c q) plane u crtc need_cb =
      ((vdrm_plane_publish s plane u crtc need_cb).1,
       set_updates (vdrm_plane_publish s plane u crtc need_cb).2 c q) := by
  unfold vdrm_plane_publish
  have hp : (set_updates s c q).planes = s.planes := rfl
  rw [hp]
  split_ifs
  · cases (s.planes plane).vdev with
    | none => rfl
    | some dev => exact publish_set_updates s c q dev u crtc need_cb
  · rfl

theorem set_updates_twice (s : World) (c : Nat) (q q2 : List vdrm_plane_update) :
    set_updates (set_updates s c q) c q2 = set_updates s c q2 := by
  unfold set_updates setCrtc
  simp only [if_true]
  congr 1
  funext j
  split_ifs <;> rfl

theorem publish_one_set_updates (s : World) (c : Nat) (q : List vdrm_plane_update)
    (u : vdrm_plane_update) :
    publish_one c (set_updates s c q) u = set_updates (publish_one c s u) c q := by
  unfold publish_one
  simp only [plane_publish_set_updates]
  split_ifs
  · unfold set_updates setCrtc
    simp only [if_true]
    congr 1
    funext j
    split_ifs <;> rfl
  · rfl

theorem foldl_publish_one_set_updates (c : Nat) (q : List vdrm_plane_update)
    (l : List vdrm_plane_update) (s : World) :
    l.foldl (publish_one c) (set_updates s c q) =
      set_updates (l.foldl (publish_one c) s) c q := by
  induction l generalizing s with
  | nil => rfl
  | cons u rest ih =>
    simp only [List.foldl_cons]
    rw [publish_one_set_updates, ih]

theorem publish_loop_cons (c : Nat) (u : vdrm_plane_update)
    (rest : List vdrm_plane_update) (s : World) :
    vdrm_crtc_publish_loop c (u :: rest) s =
      vdrm_crtc_publish_loop c rest (set_updates (publish_one c s u) c rest) := by
  simp only [vdrm_crtc_publish_loop, publish_one, set_updates]

theorem publish_loop_fold (c : Nat) (l : List vdrm_plane_update) (s : World)
    (hl : l ≠ []) :
    vdrm_crtc_publish_loop c l s = set_updates (l.foldl (publish_one c) s) c [] := by
  induction l generalizing s with
  | nil => exact absurd rfl hl
  | cons u rest ih =>
    rw [publish_loop_cons]
    by_cases hr : rest = []
    · subst hr
      simp [vdrm_crtc_publish_loop]
    · rw [ih _ hr, foldl_publish_one_set_updates, set_updates_twice]
      simp only [List.foldl_cons]

theorem foldl_enqueue_distinct (us q : List vdrm_plane_update)
    (h : distinct_planes (q ++ us)) : us.foldl enqueue_update q = q ++ us := by
  induction us generalizing q with
  | nil => simp
  | cons u rest ih =>
    simp only [List.foldl_cons]
    have hq : enqueue_update q u = q ++ [u] := by
      unfold enqueue_update
      congr 1
      rw [List.filter_eq_self]
      intro a ha
      unfold distinct_planes at h
      rw [List.map_append, List.nodup_append] at h
      have hdis := h.2.2
      simp only [decide_eq_true_eq]
      intro hau
      exact hdis (List.mem_map_of_mem _ ha) (by simp [hau])
    rw [hq, ih]
    · simp
    · simpa using h

/-- C11: the drain `vdrm_crtc_publish` hands the queued updates to the publish
step (`publish_one`: `vdrm_plane_publish` with `need_cb = true`, counted when it
returns 0) one after the other from the head of the queue, each once, and then
the queue is empty, whatever the publishes return; the queues of the other
pipelines are untouched; a second drain changes nothing. Updates for pairwise
distinct planes are queued, hence published, in the order they were enqueued. -/
theorem C11_drain_fifo (s : World) (c : Nat) :
    vdrm_crtc_publish s c =
      (if (s.crtcs c).updates = [] then s
       else set_updates ((s.crtcs c).updates.foldl (publish_one c) s) c []) ∧
    (∀ x, ((vdrm_crtc_publish s c).crtcs x).updates =
      if x = c then [] else (s.crtcs x).updates) ∧
    vdrm_crtc_publish (vdrm_crtc_publish s c) c = vdrm_crtc_publish s c ∧
    (∀ us : List vdrm_plane_update, distinct_planes us →
      us.foldl enqueue_update [] = us) := by
  have h1 : vdrm_crtc_publish s c =
      (if (s.crtcs c).updates = [] then s
       else set_updates ((s.crtcs c).updates.foldl (publish_one c) s) c []) := by
    unfold vdrm_crtc_publish
    by_cases hq : (s.crtcs c).updates = []
    · rw [if_pos hq, hq]
      rfl
    · rw [if_neg hq, publish_loop_fold c _ s hq]
  have h2 := crtc_publish_updates s c
  refine ⟨h1, h2, ?_, ?_⟩
  · have he : ((vdrm_crtc_publish s c).crtcs c).updates = [] := by
      rw [h2]
      simp
    unfold vdrm_crtc_publish at he ⊢
    rw [he]
    rfl
  · intro us hus
    have := foldl_enqueue_distinct us [] (by simpa using hus)
    simpa using this

/-! ## C13, C14: reads that deliver nothing -/

/-- C13: with a Pending event `e` whose payload is longer than `count`, a read
into a buffer that passes `access_ok` returns `-EMSGSIZE` and leaves the whole
state as it was; a later read with a buffer that is large enough returns the
payload of that same event `e` and moves `e` to the Delivered slot. -/
theorem C13_read_too_small (s : World) (dev : Nat) (a : read_args)
    (e : vdrm_ctrl_pending_event) (he : (s.devs dev).event = some e)
    (hacc : a.access_ok = true) (hlen : a.count < e.event.base.length) :
    vdrm_ctrl_read s dev a = (read_result.ret (-EMSGSIZE) none, s) ∧
    (∀ b : read_args, b.access_ok = true → b.copy_fault = false →
      e.event.base.length ≤ b.count →
      (vdrm_ctrl_read (vdrm_ctrl_read s dev a).2 dev b).1 =
        read_result.ret (e.event.base.length : Int) (some e.event) ∧
      ((vdrm_ctrl_read (vdrm_ctrl_read s dev a).2 dev b).2.devs dev).pending_event
        = some e) := by
  have h1 : vdrm_ctrl_read s dev a = (read_result.ret (-EMSGSIZE) none, s) := by
    unfold vdrm_ctrl_read
    simp [hacc, he, hlen]
  refine ⟨h1, ?_⟩
  intro b hb hc hl
  rw [h1]
  rw [read_ok s dev b e he hb hc hl]
  simp [setDev]

/-- C13 (witness): a 16-byte buffer against the 48-byte event Pending in
`world_pending`. -/
theorem C13_read_too_small_witness :
    ((world_pending.devs 0).event = some (ev0 0) ∧ args_small.access_ok = true ∧
      args_small.count < (ev0 0).event.base.length) ∧
    vdrm_ctrl_read world_pending 0 args_small =
      (read_result.ret (-EMSGSIZE) none, world_pending) :=
  ⟨by decide,
   (C13_read_too_small world_pending 0 args_small (ev0 0) (by decide) rfl (by decide)).1⟩

/-- C14: a read with `O_NONBLOCK` on a channel with no Pending event never
sleeps and leaves the whole state (the Delivered slot included) as it was, and
into a buffer that passes `access_ok` it returns `-EAGAIN`; with a Pending event
a read with `O_NONBLOCK` never returns `-EAGAIN`. -/
theorem C14_nonblocking_read (s : World) (dev : Nat) (a : read_args)
    (hnb : a.nonblock = true) :
    ((s.devs dev).event = none →
      (vdrm_ctrl_read s dev a).2 = s ∧
      (vdrm_ctrl_read s dev a).1 ≠ read_result.sleeping ∧
      (a.access_ok = true →
        vdrm_ctrl_read s dev a = (read_result.ret (-EAGAIN) none, s))) ∧
    ((s.devs dev).event ≠ none →
      ∀ copied, (vdrm_ctrl_read s dev a).1 ≠ read_result.ret (-EAGAIN) copied) := by
  constructor
  · intro he
    unfold vdrm_ctrl_read
    by_cases hacc : a.access_ok = true
    · simp [hacc, he, hnb]
    · simp [hacc, he, hnb]
  · intro he copied
    cases hev : (s.devs dev).event with
    | none => exact absurd hev he
    | some e =>
      unfold vdrm_ctrl_read
      simp only [hev]
      split_ifs <;> simp [EFAULT, EAGAIN, EMSGSIZE]

/-- C14 (witness): a non-blocking read on the empty channel 0 of `world_open`. -/
theorem C14_nonblocking_read_witness :
    (args_nonblock.nonblock = true ∧ (world_open.devs 0).event = none ∧
      args_nonblock.access_ok = true) ∧
    vdrm_ctrl_read world_open 0 args_nonblock =
      (read_result.ret (-EAGAIN) none, world_open) :=
  ⟨by decide, ((C14_nonblocking_read world_open 0 args_nonblock rfl).1 rfl).2.2 rfl⟩

/-! ## C15, C16: what a successful publish stores -/

theorem idr_find_first_free (t : Idr) : idr_find t (idr_first_free t) = none := by
  induction t with
  | nil => rfl
  | cons x t ih =>
    cases x with
    | none => rfl
    | some e =>
      simp only [idr_first_free, idr_find_cons_succ]
      exact ih

theorem idr_find_below_first_free (t : Idr) (j : Nat) (h : j < idr_first_free t) :
    idr_find t j ≠ none := by
  induction t generalizing j with
  | nil => simp [idr_first_free] at h
  | cons x t ih =>
    cases x with
    | none => simp [idr_first_free] at h
    | some e =>
      cases j with
      | zero => simp [idr_find_cons_zero]
      | succ m =>
        rw [idr_find_cons_succ]
        apply ih
        simp only [idr_first_free] at h
        omega

theorem publish_zero (s : World) (dev : Nat) (u : vdrm_plane_update)
    (crtc : Option Nat) (need_cb : Bool)
    (h : (vdrm_ctrl_publish s dev u crtc need_cb).1 = 0) :
    s.mem 0 = true ∧ s.mem 1 = true ∧ s.mem 2 = true ∧
    gating_pending (s.devs dev) = false ∧
    idr_first_free s.vdrm_ctrl_buf_idr ≤ INT_MAX := by
  unfold vdrm_ctrl_publish at h
  simp only [kzalloc] at h
  by_cases h0 : s.mem 0 = true
  · by_cases h1 : s.mem 1 = true
    · by_cases hg : gating_pending (s.devs dev) = true
      · simp [h0, h1, hg, EBUSY] at h
      · by_cases h2 : s.mem 2 = true
        · by_cases hsp : idr_first_free s.vdrm_ctrl_buf_idr ≤ INT_MAX
          · exact ⟨h0, h1, h2, by simpa using hg, hsp⟩
          · have hgt : idr_first_free s.vdrm_ctrl_buf_idr > INT_MAX := by omega
            simp [h0, h1, hg, h2, idr_alloc, hgt, ENOSPC] at h
        · simp [h0, h1, hg, h2, idr_alloc, ENOMEM] at h
    · simp [h0, h1, ENOMEM] at h
  · simp [h0, ENOMEM] at h

/-- C15: when `vdrm_ctrl_publish` returns 0, the event `e` it built is
registered under the handle `e.id`, the lowest id that had no entry in the IDR
before the call (at most `INT_MAX`), and no other entry of the IDR changed; the
handle field of the payload is `e.id`; `e` carries the `need_cb` flag, the
pipeline and the channel given to the call; and `e` is the Pending event of the
channel afterwards. -/
theorem C15_publish_registers (s : World) (dev : Nat) (u : vdrm_plane_update)
    (crtc : Option Nat) (need_cb : Bool)
    (h : (vdrm_ctrl_publish s dev u crtc need_cb).1 = 0) :
    ∃ e : vdrm_ctrl_pending_event,
      e.id = idr_first_free s.vdrm_ctrl_buf_idr ∧ e.id ≤ INT_MAX ∧
      idr_find s.vdrm_ctrl_buf_idr e.id = none ∧
      (∀ j, j < e.id → idr_find s.vdrm_ctrl_buf_idr j ≠ none) ∧
      idr_find (vdrm_ctrl_publish s dev u crtc need_cb).2.vdrm_ctrl_buf_idr e.id = some e ∧
      (∀ j, j ≠ e.id →
        idr_find (vdrm_ctrl_publish s dev u crtc need_cb).2.vdrm_ctrl_buf_idr j =
          idr_find s.vdrm_ctrl_buf_idr j) ∧
      e.event.v_ctrl_buf_id = e.id ∧
      e.need_cb = need_cb ∧ e.crtc = crtc ∧ e.dev = dev ∧
      ((vdrm_ctrl_publish s dev u crtc need_cb).2.devs dev).event = some e := by
  obtain ⟨h0, h1, h2, hg, hsp⟩ := publish_zero s dev u crtc need_cb h
  obtain ⟨_, pi, pd, _, _⟩ := publish_ok s dev u crtc need_cb h0 h1 h2 hg hsp
  refine ⟨with_handle (build_pending dev u crtc need_cb)
    (idr_first_free s.vdrm_ctrl_buf_idr), rfl, hsp, idr_find_first_free _, ?_, ?_, ?_,
    rfl, rfl, rfl, rfl, ?_⟩
  · intro j hj
    exact idr_find_below_first_free _ j hj
  · rw [pi, idr_find_put]
    simp [with_handle]
  · intro j hj
    rw [pi, idr_find_put]
    simp only [with_handle] at hj
    simp [hj]
  · rw [pd]
    simp

/-- C15 (witness): a publish on the open, empty channel 0 of `world_open`. -/
theorem C15_publish_registers_witness :
    (vdrm_ctrl_publish world_open 0 upd0 (some 0) true).1 = 0 ∧
    ∃ e : vdrm_ctrl_pending_event,
      e.id = idr_first_free world_open.vdrm_ctrl_buf_idr ∧
      ((vdrm_ctrl_publish world_open 0 upd0 (some 0) true).2.devs 0).event = some e :=
  ⟨by decide,
   (C15_publish_registers world_open 0 upd0 (some 0) true (by decide)).imp
    (fun _ h => ⟨h.1, h.2.2.2.2.2.2.2.2.2.2⟩)⟩

/-- C16: the event `e` stored by a successful `vdrm_ctrl_publish` of the update
`u` has type `V_CTRL_EVENT_TYPE_NEW_BUFFER` (1) and length 48, the size of the
twelve `__u32` fields of `struct v_ctrl_event_new_buffer`. If `u` is active the
payload has `valid = 1`, the fourcc, stride, width and height of `u` and the
destination rectangle `(pos_x, pos_y, out_width, out_height)`, and `e` carries
the two plane addresses `addr, uv_addr` when `uv_addr` is not zero and the one
address `addr` otherwise. If `u` is not active the payload has `valid = 0`, all
format and geometry fields zero, and `e` carries no plane address. -/
theorem C16_payload_encoding (s : World) (dev : Nat) (u : vdrm_plane_update)
    (crtc : Option Nat) (need_cb : Bool)
    (h : (vdrm_ctrl_publish s dev u crtc need_cb).1 = 0) :
    ∃ e : vdrm_ctrl_pending_event,
      ((vdrm_ctrl_publish s dev u crtc need_cb).2.devs dev).event = some e ∧
      e.event.base.type = 1 ∧ e.event.base.length = 48 ∧
      sizeof_v_ctrl_event_new_buffer = 12 * 4 ∧
      (u.active = true →
        e.event.valid = 1 ∧ e.event.drm_format = u.fourcc ∧ e.event.stride = u.stride ∧
        e.event.width = u.width ∧ e.event.height = u.height ∧
        e.event.dst_x = u.pos_x ∧ e.event.dst_y = u.pos_y ∧
        e.event.dst_w = u.out_width ∧ e.event.dst_h = u.out_height ∧
        (u.uv_addr ≠ 0 → e.num_planes = 2 ∧ e.plane_addrs = [u.addr, u.uv_addr]) ∧
        (u.uv_addr = 0 → e.num_planes = 1 ∧ e.plane_addrs = [u.addr, 0])) ∧
      (u.active = false →
        e.event.valid = 0 ∧ e.event.drm_format = 0 ∧ e.event.stride = 0 ∧
        e.event.width = 0 ∧ e.event.height = 0 ∧
        e.event.dst_x = 0 ∧ e.event.dst_y = 0 ∧ e.event.dst_w = 0 ∧ e.event.dst_h = 0 ∧
        e.num_planes = 0 ∧ e.plane_addrs = [0, 0]) := by
  obtain ⟨h0, h1, h2, hg, hsp⟩ := publish_zero s dev u crtc need_cb h
  obtain ⟨_, _, pd, _, _⟩ := publish_ok s dev u crtc need_cb h0 h1 h2 hg hsp
  refine ⟨with_handle (build_pending dev u crtc need_cb)
    (idr_first_free s.vdrm_ctrl_buf_idr), ?_, ?_, ?_, rfl, ?_, ?_⟩
  · rw [pd]
    simp
  · simp only [with_handle, build_pending, build_event]
    split_ifs <;> rfl
  · simp only [with_handle, build_pending, build_event]
    split_ifs <;> rfl
  · intro ha
    simp only [with_handle, build_pending, build_event, ha, if_true]
    refine ⟨trivial, trivial, trivial, trivial, trivial, trivial, trivial, trivial,
      trivial, ?_, ?_⟩
    · intro huv
      simp [huv]
    · intro huv
      simp [huv]
  · intro ha
    simp [with_handle, build_pending, build_event, ha]

/-- C16 (witness): the disable update `upd0` published on `world_open`. -/
theorem C16_payload_encoding_witness :
    (vdrm_ctrl_publish world_open 0 upd0 (some 0) true).1 = 0 ∧
    ∃ e : vdrm_ctrl_pending_event,
      ((vdrm_ctrl_publish world_open 0 upd0 (some 0) true).2.devs 0).event = some e ∧
      e.event.base.type = 1 ∧ e.event.base.length = 48 :=
  ⟨by decide,
   (C16_payload_encoding world_open 0 upd0 (some 0) true (by decide)).imp
    (fun _ h => ⟨h.1, h.2.1, h.2.2.1⟩)⟩

/-! ## C17: the address ioctl -/

theorem copy_paddrs_succ (A : List Nat) (n : Nat) (p : List Nat) :
    copy_paddrs A (n + 1) p = (copy_paddrs A n p).set n ((A.getD n 0) % UINT_MOD) := by
  unfold copy_paddrs
  rw [List.range_succ, List.foldl_append]
  rfl

theorem copy_paddrs_length (A : List Nat) (n : Nat) (p : List Nat) :
    (copy_paddrs A n p).length = p.length := by
  induction n with
  | zero => rfl
  | succ n ih => rw [copy_paddrs_succ, List.length_set, ih]

theorem copy_paddrs_get (A : List Nat) (n : Nat) (p : List Nat) (i : Nat)
    (hi : i < n) (hp : i < p.length) :
    (copy_paddrs A n p).getD i 0 = (A.getD i 0) % UINT_MOD := by
  induction n with
  | zero => omega
  | succ n ih =>
    have hl := copy_paddrs_length A n p
    rw [copy_paddrs_succ, List.getD_eq_getElem?_getD, List.getElem?_set]
    by_cases hin : n = i
    · subst hin
      rw [if_pos rfl, if_pos (by rw [hl]; exact hp)]
      rfl
    · have hlt : i < n := by omega
      rw [if_neg hin, ← List.getD_eq_getElem?_getD]
      exact ih hlt

/-- C17 (counterexample): after the open of channel 0 in `world_hi` the event
registered under handle 0 carries the one plane address 0x100001000; the
address ioctl returns 0 with count 1 and the address 0x1000. -/
theorem C17_address_truncated :
    (idr_find (vdrm_ctrl_open world_hi 0).2.vdrm_ctrl_buf_idr 0).map
        (fun e => (e.num_planes, e.plane_addrs)) = some (1, [4294971392, 0]) ∧
    (vdrm_ctrl_buf_to_paddr_array (vdrm_ctrl_open world_hi 0).2 0 req0).1 = 0 ∧
    (vdrm_ctrl_buf_to_paddr_array (vdrm_ctrl_open world_hi 0).2 0 req0).2.1.num_paddrs = 1 ∧
    (vdrm_ctrl_buf_to_paddr_array (vdrm_ctrl_open world_hi 0).2 0 req0).2.1.paddrs
      = [4096, 0] := by
  decide

/-- C17 (amended): the address ioctl for the handle `d.v_ctrl_buf_id` returns
`-ENOENT` if the handle is not in the registry and `-EINVAL` if the registered
event has `num_planes = 0`, leaving the request as it was; otherwise it returns
0 with `num_paddrs` equal to the `num_planes` of the event and, for every
`i < num_planes`, `paddrs[i]` equal to the i-th plane address of the event
reduced modulo 2^32, which is that address whenever it is below 2^32. In every
case the whole state (registry and slots included) is as it was. -/
theorem C17_resolve_addresses (s : World) (dev : Nat)
    (d : v_ctrl_provider_buf_to_paddr_array) :
    (idr_find s.vdrm_ctrl_buf_idr d.v_ctrl_buf_id = none →
      vdrm_ctrl_buf_to_paddr_array s dev d = (-ENOENT, d, s)) ∧
    (∀ e, idr_find s.vdrm_ctrl_buf_idr d.v_ctrl_buf_id = some e → e.num_planes = 0 →
      vdrm_ctrl_buf_to_paddr_array s dev d = (-EINVAL, d, s)) ∧
    (∀ e, idr_find s.vdrm_ctrl_buf_idr d.v_ctrl_buf_id = some e → e.num_planes ≠ 0 →
      (vdrm_ctrl_buf_to_paddr_array s dev d).1 = 0 ∧
      (vdrm_ctrl_buf_to_paddr_array s dev d).2.1.num_paddrs = e.num_planes ∧
      (vdrm_ctrl_buf_to_paddr_array s dev d).2.1.v_ctrl_buf_id = d.v_ctrl_buf_id ∧
      ∀ i, i < e.num_planes → i < d.paddrs.length →
        (vdrm_ctrl_buf_to_paddr_array s dev d).2.1.paddrs.getD i 0 =
          (e.plane_addrs.getD i 0) % UINT_MOD ∧
        (e.plane_addrs.getD i 0 < UINT_MOD →
          (vdrm_ctrl_buf_to_paddr_array s dev d).2.1.paddrs.getD i 0 =
            e.plane_addrs.getD i 0)) ∧
    (vdrm_ctrl_buf_to_paddr_array s dev d).2.2 = s := by
  refine ⟨?_, ?_, ?_, ?_⟩
  · intro h
    unfold vdrm_ctrl_buf_to_paddr_array
    rw [h]
  · intro e h hn
    unfold vdrm_ctrl_buf_to_paddr_array
    rw [h]
    simp [hn]
  · intro e h hn
    unfold vdrm_ctrl_buf_to_paddr_array
    rw [h]
    simp only [hn, if_false]
    refine ⟨trivial, trivial, trivial, ?_⟩
    intro i hi hp
    have hg := copy_paddrs_get e.plane_addrs e.num_planes d.paddrs i hi hp
    refine ⟨hg, ?_⟩
    intro hlt
    rw [hg]
    exact Nat.mod_eq_of_lt hlt
  · unfold vdrm_ctrl_buf_to_paddr_array
    cases idr_find s.vdrm_ctrl_buf_idr d.v_ctrl_buf_id with
    | none => rfl
    | some e =>
      simp only []
      split_ifs <;> rfl

/-! ## What the entry points do to the channels -/

theorem evolve_of_eq (s t : World) (h : t.devs = s.devs) : devs_evolve s t := by
  intro x
  rw [h]

theorem evolve_trans (s t r : World) (h1 : devs_evolve s t) (h2 : devs_evolve t r) :
    devs_evolve s r :=
  fun x => (h1 x).trans (h2 x)

theorem publish_evolve (s : World) (dev : Nat) (u : vdrm_plane_update)
    (crtc : Option Nat) (need_cb : Bool) :
    devs_evolve s (vdrm_ctrl_publish s dev u crtc need_cb).2 := by
  intro x
  by_cases hx : x = dev
  · subst hx
    unfold vdrm_ctrl_publish
    simp only [kzalloc, setDev, call]
    split_ifs
    · exact Relation.ReflTransGen.refl
    · exact Relation.ReflTransGen.refl
    · exact Relation.ReflTransGen.refl
    · exact Relation.ReflTransGen.refl
    · simp only [if_true]
      exact Relation.ReflTransGen.single (dev_step.publish _ _ rfl)
  · rw [publish_devs_other _ _ _ _ _ _ hx]

theorem plane_publish_evolve (s : World) (plane : Nat) (u : vdrm_plane_update)
    (crtc : Option Nat) (need_cb : Bool) :
    devs_evolve s (vdrm_plane_publish s plane u crtc need_cb).2 := by
  unfold vdrm_plane_publish
  split_ifs
  · cases (s.planes plane).vdev with
    | none => exact evolve_of_eq _ _ rfl
    | some dev => exact publish_evolve s dev u crtc need_cb
  · exact evolve_of_eq _ _ rfl

theorem install_evolve (s : World) (plane : Nat) :
    devs_evolve s (vdrm_plane_install_consumer s plane) := by
  have key : ∀ w : World, w.devs = s.devs → ∀ u,
      devs_evolve s (vdrm_plane_publish w plane u none false).2 := by
    intro w hd u
    exact evolve_trans s w _ (evolve_of_eq s w hd) (plane_publish_evolve w plane u none false)
  unfold vdrm_plane_install_consumer
  simp only []
  split
  · exact evolve_of_eq _ _ (by simp [setPlane])
  · split
    · exact evolve_of_eq _ _ (by simp [setPlane])
    · split_ifs with h1
      · exact evolve_of_eq _ _ (by simp [setPlane, null_deref, kzalloc])
      · split
        · exact evolve_of_eq _ _ (by simp [setPlane, null_deref, kzalloc])
        · apply key
          simp [setPlane, kzalloc]

theorem open_evolve (s : World) (dev : Nat) : devs_evolve s (vdrm_ctrl_open s dev).2 := by
  unfold vdrm_ctrl_open
  simp only []
  split_ifs with h1
  · exact evolve_of_eq _ _ rfl
  · refine evolve_trans s _ _ ?_ (install_evolve _ _)
    intro x
    simp only [setDev]
    split_ifs with hx
    · subst hx
      exact Relation.ReflTransGen.single (dev_step.opened _)
    · exact Relation.ReflTransGen.refl

theorem read_evolve (s : World) (dev : Nat) (a : read_args) :
    devs_evolve s (vdrm_ctrl_read s dev a).2 := by
  unfold vdrm_ctrl_read
  by_cases h1 : a.access_ok = false
  · rw [if_pos h1]
    exact evolve_of_eq _ _ rfl
  · rw [if_neg h1]
    cases he : (s.devs dev).event with
    | none =>
      simp only []
      split_ifs <;> exact evolve_of_eq _ _ rfl
    | some e =>
      simp only []
      split_ifs
      · exact evolve_of_eq _ _ rfl
      · exact evolve_of_eq _ _ rfl
      · intro x
        simp only [setDev]
        split_ifs with hx
        · subst hx
          exact Relation.ReflTransGen.single (dev_step.read _ e he)
        · exact Relation.ReflTransGen.refl

theorem ite_signal_devs (b : Prop) [Decidable b] (w : World) (crtc : Option Nat) :
    (if b then vdrm_crtc_signal w crtc else w).devs = w.devs := by
  split_ifs
  · exact signal_devs w crtc
  · rfl

theorem ack_evolve (s : World) (dev id : Nat) :
    devs_evolve s (vdrm_ctrl_buf_submit_done s dev id).2 := by
  unfold vdrm_ctrl_buf_submit_done
  simp only []
  split
  · exact evolve_of_eq _ _ rfl
  · intro x
    rw [ite_signal_devs]
    simp only [setDev]
    by_cases hx : x = dev
    · subst hx
      rw [if_pos rfl]
      exact Relation.ReflTransGen.single (dev_step.ack _)
    · rw [if_neg hx]

theorem release_evolve (s : World) (dev : Nat) :
    devs_evolve s (vdrm_ctrl_release s dev).2 := by
  intro x
  rw [release_devs]
  split_ifs with hx
  · subst hx
    have hopen : (release_take (s.devs x)).2.open_count = (s.devs x).open_count := by
      unfold release_take
      cases (s.devs x).event <;> cases (s.devs x).pending_event <;> rfl
    refine Relation.ReflTransGen.tail
      (Relation.ReflTransGen.single (dev_step.take (s.devs x))) ?_
    rw [← hopen]
    exact dev_step.closed _
  · exact Relation.ReflTransGen.refl

theorem chan_step_evolve (s : World) (op : ChanOp) : devs_evolve s (chan_step s op) := by
  cases op with
  | open_dev dev => exact open_evolve s dev
  | publish dev u crtc need_cb => exact publish_evolve s dev u crtc need_cb
  | read dev a => exact read_evolve s dev a
  | ack dev id => exact ack_evolve s dev id
  | close dev => exact release_evolve s dev

theorem publish_loop_evolve (c : Nat) (l : List vdrm_plane_update) (s : World) :
    devs_evolve s (vdrm_crtc_publish_loop c l s) := by
  induction l generalizing s with
  | nil => exact evolve_of_eq _ _ rfl
  | cons u rest ih =>
    simp only [vdrm_crtc_publish_loop]
    refine evolve_trans s _ _ ?_ (ih _)
    refine evolve_trans s _ _ (plane_publish_evolve s u.plane u (some c) true) ?_
    apply evolve_of_eq
    split_ifs <;> rfl

theorem crtc_publish_evolve (s : World) (c : Nat) :
    devs_evolve s (vdrm_crtc_publish s c) :=
  publish_loop_evolve c _ s

theorem add_disable_devs (s : World) (c plane : Nat) :
    (vdrm_crtc_add_disable s c plane).devs = s.devs := by
  unfold vdrm_crtc_add_disable
  simp only [kzalloc]
  split_ifs <;> rfl

theorem add_enable_devs (s : World) (c plane : Nat) :
    (vdrm_crtc_add_enable s c plane).devs = s.devs := by
  unfold vdrm_crtc_add_enable
  cases (s.planes plane).state with
  | none => rfl
  | some state =>
    simp only []
    cases state.fb with
    | none => rfl
    | some fb =>
      simp only [kzalloc]
      split_ifs <;> rfl

theorem vblank_irq_devs (s : World) (c : Nat) :
    (vdrm_crtc_vblank_irq s c).devs = s.devs := by
  unfold vdrm_crtc_vblank_irq
  cases (s.crtcs c).event <;> simp only [setCrtc, call] <;> split_ifs <;> rfl

theorem tick_devs (s : World) (c : Nat) : (vsync_timer s c).2.devs = s.devs := by
  unfold vsync_timer
  simp only [call]
  split_ifs
  · rw [vblank_irq_devs]
  · rfl

theorem queue_step_evolve (s : World) (op : QueueOp) :
    devs_evolve s (queue_step s op) := by
  cases op with
  | add_enable c plane => exact evolve_of_eq _ _ (add_enable_devs s c plane)
  | add_disable c plane => exact evolve_of_eq _ _ (add_disable_devs s c plane)
  | drain c => exact crtc_publish_evolve s c

theorem atomic_enable_evolve (s : World) (c : Nat) :
    devs_evolve s (vdrm_crtc_atomic_enable s c) := by
  unfold vdrm_crtc_atomic_enable
  split_ifs
  · exact evolve_of_eq _ _ rfl
  · simp only []
    refine evolve_trans s (setCrtc s c { s.crtcs c with enabled := true }) _
      (evolve_of_eq _ _ rfl) ?_
    refine evolve_trans _ _ _ (crtc_publish_evolve _ c) ?_
    apply evolve_of_eq
    rw [arm_event_devs]
    rfl

theorem atomic_flush_evolve (s : World) (c : Nat) :
    devs_evolve s (vdrm_crtc_atomic_flush s c) := by
  unfold vdrm_crtc_atomic_flush
  split_ifs
  · exact evolve_of_eq _ _ rfl
  · simp only []
    refine evolve_trans s _ _
      (evolve_of_eq s (call s (HostCall.drm_crtc_vblank_get c)) rfl) ?_
    refine evolve_trans _ _ _ (crtc_publish_evolve _ c) ?_
    apply evolve_of_eq
    rw [arm_event_devs]

theorem sys_step_evolve (s : World) (op : SysOp) : devs_evolve s (sys_step s op) := by
  cases op with
  | chan op => exact chan_step_evolve s op
  | queue op => exact queue_step_evolve s op
  | atomic_enable c => exact atomic_enable_evolve s c
  | atomic_flush c => exact atomic_flush_evolve s c
  | tick c => exact evolve_of_eq _ _ (tick_devs s c)
  | enable_vblank c => exact evolve_of_eq _ _ rfl
  | disable_vblank c => exact evolve_of_eq _ _ rfl
  | set_plane_state plane state => exact evolve_of_eq _ _ rfl
  | set_state_event c ev => exact evolve_of_eq _ _ rfl

theorem dev_step_stamped (d d2 : vdrm_ctrl_device) (h : dev_step d d2)
    (hs : slots_stamped d) : slots_stamped d2 := by
  cases h with
  | publish e he =>
    refine ⟨?_, hs.2⟩
    intro e2 h2
    simp only [Option.some.injEq] at h2
    rw [← h2]
    exact he
  | read e he =>
    refine ⟨fun e2 h2 => by simp at h2, ?_⟩
    intro e2 h2
    simp only [Option.some.injEq] at h2
    rw [← h2]
    exact hs.1 e he
  | ack => exact ⟨hs.1, fun e2 h2 => by simp at h2⟩
  | take =>
    unfold release_take
    cases h1 : d.event with
    | some e => exact ⟨fun e2 h2 => by simp at h2, hs.2⟩
    | none =>
      cases h2 : d.pending_event with
      | some e =>
        exact ⟨fun e2 h3 => by simp [h1] at h3, fun e2 h3 => by simp at h3⟩
      | none => exact hs
  | opened => exact hs
  | closed => exact hs

theorem dev_step_open_count (d d2 : vdrm_ctrl_device) (h : dev_step d d2)
    (hs : open_count_ok d) : open_count_ok d2 := by
  unfold open_count_ok at *
  cases h with
  | publish e he => exact hs
  | read e he => exact hs
  | ack => exact hs
  | take =>
    unfold release_take
    cases d.event <;> cases d.pending_event <;> exact hs
  | opened =>
    unfold atomic_add_unless
    rcases hs with h0 | h1
    · right
      simp [h0]
    · right
      simp [h1]
  | closed =>
    unfold atomic_add_unless
    rcases hs with h0 | h1
    · left
      simp [h0]
    · left
      simp [h1]

theorem evolve_invariant (P : vdrm_ctrl_device → Prop)
    (hP : ∀ d d2, dev_step d d2 → P d → P d2) (s t : World) (h : devs_evolve s t)
    (x : Nat) (hs : P (s.devs x)) : P (t.devs x) := by
  have key : ∀ a b, Relation.ReflTransGen dev_step a b → P a → P b := by
    intro a b hab ha
    induction hab with
    | refl => exact ha
    | tail _ hstep ih => exact hP _ _ hstep ih
  exact key _ _ (h x) hs

theorem reach_stamped (s : World) (h : SysReach s) (x : Nat) :
    slots_stamped (s.devs x) := by
  induction h with
  | init s h =>
    have := h.1.2 x
    exact ⟨fun e he => by simp [this.1] at he, fun e he => by simp [this.2.1] at he⟩
  | step s op _ ih =>
    exact evolve_invariant slots_stamped dev_step_stamped s _ (sys_step_evolve s op) x ih

theorem reach_open_count (s : World) (h : SysReach s) (x : Nat) :
    open_count_ok (s.devs x) := by
  induction h with
  | init s h => exact Or.inl (h.1.2 x).2.2
  | step s op _ ih =>
    exact evolve_invariant open_count_ok dev_step_open_count s _ (sys_step_evolve s op) x ih

theorem world0_fresh_world : fresh_world world0 :=
  ⟨⟨rfl, fun _ => ⟨rfl, rfl, rfl⟩⟩, fun _ => rfl,
   fun _ => ⟨rfl, rfl, rfl, rfl, rfl, rfl, rfl⟩⟩

theorem world_open_reach : SysReach world_open :=
  SysReach.step world0 (SysOp.chan (ChanOp.open_dev 0))
    (SysReach.init world0 world0_fresh_world)

theorem world_pending_reach : SysReach world_pending :=
  SysReach.step _ (SysOp.atomic_enable 0)
    (SysReach.step _ (SysOp.queue (QueueOp.add_disable 0 0)) world_open_reach)

/-! ## C18: a single consumer -/

theorem publish_open_count (s : World) (dev : Nat) (u : vdrm_plane_update)
    (crtc : Option Nat) (need_cb : Bool) (x : Nat) :
    ((vdrm_ctrl_publish s dev u crtc need_cb).2.devs x).open_count
      = (s.devs x).open_count := by
  unfold vdrm_ctrl_publish
  simp only [kzalloc, setDev, call]
  split_ifs with h1 h2 h3 h4 <;> simp
  split_ifs with h6
  · subst h6; rfl
  · rfl

theorem plane_publish_open_count (s : World) (plane : Nat) (u : vdrm_plane_update)
    (crtc : Option Nat) (need_cb : Bool) (x : Nat) :
    ((vdrm_plane_publish s plane u crtc need_cb).2.devs x).open_count
      = (s.devs x).open_count := by
  unfold vdrm_plane_publish
  split_ifs
  · cases (s.planes plane).vdev with
    | none => rfl
    | some dev => exact publish_open_count s dev u crtc need_cb x
  · rfl

theorem install_open_count (s : World) (plane : Nat) (x : Nat) :
    ((vdrm_plane_install_consumer s plane).devs x).open_count = (s.devs x).open_count := by
  have key : ∀ w : World, w.devs = s.devs → ∀ u,
      ((vdrm_plane_publish w plane u none false).2.devs x).open_count
        = (s.devs x).open_count := by
    intro w hd u
    rw [plane_publish_open_count, hd]
  have base : ∀ w : World, w.devs = s.devs →
      (w.devs x).open_count = (s.devs x).open_count := by
    intro w hd
    rw [hd]
  unfold vdrm_plane_install_consumer
  simp only []
  split
  · exact base _ (by simp [setPlane])
  · split
    · exact base _ (by simp [setPlane])
    · split_ifs with h1
      · exact base _ (by simp [setPlane, null_deref, kzalloc])
      · split
        · exact base _ (by simp [setPlane, null_deref, kzalloc])
        · apply key
          simp [setPlane, kzalloc]

theorem open_busy (s : World) (dev : Nat) (h : (s.devs dev).open_count = 1) :
    vdrm_ctrl_open s dev = (-EBUSY, s) := by
  unfold vdrm_ctrl_open atomic_add_unless
  simp [h]

theorem open_ok (s : World) (dev : Nat) (h : (s.devs dev).open_count ≠ 1) :
    (vdrm_ctrl_open s dev).1 = 0 ∧
    ((vdrm_ctrl_open s dev).2.devs dev).open_count = (s.devs dev).open_count + 1 := by
  unfold vdrm_ctrl_open atomic_add_unless
  simp only [h, if_false, Bool.true_eq_false]
  refine ⟨trivial, ?_⟩
  rw [install_open_count]
  simp [setDev]

/-- C18: `vdrm_ctrl_open` returns `-EBUSY` exactly when the open-count of the
channel is 1, and then it changes nothing at all; in a reachable state it
otherwise returns 0 and leaves the open-count at 1; and in every reachable
state the open-count of every channel is 0 or 1. -/
theorem C18_single_consumer (s : World) (dev : Nat) (hreach : SysReach s) :
    ((vdrm_ctrl_open s dev).1 = -EBUSY ↔ (s.devs dev).open_count = 1) ∧
    ((s.devs dev).open_count = 1 → vdrm_ctrl_open s dev = (-EBUSY, s)) ∧
    ((s.devs dev).open_count ≠ 1 →
      (vdrm_ctrl_open s dev).1 = 0 ∧
      ((vdrm_ctrl_open s dev).2.devs dev).open_count = 1) ∧
    (∀ x, (s.devs x).open_count = 0 ∨ (s.devs x).open_count = 1) := by
  refine ⟨⟨?_, ?_⟩, open_busy s dev, ?_, fun x => reach_open_count s hreach x⟩
  · intro h
    by_contra hne
    rw [(open_ok s dev hne).1] at h
    simp [EBUSY] at h
  · intro h
    rw [open_busy s dev h]
  · intro hne
    obtain ⟨h1, h2⟩ := open_ok s dev hne
    refine ⟨h1, ?_⟩
    rw [h2]
    rcases reach_open_count s hreach dev with h0 | h1'
    · rw [h0]
      rfl
    · exact absurd h1' hne

/-- C18 (witness): a second open of channel 0 in `world_open`. -/
theorem C18_single_consumer_witness :
    (world_open.devs 0).open_count = 1 ∧
    vdrm_ctrl_open world_open 0 = (-EBUSY, world_open) :=
  ⟨by decide, (C18_single_consumer world_open 0 world_open_reach).2.1 (by decide)⟩

/-! ## C19: the install publish -/

theorem install_publishes (w : World) (p dev c : Nat) (state : drm_plane_state)
    (fb : drm_framebuffer)
    (hst : (w.planes p).state = some state) (hcr : state.crtc = some c)
    (hfb : state.fb = some fb) (hvdev : (w.planes p).vdev = some dev)
    (hact : (w.planes p).active = 0 ∨ (w.planes p).active = 1)
    (hg : gating_pending (w.devs dev) = false)
    (m0 : w.mem 0 = true) (m1 : w.mem 1 = true) (m2 : w.mem 2 = true)
    (m3 : w.mem 3 = true) (hsp : idr_first_free w.vdrm_ctrl_buf_idr ≤ INT_MAX) :
    (vdrm_plane_install_consumer w p).devs =
      (fun j => if j = dev then
          { w.devs dev with event := some (with_handle
              (build_pending dev (update_of_state w.dma_addr_bits p state fb) none false)
              (idr_first_free w.vdrm_ctrl_buf_idr)) }
        else w.devs j) ∧
    (vdrm_plane_install_consumer w p).vdrm_ctrl_buf_idr =
      idr_put w.vdrm_ctrl_buf_idr (idr_first_free w.vdrm_ctrl_buf_idr)
        (with_handle
          (build_pending dev (update_of_state w.dma_addr_bits p state fb) none false)
          (idr_first_free w.vdrm_ctrl_buf_idr)) ∧
    (vdrm_plane_install_consumer w p).crtcs = w.crtcs ∧
    ((vdrm_plane_install_consumer w p).planes p).active = 1 := by
  have hr2 : (atomic_add_unless (w.planes p).active 1 1).2 = 1 := by
    unfold atomic_add_unless
    rcases hact with h | h <;> simp [h]
  have hpub := plane_publish_ok
    (kzalloc (warn_on (setPlane w p { w.planes p with active := 1 })
      (!(atomic_add_unless (w.planes p).active 1 1).1) WarnSite.install_active)).2
    dev (update_of_state w.dma_addr_bits p state fb) none false
    (by simp [kzalloc, setPlane, update_of_state])
    (by simp [kzalloc, setPlane, update_of_state, hvdev])
    (by simpa [kzalloc, setPlane] using m1)
    (by simpa [kzalloc, setPlane] using m2)
    (by simpa [kzalloc, setPlane] using m3)
    (by simpa [kzalloc, setPlane] using hg)
    (by simpa [kzalloc, setPlane] using hsp)
  have hfinal : vdrm_plane_install_consumer w p =
      (vdrm_plane_publish
        (kzalloc (warn_on (setPlane w p { w.planes p with active := 1 })
          (!(atomic_add_unless (w.planes p).active 1 1).1) WarnSite.install_active)).2
        (update_of_state w.dma_addr_bits p state fb).plane
        (update_of_state w.dma_addr_bits p state fb) none false).2 := by
    unfold vdrm_plane_install_consumer
    simp only [hr2]
    have hs2 : ((warn_on (setPlane w p { w.planes p with active := 1 })
        (!(atomic_add_unless (w.planes p).active 1 1).1) WarnSite.install_active).planes
        p).state = some state := by
      simp [setPlane, hst]
    simp only [hs2, hcr, hfb]
    have hk : (kzalloc (warn_on (setPlane w p { w.planes p with active := 1 })
        (!(atomic_add_unless (w.planes p).active 1 1).1) WarnSite.install_active)).1
        = true := by
      simpa [kzalloc, setPlane] using m0
    simp only [hk, Bool.true_eq_false, if_false]
    have hb : (kzalloc (warn_on (setPlane w p { w.planes p with active := 1 })
        (!(atomic_add_unless (w.planes p).active 1 1).1)
        WarnSite.install_active)).2.dma_addr_bits = w.dma_addr_bits := by
      simp [kzalloc, setPlane]
    rw [hb]
    rfl
  rw [hfinal]
  obtain ⟨_, h2, h3, h4, h5⟩ := hpub
  refine ⟨?_, ?_, ?_, ?_⟩
  · rw [h3]
    simp [kzalloc, setPlane]
  · rw [h2]
    simp [kzalloc, setPlane]
  · rw [h4]
    simp [kzalloc, setPlane]
  · rw [h5]
    simp [kzalloc, setPlane]

theorem open_state (s : World) (dev : Nat) (h : (s.devs dev).open_count ≠ 1) :
    vdrm_ctrl_open s dev =
      (0, vdrm_plane_install_consumer
        (setDev s dev { s.devs dev with open_count := (s.devs dev).open_count + 1 })
        (s.devs dev).plane) := by
  unfold vdrm_ctrl_open atomic_add_unless
  simp only [h, if_false, Bool.true_eq_false]
  simp [setDev]

theorem install_nothing (w : World) (p : Nat)
    (h : (w.planes p).state = none ∨
      ∃ st, (w.planes p).state = some st ∧ st.crtc = none) :
    (vdrm_plane_install_consumer w p).devs = w.devs ∧
    (vdrm_plane_install_consumer w p).vdrm_ctrl_buf_idr = w.vdrm_ctrl_buf_idr ∧
    (vdrm_plane_install_consumer w p).crtcs = w.crtcs := by
  unfold vdrm_plane_install_consumer
  rcases h with h | ⟨st, h, hc⟩
  · have hs2 : ∀ b site, ((warn_on (setPlane w p { w.planes p with
        active := (atomic_add_unless (w.planes p).active 1 1).2 }) b site).planes
        p).state = none := by
      intro b site
      simp [setPlane, h]
    simp only [hs2]
    simp [setPlane]
  · have hs2 : ∀ b site, ((warn_on (setPlane w p { w.planes p with
        active := (atomic_add_unless (w.planes p).active 1 1).2 }) b site).planes
        p).state = some st := by
      intro b site
      simp [setPlane, h]
    simp only [hs2, hc]
    simp [setPlane]

/-- A successful open of channel `dev` whose plane has a state bound to a
pipeline with a framebuffer, where the plane is attached to `dev`, no gating
event is Pending on `dev` and the four allocations succeed, returns 0, leaves
the `active` count of the plane at 1, and leaves `dev` with a registered Pending
event that has `need_cb = false` and no pipeline, and whose payload has
`valid = 1`, the format and pitch of the framebuffer, the source size
`src_w >> 16, src_h >> 16` and the destination rectangle
`crtc_x >> 16, crtc_y >> 16, crtc_w >> 16, crtc_h >> 16` of the plane state; no
pipeline is changed. If the plane has no state, or a state bound to no
pipeline, a successful open leaves the registry, every slot and every pipeline
as they were. -/
theorem open_install_publish (s : World) (dev c : Nat) (state : drm_plane_state)
    (fb : drm_framebuffer)
    (hopen : (s.devs dev).open_count ≠ 1)
    (hst : (s.planes (s.devs dev).plane).state = some state)
    (hcr : state.crtc = some c) (hfb : state.fb = some fb)
    (hvdev : (s.planes (s.devs dev).plane).vdev = some dev)
    (hact : (s.planes (s.devs dev).plane).active = 0 ∨
      (s.planes (s.devs dev).plane).active = 1)
    (hg : gating_pending (s.devs dev) = false)
    (m0 : s.mem 0 = true) (m1 : s.mem 1 = true) (m2 : s.mem 2 = true)
    (m3 : s.mem 3 = true) (hsp : idr_first_free s.vdrm_ctrl_buf_idr ≤ INT_MAX) :
    (vdrm_ctrl_open s dev).1 = 0 ∧
    ((vdrm_ctrl_open s dev).2.planes (s.devs dev).plane).active = 1 ∧
    (∃ e : vdrm_ctrl_pending_event,
      ((vdrm_ctrl_open s dev).2.devs dev).event = some e ∧
      idr_find (vdrm_ctrl_open s dev).2.vdrm_ctrl_buf_idr e.id = some e ∧
      e.need_cb = false ∧ e.crtc = none ∧
      e.event.valid = 1 ∧ e.event.drm_format = fb.format.format ∧
      e.event.stride = fb.pitches0 ∧
      e.event.width = state.src_w >>> 16 ∧ e.event.height = state.src_h >>> 16 ∧
      e.event.dst_x = shr16_to_u32 state.crtc_x ∧
      e.event.dst_y = shr16_to_u32 state.crtc_y ∧
      e.event.dst_w = state.crtc_w >>> 16 ∧ e.event.dst_h = state.crtc_h >>> 16) ∧
    (vdrm_ctrl_open s dev).2.crtcs = s.crtcs ∧
    (∀ (t : World) (d : Nat), (t.devs d).open_count ≠ 1 →
      ((t.planes (t.devs d).plane).state = none ∨
        ∃ st, (t.planes (t.devs d).plane).state = some st ∧ st.crtc = none) →
      (vdrm_ctrl_open t d).1 = 0 ∧
      (vdrm_ctrl_open t d).2.vdrm_ctrl_buf_idr = t.vdrm_ctrl_buf_idr ∧
      (∀ x, ((vdrm_ctrl_open t d).2.devs x).event = (t.devs x).event ∧
        ((vdrm_ctrl_open t d).2.devs x).pending_event = (t.devs x).pending_event) ∧
      (vdrm_ctrl_open t d).2.crtcs = t.crtcs) := by
  rw [open_state s dev hopen]
  obtain ⟨i1, i2, i3, i4⟩ := install_publishes
    (setDev s dev { s.devs dev with open_count := (s.devs dev).open_count + 1 })
    (s.devs dev).plane dev c state fb hst hcr hfb hvdev hact
    (by simpa [setDev, gating_pending] using hg) m0 m1 m2 m3 hsp
  refine ⟨rfl, i4, ?_, i3, ?_⟩
  · refine ⟨with_handle (build_pending dev
      (update_of_state s.dma_addr_bits (s.devs dev).plane state fb) none false)
      (idr_first_free s.vdrm_ctrl_buf_idr), ?_, ?_, rfl, rfl, rfl, rfl, rfl, rfl, rfl,
      rfl, rfl, rfl, rfl⟩
    · simp only [i1]
      simp [setDev]
    · simp only [i2]
      rw [idr_find_put]
      simp [with_handle, setDev]
  · intro t d ht hno
    rw [open_state t d ht]
    obtain ⟨n1, n2, n3⟩ := install_nothing
      (setDev t d { t.devs d with open_count := (t.devs d).open_count + 1 })
      (t.devs d).plane hno
    refine ⟨rfl, n2, ?_, n3⟩
    intro x
    rw [n1]
    by_cases hx : x = d
    · subst hx
      simp [setDev]
    · simp [setDev, hx]

/-- The open of channel 0 in `world_fb` is such an open. -/
theorem open_install_publish_example :
    ((world_fb.devs 0).open_count ≠ 1 ∧
      (world_fb.planes (world_fb.devs 0).plane).state = some state0 ∧
      state0.crtc = some 0 ∧ state0.fb = some fb0 ∧
      (world_fb.planes (world_fb.devs 0).plane).vdev = some 0 ∧
      gating_pending (world_fb.devs 0) = false) ∧
    (vdrm_ctrl_open world_fb 0).1 = 0 ∧
    ((vdrm_ctrl_open world_fb 0).2.planes (world_fb.devs 0).plane).active = 1 :=
  ⟨by decide,
   (open_install_publish world_fb 0 0 state0 fb0 (by decide) rfl rfl rfl rfl (Or.inl rfl)
      rfl rfl rfl rfl rfl (by decide)).1,
   (open_install_publish world_fb 0 0 state0 fb0 (by decide) rfl rfl rfl rfl (Or.inl rfl)
      rfl rfl rfl rfl rfl (by decide)).2.1⟩

/-! ## C20: closing twice -/

theorem world_both_reach : SysReach world_both :=
  SysReach.step _ (SysOp.atomic_flush 0)
    (SysReach.step _ (SysOp.queue (QueueOp.add_disable 0 0))
      (SysReach.step _ (SysOp.chan (ChanOp.read 0 args0)) world_pending_reach))

/-- C21: `vdrm_ctrl_poll` reports `POLLIN | POLLRDNORM` exactly when the
channel has no Pending event and the empty mask exactly when it has one; the
Delivered slot (like the open-count) does not enter the result. -/
theorem C21_poll_inverted (s : World) (dev : Nat) :
    (vdrm_ctrl_poll s dev = true ↔ (s.devs dev).event = none) ∧
    (vdrm_ctrl_poll s dev = false ↔ ∃ e, (s.devs dev).event = some e) ∧
    (∀ (pe : Option vdrm_ctrl_pending_event) (n : Int),
      vdrm_ctrl_poll
        (setDev s dev { s.devs dev with pending_event := pe, open_count := n }) dev
        = vdrm_ctrl_poll s dev) := by
  unfold vdrm_ctrl_poll
  refine ⟨?_, ?_, ?_⟩
  · cases (s.devs dev).event <;> simp
  · cases (s.devs dev).event <;> simp
  · intro pe n
    simp [setDev]

/-! ## C27: a failed publish -/

theorem publish_fail_frame (s : World) (dev : Nat) (u : vdrm_plane_update)
    (crtc : Option Nat) (need_cb : Bool)
    (h : (vdrm_ctrl_publish s dev u crtc need_cb).1 ≠ 0) :
    (vdrm_ctrl_publish s dev u crtc need_cb).2.devs = s.devs ∧
    (vdrm_ctrl_publish s dev u crtc need_cb).2.vdrm_ctrl_buf_idr = s.vdrm_ctrl_buf_idr := by
  unfold vdrm_ctrl_publish at h ⊢
  simp only [kzalloc, setDev, call] at h ⊢
  split_ifs at h ⊢
  · exact ⟨rfl, rfl⟩
  · exact ⟨rfl, rfl⟩
  · exact ⟨rfl, rfl⟩
  · exact ⟨rfl, rfl⟩
  · exact absurd rfl h

theorem publish_ret_cases (s : World) (dev : Nat) (u : vdrm_plane_update)
    (crtc : Option Nat) (need_cb : Bool) :
    (vdrm_ctrl_publish s dev u crtc need_cb).1 = 0 ∨
    (vdrm_ctrl_publish s dev u crtc need_cb).1 = -ENOMEM ∨
    (vdrm_ctrl_publish s dev u crtc need_cb).1 = -EBUSY ∨
    (vdrm_ctrl_publish s dev u crtc need_cb).1 = -ENOSPC := by
  unfold vdrm_ctrl_publish
  simp only [kzalloc]
  split_ifs with h1 h2 h3 h4
  · exact Or.inr (Or.inl rfl)
  · exact Or.inr (Or.inl rfl)
  · exact Or.inr (Or.inr (Or.inl rfl))
  · unfold idr_alloc at h4 ⊢
    split_ifs at h4 ⊢
    · exact Or.inr (Or.inl rfl)
    · exact Or.inr (Or.inr (Or.inr rfl))
    · omega
  · exact Or.inl rfl

/-- C27: whenever `vdrm_ctrl_publish` returns an error (every return value
other than 0; it is then `-ENOMEM`, `-EBUSY` or `-ENOSPC`), every channel, in
particular the Pending and the Delivered slot of the target channel, and the
registry are exactly as before the call: the event that was built is stored
nowhere and the Pending event is still the one it was. -/
theorem C27_failed_publish_atomic (s : World) (dev : Nat) (u : vdrm_plane_update)
    (crtc : Option Nat) (need_cb : Bool)
    (h : (vdrm_ctrl_publish s dev u crtc need_cb).1 ≠ 0) :
    ((vdrm_ctrl_publish s dev u crtc need_cb).1 = -ENOMEM ∨
      (vdrm_ctrl_publish s dev u crtc need_cb).1 = -EBUSY ∨
      (vdrm_ctrl_publish s dev u crtc need_cb).1 = -ENOSPC) ∧
    (vdrm_ctrl_publish s dev u crtc need_cb).2.devs = s.devs ∧
    ((vdrm_ctrl_publish s dev u crtc need_cb).2.devs dev).event = (s.devs dev).event ∧
    ((vdrm_ctrl_publish s dev u crtc need_cb).2.devs dev).pending_event
      = (s.devs dev).pending_event ∧
    (vdrm_ctrl_publish s dev u crtc need_cb).2.vdrm_ctrl_buf_idr
      = s.vdrm_ctrl_buf_idr := by
  obtain ⟨hd, hi⟩ := publish_fail_frame s dev u crtc need_cb h
  refine ⟨?_, hd, by rw [hd], by rw [hd], hi⟩
  rcases publish_ret_cases s dev u crtc need_cb with h0 | h1
  · exact absurd h0 h
  · exact h1

/-- C27 (witness): a publish onto the gating event Pending in `world_pending`
fails with `-EBUSY`. -/
theorem C27_failed_publish_atomic_witness :
    (vdrm_ctrl_publish world_pending 0 upd0 (some 0) true).1 ≠ 0 ∧
    ((vdrm_ctrl_publish world_pending 0 upd0 (some 0) true).2.devs 0).event
      = (world_pending.devs 0).event ∧
    (vdrm_ctrl_publish world_pending 0 upd0 (some 0) true).2.vdrm_ctrl_buf_idr
      = world_pending.vdrm_ctrl_buf_idr :=
  ⟨by decide,
   (C27_failed_publish_atomic world_pending 0 upd0 (some 0) true (by decide)).2.2.1,
   (C27_failed_publish_atomic world_pending 0 upd0 (some 0) true (by decide)).2.2.2.2⟩

/-! ## C30: truncation of the plane addresses -/

/-- C30: for a registered event with `num_planes > 0`, every address the
address ioctl returns (`i < num_planes`, within the two entries of the request)
is the stored plane address reduced modulo 2^32, and it equals the stored
address exactly when that address is below 2^32. -/
theorem C30_address_truncation (s : World) (dev : Nat)
    (d : v_ctrl_provider_buf_to_paddr_array) (e : vdrm_ctrl_pending_event)
    (hf : idr_find s.vdrm_ctrl_buf_idr d.v_ctrl_buf_id = some e)
    (hn : 0 < e.num_planes) (hd : d.paddrs.length = V_CTRL_NUM_GEMS_PER_BUFFER)
    (i : Nat) (hi : i < e.num_planes) (hi2 : i < V_CTRL_NUM_GEMS_PER_BUFFER) :
    (vdrm_ctrl_buf_to_paddr_array s dev d).1 = 0 ∧
    (vdrm_ctrl_buf_to_paddr_array s dev d).2.1.paddrs.getD i 0 =
      (e.plane_addrs.getD i 0) % 2 ^ 32 ∧
    ((vdrm_ctrl_buf_to_paddr_array s dev d).2.1.paddrs.getD i 0 = e.plane_addrs.getD i 0 ↔
      e.plane_addrs.getD i 0 < 2 ^ 32) := by
  have hne : ¬ e.num_planes = 0 := by omega
  have hg := copy_paddrs_get e.plane_addrs e.num_planes d.paddrs i hi (by rw [hd]; exact hi2)
  have hu : UINT_MOD = 2 ^ 32 := by decide
  unfold vdrm_ctrl_buf_to_paddr_array
  rw [hf]
  simp only [hne, if_false]
  rw [hg, hu]
  refine ⟨trivial, rfl, ?_⟩
  constructor
  · intro h
    rw [← h]
    exact Nat.mod_lt _ (by norm_num)
  · intro h
    exact Nat.mod_eq_of_lt h

/-- C30 (witness): the install event of `world_hi`, whose plane address is
0x100001000. -/
theorem C30_address_truncation_witness :
    (idr_find (vdrm_ctrl_open world_hi 0).2.vdrm_ctrl_buf_idr req0.v_ctrl_buf_id =
        some (with_handle
          (build_pending 0 (update_of_state 64 0 { state0 with fb := some fb_hi } fb_hi)
            none false) 0) ∧
      req0.paddrs.length = V_CTRL_NUM_GEMS_PER_BUFFER) ∧
    (vdrm_ctrl_buf_to_paddr_array (vdrm_ctrl_open world_hi 0).2 0 req0).2.1.paddrs.getD 0 0
      = 4294971392 % 2 ^ 32 :=
  ⟨by decide,
   (C30_address_truncation (vdrm_ctrl_open world_hi 0).2 0 req0
      (with_handle
        (build_pending 0 (update_of_state 64 0 { state0 with fb := some fb_hi } fb_hi)
          none false) 0)
      (by decide) (by decide) (by decide) 0 (by decide) (by decide)).2.1⟩

/-! ## C26: handles that no slot holds -/

theorem world_fb_fresh_world : fresh_world world_fb :=
  ⟨⟨rfl, fun _ => ⟨rfl, rfl, rfl⟩⟩, fun _ => rfl,
   fun _ => ⟨rfl, rfl, rfl, rfl, rfl, rfl, rfl⟩⟩

theorem sys_run_reach (ops : List SysOp) (s : World) (h : SysReach s) :
    SysReach (sys_run s ops) := by
  induction ops generalizing s with
  | nil => exact h
  | cons op rest ih => exact ih (sys_step s op) (SysReach.step s op h)

/-- C26 (the code at the failing inputs): `world_replaced` is reachable; the
install event is registered under handle 0 but is neither the Pending nor the
Delivered event of its channel 0, whose Pending event is event 1; closing the
channel releases event 1 and still leaves handle 0 registered with both slots
empty. Likewise in the reachable state `world_reread` the event of handle 0 is
registered while the Delivered event of its channel is event 1. -/
theorem C26_orphaned_handle :
    SysReach world_replaced ∧
    (idr_find world_replaced.vdrm_ctrl_buf_idr 0 = some (ev_install 0) ∧
      (ev_install 0).dev = 0 ∧ (ev_install 0).need_cb = false ∧
      (world_replaced.devs 0).event = some (ev0 1) ∧
      (world_replaced.devs 0).pending_event = none ∧
      ¬ held_by_owner world_replaced (ev_install 0) ∧
      idr_find (vdrm_ctrl_release world_replaced 0).2.vdrm_ctrl_buf_idr 0
        = some (ev_install 0) ∧
      ((vdrm_ctrl_release world_replaced 0).2.devs 0).event = none ∧
      ((vdrm_ctrl_release world_replaced 0).2.devs 0).pending_event = none) ∧
    SysReach world_reread ∧
    (idr_find world_reread.vdrm_ctrl_buf_idr 0 = some (ev0 0) ∧
      (world_both.devs 0).pending_event = some (ev0 0) ∧
      (world_reread.devs 0).event = none ∧
      (world_reread.devs 0).pending_event = some (ev0 1) ∧
      ¬ held_by_owner world_reread (ev0 0)) :=
  ⟨sys_run_reach _ world_fb (SysReach.init world_fb world_fb_fresh_world), by decide,
   SysReach.step world_both (SysOp.chan (ChanOp.read 0 args0)) world_both_reach, by decide⟩

/-! ## C29: the outstanding counter against the registry -/

/-- C29 (the code at the failing input): `world_underflow` is reachable from
`world0` by open, enqueue, enable, acknowledge and close. Before the close the
counter of pipeline 0 and the number of its gating events in the registry are
both 0 while the Pending slot still holds the acknowledged event; the close
calls `vdrm_crtc_signal` for it at counter 0, and afterwards the counter is
4294967295 with no event registered, so that a tick with interrupts requested
raises no notification. -/
theorem C29_counter_underflow :
    SysReach world_underflow ∧
    (world_underflow =
        (vdrm_ctrl_release
          (vdrm_ctrl_buf_submit_done world_pending 0 0).2 0).2 ∧
      ((vdrm_ctrl_buf_submit_done world_pending 0 0).2.crtcs 0).num_pends = 0 ∧
      gating_count (vdrm_ctrl_buf_submit_done world_pending 0 0).2.vdrm_ctrl_buf_idr 0 = 0 ∧
      ((vdrm_ctrl_buf_submit_done world_pending 0 0).2.devs 0).event = some (ev0 0) ∧
      (world_underflow.crtcs 0).num_pends = 4294967295 ∧
      gating_count world_underflow.vdrm_ctrl_buf_idr 0 = 0 ∧
      world_underflow.vdrm_ctrl_buf_idr = [none] ∧
      calls_since (vdrm_irq_enable_vblank world_underflow 0).2
        (vsync_timer (vdrm_irq_enable_vblank world_underflow 0).2 0).2
        = [HostCall.hrtimer_forward_now 0 16666666]) :=
  ⟨sys_run_reach _ world0 (SysReach.init world0 world0_fresh_world),
   rfl, by decide, by decide, by decide, by decide, by decide, by decide, by decide⟩

/-! ## C24: disabling a pipeline -/

theorem disable_end_enabled (s : World) (c : Nat) :
    ((atomic_disable_end s c).crtcs c).enabled = false := by
  unfold atomic_disable_end
  simp [setCrtc, call]

theorem disable_end_trace (s : World) (c : Nat) :
    calls_since s (atomic_disable_end s c) =
      if (s.crtcs c).framedone_completion = 0 then
        [HostCall.dev_err_framedone_timeout (s.crtcs c).id, HostCall.drm_crtc_vblank_off c]
      else [HostCall.drm_crtc_vblank_off c] := by
  unfold atomic_disable_end calls_since
  by_cases h : (s.crtcs c).framedone_completion = 0
  · simp [h, setCrtc, call]
  · simp [h, setCrtc, call]

theorem disable_begin_crtc (s : World) (c : Nat) :
    ((atomic_disable_begin s c).crtcs c).pending = true ∧
    ((atomic_disable_begin s c).crtcs c).wait_for_disable = true ∧
    ((atomic_disable_begin s c).crtcs c).framedone_completion = 0 ∧
    ((atomic_disable_begin s c).crtcs c).enabled = (s.crtcs c).enabled := by
  unfold atomic_disable_begin vdrm_crtc_arm_event
  simp only []
  split <;> simp [setCrtc, call, warn_on_crtcs]

/-- C24: `vdrm_crtc_atomic_disable` on a pipeline that is not enabled only logs
the warning. On an enabled pipeline it arms the completion record (`pending`),
resets the completion and sets `wait_for_disable` before it waits; whatever the
entry points `during` that run while it waits, the pipeline is not enabled when
it returns, and the timeout is logged exactly when the completion was not
signalled. Both outcomes occur: from `world_idle` one tick completes the wait,
from `world_requested`, whose counter stays at 1, the wait times out. -/
theorem C24_disable_fail_open (s : World) (c : Nat) (during : List SysOp) :
    ((s.crtcs c).enabled = false →
      vdrm_crtc_atomic_disable s c during =
        call s (HostCall.WARN_ON WarnSite.atomic_disable_enabled)) ∧
    ((s.crtcs c).enabled = true →
      ((atomic_disable_begin s c).crtcs c).pending = true ∧
      ((atomic_disable_begin s c).crtcs c).wait_for_disable = true ∧
      ((atomic_disable_begin s c).crtcs c).framedone_completion = 0 ∧
      vdrm_crtc_atomic_disable s c during =
        atomic_disable_end (sys_run (atomic_disable_begin s c) during) c ∧
      ((vdrm_crtc_atomic_disable s c during).crtcs c).enabled = false ∧
      calls_since (sys_run (atomic_disable_begin s c) during)
          (vdrm_crtc_atomic_disable s c during) =
        if ((sys_run (atomic_disable_begin s c) during).crtcs c).framedone_completion = 0
        then [HostCall.dev_err_framedone_timeout
                ((sys_run (atomic_disable_begin s c) during).crtcs c).id,
              HostCall.drm_crtc_vblank_off c]
        else [HostCall.drm_crtc_vblank_off c]) ∧
    ((world_idle.crtcs 0).enabled = true ∧ (world_idle.crtcs 0).num_pends = 0 ∧
      ((sys_run (atomic_disable_begin world_idle 0) [SysOp.tick 0]).crtcs 0).framedone_completion
        = 1 ∧
      ((vdrm_crtc_atomic_disable world_idle 0 [SysOp.tick 0]).crtcs 0).enabled = false) ∧
    ((world_requested.crtcs 0).enabled = true ∧ (world_requested.crtcs 0).num_pends = 1 ∧
      ((sys_run (atomic_disable_begin world_requested 0)
          [SysOp.tick 0, SysOp.tick 0]).crtcs 0).framedone_completion = 0 ∧
      ((vdrm_crtc_atomic_disable world_requested 0
          [SysOp.tick 0, SysOp.tick 0]).crtcs 0).enabled = false) := by
  refine ⟨?_, ?_, by decide, by decide⟩
  · intro h
    unfold vdrm_crtc_atomic_disable
    rw [if_pos h]
  · intro h
    have hd : vdrm_crtc_atomic_disable s c during =
        atomic_disable_end (sys_run (atomic_disable_begin s c) during) c := by
      unfold vdrm_crtc_atomic_disable
      rw [if_neg (by simp [h])]
    obtain ⟨h1, h2, h3, _⟩ := disable_begin_crtc s c
    refine ⟨h1, h2, h3, hd, ?_, ?_⟩
    · rw [hd]
      exact disable_end_enabled _ c
    · rw [hd]
      exact disable_end_trace _ c

/-! ## C28: the period of the vsync timer -/

theorem setCrtc_nsec (s : World) (c : Nat) (k : vdrm_crtc) (x : Nat)
    (hk : k.nsec_to_vsync = (s.crtcs c).nsec_to_vsync) :
    ((setCrtc s c k).crtcs x).nsec_to_vsync = (s.crtcs x).nsec_to_vsync := by
  show (if x = c then k else s.crtcs x).nsec_to_vsync = _
  split_ifs with h
  · rw [hk, h]
  · rfl

theorem signal_nsec (s : World) (crtc : Option Nat) (x : Nat) :
    ((vdrm_crtc_signal s crtc).crtcs x).nsec_to_vsync = (s.crtcs x).nsec_to_vsync := by
  unfold vdrm_crtc_signal
  cases crtc with
  | none => rfl
  | some c => exact setCrtc_nsec s c _ x rfl

theorem install_crtcs (s : World) (plane : Nat) :
    (vdrm_plane_install_consumer s plane).crtcs = s.crtcs := by
  unfold vdrm_plane_install_consumer
  simp only []
  split
  · simp [setPlane]
  · split
    · simp [setPlane]
    · split_ifs
      · simp [null_deref, kzalloc, setPlane]
      · split
        · simp [null_deref, kzalloc, setPlane]
        · rw [plane_publish_crtcs]
          simp [kzalloc, setPlane]

theorem open_crtcs (s : World) (dev : Nat) : (vdrm_ctrl_open s dev).2.crtcs = s.crtcs := by
  unfold vdrm_ctrl_open
  simp only []
  split_ifs
  · rfl
  · rw [install_crtcs]
    rfl

theorem read_crtcs (s : World) (dev : Nat) (a : read_args) :
    (vdrm_ctrl_read s dev a).2.crtcs = s.crtcs := by
  unfold vdrm_ctrl_read
  by_cases h : a.access_ok = false
  · rw [if_pos h]
  · rw [if_neg h]
    cases (s.devs dev).event with
    | none =>
      simp only []
      split_ifs <;> rfl
    | some e =>
      simp only []
      split_ifs <;> rfl

theorem ack_nsec (s : World) (dev id x : Nat) :
    ((vdrm_ctrl_buf_submit_done s dev id).2.crtcs x).nsec_to_vsync
      = (s.crtcs x).nsec_to_vsync := by
  unfold vdrm_ctrl_buf_submit_done
  simp only []
  split
  · rfl
  · split_ifs
    · rw [signal_nsec]
      rfl
    · rfl

theorem release_nsec (s : World) (dev x : Nat) :
    ((vdrm_ctrl_release s dev).2.crtcs x).nsec_to_vsync = (s.crtcs x).nsec_to_vsync := by
  unfold vdrm_ctrl_release
  simp only []
  split
  · simp [setDev]
  · simp only [release_open_count_crtcs]
    split_ifs
    · rw [signal_nsec]
      simp [setDev]
    · simp [setDev]

theorem chan_step_nsec (s : World) (op : ChanOp) (x : Nat) :
    ((chan_step s op).crtcs x).nsec_to_vsync = (s.crtcs x).nsec_to_vsync := by
  cases op with
  | open_dev dev => simp only [chan_step, open_crtcs]
  | publish dev u crtc need_cb => simp only [chan_step, publish_crtcs]
  | read dev a => simp only [chan_step, read_crtcs]
  | ack dev id => exact ack_nsec s dev id x
  | close dev => exact release_nsec s dev x

theorem publish_one_nsec (c : Nat) (s : World) (u : vdrm_plane_update) (x : Nat) :
    ((publish_one c s u).crtcs x).nsec_to_vsync = (s.crtcs x).nsec_to_vsync := by
  unfold publish_one
  simp only []
  split_ifs with h1
  · refine Eq.trans (setCrtc_nsec _ c _ x ?_) ?_
    · rfl
    · rw [plane_publish_crtcs]
  · rw [plane_publish_crtcs]

theorem set_updates_nsec (s : World) (c : Nat) (q : List vdrm_plane_update) (x : Nat) :
    ((set_updates s c q).crtcs x).nsec_to_vsync = (s.crtcs x).nsec_to_vsync :=
  setCrtc_nsec s c _ x rfl

theorem publish_loop_nsec (c : Nat) (l : List vdrm_plane_update) (s : World) (x : Nat) :
    ((vdrm_crtc_publish_loop c l s).crtcs x).nsec_to_vsync = (s.crtcs x).nsec_to_vsync := by
  induction l generalizing s with
  | nil => rfl
  | cons u rest ih =>
    rw [publish_loop_cons, ih, set_updates_nsec, publish_one_nsec]

theorem arm_event_nsec (s : World) (c x : Nat) :
    ((vdrm_crtc_arm_event s c).crtcs x).nsec_to_vsync = (s.crtcs x).nsec_to_vsync := by
  have h1 : ((setCrtc (warn_on s (s.crtcs c).pending WarnSite.arm_event_pending) c
      { (warn_on s (s.crtcs c).pending WarnSite.arm_event_pending).crtcs c with
        pending := true }).crtcs x).nsec_to_vsync = (s.crtcs x).nsec_to_vsync := by
    refine Eq.trans (setCrtc_nsec _ c _ x ?_) ?_
    · rfl
    · rw [warn_on_crtcs]
  unfold vdrm_crtc_arm_event
  simp only []
  split
  · refine Eq.trans (setCrtc_nsec _ c _ x ?_) ?_
    · rfl
    · exact h1
  · exact h1

theorem vblank_irq_nsec (s : World) (c x : Nat) :
    ((vdrm_crtc_vblank_irq s c).crtcs x).nsec_to_vsync = (s.crtcs x).nsec_to_vsync := by
  unfold vdrm_crtc_vblank_irq
  by_cases hx : x = c
  · subst hx
    cases he : (s.crtcs x).event <;> cases hw : (s.crtcs x).wait_for_disable <;>
      cases hp : (s.crtcs x).pending <;>
      simp [setCrtc, call, he, hw, hp]
  · cases he : (s.crtcs c).event <;> cases hw : (s.crtcs c).wait_for_disable <;>
      cases hp : (s.crtcs c).pending <;>
      simp [setCrtc, call, he, hw, hp, hx]

theorem tick_nsec (s : World) (c x : Nat) :
    ((vsync_timer s c).2.crtcs x).nsec_to_vsync = (s.crtcs x).nsec_to_vsync := by
  unfold vsync_timer
  simp only [call]
  split_ifs
  · rw [vblank_irq_nsec]
  · rfl

theorem sys_step_nsec (s : World) (op : SysOp) (x : Nat) :
    ((sys_step s op).crtcs x).nsec_to_vsync = (s.crtcs x).nsec_to_vsync := by
  cases op with
  | chan op => exact chan_step_nsec s op x
  | queue op =>
    cases op with
    | add_enable c plane =>
      simp only [sys_step, queue_step]
      unfold vdrm_crtc_add_enable
      split
      · rfl
      · split
        · rfl
        · simp only []
          split_ifs
          · rfl
          · exact setCrtc_nsec _ c _ x rfl
    | add_disable c plane =>
      simp only [sys_step, queue_step]
      unfold vdrm_crtc_add_disable
      simp only []
      split_ifs
      · rfl
      · exact setCrtc_nsec _ c _ x rfl
    | drain c => exact publish_loop_nsec c _ s x
  | atomic_enable c =>
    simp only [sys_step]
    unfold vdrm_crtc_atomic_enable
    split_ifs
    · rfl
    · simp only [arm_event_nsec, call]
      unfold vdrm_crtc_publish
      rw [publish_loop_nsec]
      exact setCrtc_nsec s c _ x rfl
  | atomic_flush c =>
    simp only [sys_step]
    unfold vdrm_crtc_atomic_flush
    split_ifs
    · rfl
    · simp only [arm_event_nsec]
      unfold vdrm_crtc_publish
      rw [publish_loop_nsec]
      rfl
  | tick c => exact tick_nsec s c x
  | enable_vblank c => exact setCrtc_nsec s c _ x rfl
  | disable_vblank c => exact setCrtc_nsec s c _ x rfl
  | set_plane_state plane state => rfl
  | set_state_event c ev => exact setCrtc_nsec s c _ x rfl

theorem sys_run_nsec (ops : List SysOp) (s : World) (x : Nat) :
    ((sys_run s ops).crtcs x).nsec_to_vsync = (s.crtcs x).nsec_to_vsync := by
  induction ops generalizing s with
  | nil => rfl
  | cons op rest ih =>
    have h := ih (sys_step s op)
    unfold sys_run at h ⊢
    rw [List.foldl_cons, h, sys_step_nsec]

theorem tick_rearms (s : World) (c : Nat) :
    (vsync_timer s c).1 = hrtimer_restart.HRTIMER_RESTART ∧
    (vsync_timer s c).2.trace.getLast? =
      some (HostCall.hrtimer_forward_now c (s.crtcs c).nsec_to_vsync) := by
  unfold vsync_timer
  simp only [call]
  refine ⟨trivial, ?_⟩
  split_ifs
  · rw [vblank_irq_nsec]
    simp
  · simp

theorem init_ok (s : World) (c id plane fps : Nat) (init_ret : Int)
    (hfps : 0 < fps) (hmem : s.mem 0 = true) (hinit : 0 ≤ init_ret) :
    (vdrm_crtc_init s c id plane (some fps) init_ret).1 = crtc_init_result.crtc c ∧
    ((vdrm_crtc_init s c id plane (some fps) init_ret).2.crtcs c).nsec_to_vsync
      = 1000000000 / fps ∧
    (vdrm_crtc_init s c id plane (some fps) init_ret).2.trace.getLast? =
      some (HostCall.hrtimer_start c (1000000000 / fps)) := by
  have h1 : ¬ fps = 0 := by omega
  have h2 : ¬ init_ret < 0 := by omega
  unfold vdrm_crtc_init
  simp [kzalloc, hmem, h1, h2, setCrtc, call]

/-- C28: when `vdrm_crtc_init` gets a refresh rate `fps > 0` (and its
allocation and `drm_crtc_init_with_planes` succeed) it stores
`nsec_to_vsync = 1000000000 / fps`, the integer quotient, which satisfies
`fps * nsec_to_vsync ≤ 1000000000 < fps * (nsec_to_vsync + 1)`, and starts the
timer with it; with a refresh rate of 0 the division traps. After any run of
entry points from there, every timer callback of the pipeline returns
`HRTIMER_RESTART` and its last call is `hrtimer_forward_now` with that same
period, whether or not the tick raised the notification. -/
theorem C28_vsync_period (s : World) (c id plane fps : Nat) (init_ret : Int)
    (hfps : 0 < fps) (hmem : s.mem 0 = true) (hinit : 0 ≤ init_ret) :
    (vdrm_crtc_init s c id plane (some fps) init_ret).1 = crtc_init_result.crtc c ∧
    ((vdrm_crtc_init s c id plane (some fps) init_ret).2.crtcs c).nsec_to_vsync
      = 1000000000 / fps ∧
    (fps * (1000000000 / fps) ≤ 1000000000 ∧ 1000000000 < fps * (1000000000 / fps + 1)) ∧
    (vdrm_crtc_init s c id plane (some fps) init_ret).2.trace.getLast? =
      some (HostCall.hrtimer_start c (1000000000 / fps)) ∧
    (vdrm_crtc_init s c id plane (some 0) init_ret).1 = crtc_init_result.fault ∧
    (∀ ops : List SysOp,
      (vsync_timer
        (sys_run (vdrm_crtc_init s c id plane (some fps) init_ret).2 ops) c).1
        = hrtimer_restart.HRTIMER_RESTART ∧
      (vsync_timer
        (sys_run (vdrm_crtc_init s c id plane (some fps) init_ret).2 ops) c).2.trace.getLast?
        = some (HostCall.hrtimer_forward_now c (1000000000 / fps))) := by
  obtain ⟨h1, h2, h3⟩ := init_ok s c id plane fps init_ret hfps hmem hinit
  refine ⟨h1, h2, ⟨Nat.mul_div_le _ _, Nat.lt_mul_div_succ _ hfps⟩, h3, ?_, ?_⟩
  · unfold vdrm_crtc_init
    simp [kzalloc, hmem]
  · intro ops
    have ht := tick_rearms
      (sys_run (vdrm_crtc_init s c id plane (some fps) init_ret).2 ops) c
    rw [sys_run_nsec, h2] at ht
    exact ht

/-- C28 (witness): pipeline 0 of `world0` initialised at 60 Hz gets the period
16666666 ns. -/
theorem C28_vsync_period_witness :
    (0 < 60 ∧ world0.mem 0 = true ∧ (0 : Int) ≤ 0) ∧
    ((vdrm_crtc_init world0 0 0 0 (some 60) 0).2.crtcs 0).nsec_to_vsync = 16666666 :=
  ⟨by decide, (C28_vsync_period world0 0 0 0 60 0 (by decide) (by decide) (by decide)).2.1⟩

/-! ## C22, C23, C25: what a drain does to the channels and the counters -/

theorem same_refl (s : World) : same_channels_and_counters s s :=
  ⟨rfl, rfl, rfl, rfl, fun _ => rfl⟩

theorem same_symm (s t : World) (h : same_channels_and_counters s t) :
    same_channels_and_counters t s :=
  ⟨h.1.symm, h.2.1.symm, h.2.2.1.symm, h.2.2.2.1.symm, fun x => (h.2.2.2.2 x).symm⟩

theorem same_trans (s t r : World) (h1 : same_channels_and_counters s t)
    (h2 : same_channels_and_counters t r) : same_channels_and_counters s r :=
  ⟨h2.1.trans h1.1, h2.2.1.trans h1.2.1, h2.2.2.1.trans h1.2.2.1,
   h2.2.2.2.1.trans h1.2.2.2.1, fun x => (h2.2.2.2.2 x).trans (h1.2.2.2.2 x)⟩

theorem same_call (s : World) (h : HostCall) : same_channels_and_counters s (call s h) :=
  ⟨rfl, rfl, rfl, rfl, fun _ => rfl⟩

theorem same_setCrtc (s : World) (c : Nat) (k : vdrm_crtc)
    (hk : k.num_pends = (s.crtcs c).num_pends) :
    same_channels_and_counters s (setCrtc s c k) := by
  refine ⟨rfl, rfl, rfl, rfl, fun x => ?_⟩
  show (if x = c then k else s.crtcs x).num_pends = _
  split_ifs with h
  · rw [hk, h]
  · rfl

theorem same_arm_event (s : World) (c : Nat) :
    same_channels_and_counters s (vdrm_crtc_arm_event s c) := by
  refine ⟨arm_event_devs s c, arm_event_idr s c, ?_, ?_, fun x => arm_event_num_pends s c x⟩
  · unfold vdrm_crtc_arm_event
    simp only []
    split <;> simp [setCrtc, warn_on_planes]
  · unfold vdrm_crtc_arm_event
    simp only []
    split <;> simp [setCrtc, warn_on_mem]

theorem publish_congr (s t : World) (h : same_channels_and_counters s t) (dev : Nat)
    (u : vdrm_plane_update) (crtc : Option Nat) (need_cb : Bool) :
    (vdrm_ctrl_publish t dev u crtc need_cb).1 = (vdrm_ctrl_publish s dev u crtc need_cb).1 ∧
    same_channels_and_counters (vdrm_ctrl_publish s dev u crtc need_cb).2
      (vdrm_ctrl_publish t dev u crtc need_cb).2 := by
  obtain ⟨hd, hi, hp, hm, hn⟩ := h
  unfold vdrm_ctrl_publish same_channels_and_counters
  simp only [kzalloc, setDev, call, hd, hi, hp, hm]
  split_ifs <;> simp [hn, hd, hi, hp, hm]

theorem plane_publish_congr (s t : World) (h : same_channels_and_counters s t) (plane : Nat)
    (u : vdrm_plane_update) (crtc : Option Nat) (need_cb : Bool) :
    (vdrm_plane_publish t plane u crtc need_cb).1
      = (vdrm_plane_publish s plane u crtc need_cb).1 ∧
    same_channels_and_counters (vdrm_plane_publish s plane u crtc need_cb).2
      (vdrm_plane_publish t plane u crtc need_cb).2 := by
  have hp := h.2.2.1
  unfold vdrm_plane_publish
  rw [hp]
  by_cases ha : (s.planes plane).active ≠ 0
  · rw [if_pos ha, if_pos ha]
    cases (s.planes plane).vdev with
    | none => exact ⟨rfl, h⟩
    | some dev => exact publish_congr s t h dev u crtc need_cb
  · rw [if_neg ha, if_neg ha]
    exact ⟨rfl, h⟩

theorem publish_one_congr (c : Nat) (s t : World) (h : same_channels_and_counters s t)
    (u : vdrm_plane_update) :
    same_channels_and_counters (publish_one c s u) (publish_one c t u) := by
  obtain ⟨h1, h2⟩ := plane_publish_congr s t h u.plane u (some c) true
  unfold publish_one
  simp only []
  rw [h1]
  split_ifs
  · obtain ⟨hd, hi, hp, hm, hn⟩ := h2
    refine ⟨hd, hi, hp, hm, fun x => ?_⟩
    show (if x = c then _ else _ : vdrm_crtc).num_pends
      = (if x = c then _ else _ : vdrm_crtc).num_pends
    split_ifs
    · show (_ + 1) % UINT_MOD = (_ + 1) % UINT_MOD
      rw [hn c]
    · exact hn x
  · exact h2

theorem foldl_publish_one_congr (c : Nat) (l : List vdrm_plane_update) (s t : World)
    (h : same_channels_and_counters s t) :
    same_channels_and_counters (l.foldl (publish_one c) s) (l.foldl (publish_one c) t) := by
  induction l generalizing s t with
  | nil => exact h
  | cons u rest ih => exact ih _ _ (publish_one_congr c s t h u)

theorem same_set_updates (s : World) (c : Nat) (q : List vdrm_plane_update) :
    same_channels_and_counters s (set_updates s c q) :=
  same_setCrtc s c _ rfl

theorem crtc_publish_same (s : World) (c : Nat) :
    same_channels_and_counters ((s.crtcs c).updates.foldl (publish_one c) s)
      (vdrm_crtc_publish s c) := by
  unfold vdrm_crtc_publish
  by_cases hq : (s.crtcs c).updates = []
  · rw [hq]
    exact same_refl s
  · rw [publish_loop_fold c _ s hq]
    exact same_set_updates _ c []

theorem setCrtc_field {α : Type} (f : vdrm_crtc → α) (s : World) (c : Nat) (k : vdrm_crtc)
    (x : Nat) (hk : f k = f (s.crtcs c)) :
    f ((setCrtc s c k).crtcs x) = f (s.crtcs x) := by
  show f (if x = c then k else s.crtcs x) = _
  split_ifs with h
  · rw [hk, h]
  · rfl

theorem publish_one_field {α : Type} (f : vdrm_crtc → α)
    (hf : ∀ (k : vdrm_crtc) (n : Nat), f { k with num_pends := n } = f k)
    (c : Nat) (s : World) (u : vdrm_plane_update) (x : Nat) :
    f ((publish_one c s u).crtcs x) = f (s.crtcs x) := by
  unfold publish_one
  simp only []
  split_ifs
  · refine Eq.trans (setCrtc_field f _ c _ x (hf _ _)) ?_
    rw [plane_publish_crtcs]
  · rw [plane_publish_crtcs]

theorem publish_loop_field {α : Type} (f : vdrm_crtc → α)
    (hf : ∀ (k : vdrm_crtc) (n : Nat), f { k with num_pends := n } = f k)
    (hq : ∀ (k : vdrm_crtc) (q : List vdrm_plane_update), f { k with updates := q } = f k)
    (c : Nat) (l : List vdrm_plane_update) (s : World) (x : Nat) :
    f ((vdrm_crtc_publish_loop c l s).crtcs x) = f (s.crtcs x) := by
  induction l generalizing s with
  | nil => rfl
  | cons u rest ih =>
    rw [publish_loop_cons, ih]
    refine Eq.trans (setCrtc_field f _ c _ x (hq _ _)) ?_
    exact publish_one_field f hf c s u x

theorem arm_event_crtc (s : World) (c : Nat) :
    ((vdrm_crtc_arm_event s c).crtcs c).pending = true ∧
    ((vdrm_crtc_arm_event s c).crtcs c).enabled = (s.crtcs c).enabled ∧
    ((vdrm_crtc_arm_event s c).crtcs c).updates = (s.crtcs c).updates := by
  unfold vdrm_crtc_arm_event
  simp only []
  split <;> simp [setCrtc, warn_on_crtcs]

theorem enable_same (s : World) (c : Nat) (h : (s.crtcs c).enabled = false) :
    same_channels_and_counters ((s.crtcs c).updates.foldl (publish_one c) s)
      (vdrm_crtc_atomic_enable s c) := by
  have h1 : same_channels_and_counters s (setCrtc s c { s.crtcs c with enabled := true }) :=
    same_setCrtc s c _ rfl
  have hq : ((setCrtc s c { s.crtcs c with enabled := true }).crtcs c).updates
      = (s.crtcs c).updates := by
    simp [setCrtc]
  have h2 := crtc_publish_same (setCrtc s c { s.crtcs c with enabled := true }) c
  rw [hq] at h2
  have h3 := foldl_publish_one_congr c (s.crtcs c).updates _ _ h1
  unfold vdrm_crtc_atomic_enable
  rw [if_neg (by simp [h])]
  simp only []
  refine same_trans _ _ _ (same_trans _ _ _ h3 h2) ?_
  exact same_trans _ _ _ (same_trans _ _ _ (same_call _ _) (same_call _ _))
    (same_arm_event _ c)

theorem flush_same (s : World) (c : Nat) (h : (s.crtcs c).enabled = true) :
    same_channels_and_counters ((s.crtcs c).updates.foldl (publish_one c) s)
      (vdrm_crtc_atomic_flush s c) := by
  have h1 : same_channels_and_counters s (call s (HostCall.drm_crtc_vblank_get c)) :=
    same_call s _
  have h2 := crtc_publish_same (call s (HostCall.drm_crtc_vblank_get c)) c
  have h3 := foldl_publish_one_congr c (s.crtcs c).updates _ _ h1
  unfold vdrm_crtc_atomic_flush
  rw [if_neg (by simp [h])]
  simp only []
  exact same_trans _ _ _ (same_trans _ _ _ h3 h2) (same_arm_event _ c)

/-- C22: `vdrm_crtc_atomic_enable` on a pipeline that is already enabled only
logs the warning: every pipeline record (the enabled flag, the update queue,
the outstanding counter, the pending flag), every channel and the registry are
as before. On a pipeline that is not enabled, afterwards `enabled` is set, the
update queue is empty, `pending` is set, and the channels, the registry and the
outstanding counters are those obtained by publishing the queued updates one
after the other, head first, with `need_cb = true` (`publish_one`). -/
theorem C22_enable (s : World) (c : Nat) :
    ((s.crtcs c).enabled = true →
      vdrm_crtc_atomic_enable s c =
        call s (HostCall.WARN_ON WarnSite.atomic_enable_enabled) ∧
      (vdrm_crtc_atomic_enable s c).crtcs = s.crtcs ∧
      (vdrm_crtc_atomic_enable s c).devs = s.devs ∧
      (vdrm_crtc_atomic_enable s c).vdrm_ctrl_buf_idr = s.vdrm_ctrl_buf_idr) ∧
    ((s.crtcs c).enabled = false →
      ((vdrm_crtc_atomic_enable s c).crtcs c).enabled = true ∧
      ((vdrm_crtc_atomic_enable s c).crtcs c).updates = [] ∧
      ((vdrm_crtc_atomic_enable s c).crtcs c).pending = true ∧
      same_channels_and_counters ((s.crtcs c).updates.foldl (publish_one c) s)
        (vdrm_crtc_atomic_enable s c)) := by
  constructor
  · intro h
    have he : vdrm_crtc_atomic_enable s c =
        call s (HostCall.WARN_ON WarnSite.atomic_enable_enabled) := by
      unfold vdrm_crtc_atomic_enable
      rw [if_pos h]
    rw [he]
    exact ⟨rfl, rfl, rfl, rfl⟩
  · intro h
    refine ⟨?_, ?_, ?_, enable_same s c h⟩
    · unfold vdrm_crtc_atomic_enable
      rw [if_neg (by simp [h])]
      simp only []
      rw [(arm_event_crtc _ c).2.1]
      show ((vdrm_crtc_publish _ c).crtcs c).enabled = true
      unfold vdrm_crtc_publish
      rw [publish_loop_field (fun k => k.enabled) (fun _ _ => rfl) (fun _ _ => rfl)]
      simp [setCrtc]
    · unfold vdrm_crtc_atomic_enable
      rw [if_neg (by simp [h])]
      simp only []
      rw [(arm_event_crtc _ c).2.2]
      show ((vdrm_crtc_publish _ c).crtcs c).updates = []
      rw [crtc_publish_updates]
      simp
    · unfold vdrm_crtc_atomic_enable
      rw [if_neg (by simp [h])]
      exact (arm_event_crtc _ c).1

/-- C23: `vdrm_crtc_atomic_flush` on a pipeline that is not enabled returns
the state unchanged (the queued updates stay queued). On an enabled pipeline,
afterwards the update queue is empty, `pending` is set, the pipeline is still
enabled, and the channels, the registry and the outstanding counters are those
obtained by publishing the queued updates one after the other with
`need_cb = true`: the same as after `vdrm_crtc_atomic_enable` run on the state
with the enabled flag cleared. -/
theorem C23_flush (s : World) (c : Nat) :
    ((s.crtcs c).enabled = false → vdrm_crtc_atomic_flush s c = s) ∧
    ((s.crtcs c).enabled = true →
      ((vdrm_crtc_atomic_flush s c).crtcs c).updates = [] ∧
      ((vdrm_crtc_atomic_flush s c).crtcs c).pending = true ∧
      ((vdrm_crtc_atomic_flush s c).crtcs c).enabled = true ∧
      same_channels_and_counters ((s.crtcs c).updates.foldl (publish_one c) s)
        (vdrm_crtc_atomic_flush s c) ∧
      same_channels_and_counters
        (vdrm_crtc_atomic_enable (setCrtc s c { s.crtcs c with enabled := false }) c)
        (vdrm_crtc_atomic_flush s c)) := by
  constructor
  · intro h
    unfold vdrm_crtc_atomic_flush
    rw [if_pos h]
  · intro h
    refine ⟨?_, ?_, ?_, flush_same s c h, ?_⟩
    · unfold vdrm_crtc_atomic_flush
      rw [if_neg (by simp [h])]
      simp only []
      rw [(arm_event_crtc _ c).2.2, crtc_publish_updates]
      simp
    · unfold vdrm_crtc_atomic_flush
      rw [if_neg (by simp [h])]
      exact (arm_event_crtc _ c).1
    · unfold vdrm_crtc_atomic_flush
      rw [if_neg (by simp [h])]
      simp only []
      rw [(arm_event_crtc _ c).2.1]
      unfold vdrm_crtc_publish
      rw [publish_loop_field (fun k => k.enabled) (fun _ _ => rfl) (fun _ _ => rfl)]
      exact h
    · have h0 : same_channels_and_counters s
          (setCrtc s c { s.crtcs c with enabled := false }) := same_setCrtc s c _ rfl
      have he := enable_same (setCrtc s c { s.crtcs c with enabled := false }) c
        (by simp [setCrtc])
      have hq : ((setCrtc s c { s.crtcs c with enabled := false }).crtcs c).updates
          = (s.crtcs c).updates := by
        simp [setCrtc]
      rw [hq] at he
      have hf := foldl_publish_one_congr c (s.crtcs c).updates _ _ h0
      exact same_trans _ _ _ (same_symm _ _ (same_trans _ _ _ hf he)) (flush_same s c h)

/-! ## C25: the counter after a drain -/

theorem publish_one_num_pends (c : Nat) (s : World) (u : vdrm_plane_update) (x : Nat) :
    ((publish_one c s u).crtcs x).num_pends =
      if x = c ∧ (vdrm_plane_publish s u.plane u (some c) true).1 = 0
      then ((s.crtcs c).num_pends + 1) % UINT_MOD else (s.crtcs x).num_pends := by
  unfold publish_one
  simp only []
  by_cases h : (vdrm_plane_publish s u.plane u (some c) true).1 = 0
  · rw [if_pos h]
    show (if x = c then _ else _ : vdrm_crtc).num_pends = _
    by_cases hx : x = c
    · rw [if_pos hx, if_pos ⟨hx, h⟩, plane_publish_crtcs]
    · rw [if_neg hx, if_neg (fun hh => hx hh.1), plane_publish_crtcs]
  · rw [if_neg h, if_neg (fun hh => h hh.2), plane_publish_crtcs]

theorem publish_loop_num_pends (c : Nat) (l : List vdrm_plane_update) (s : World)
    (hn : (s.crtcs c).num_pends < UINT_MOD) :
    ((vdrm_crtc_publish_loop c l s).crtcs c).num_pends =
      ((s.crtcs c).num_pends + drain_successes c l s) % UINT_MOD := by
  induction l generalizing s with
  | nil =>
    show (s.crtcs c).num_pends = ((s.crtcs c).num_pends + 0) % UINT_MOD
    rw [Nat.add_zero, Nat.mod_eq_of_lt hn]
  | cons u rest ih =>
    have hs : ((set_updates (publish_one c s u) c rest).crtcs c).num_pends
        = ((publish_one c s u).crtcs c).num_pends :=
      setCrtc_field (fun k => k.num_pends) _ c _ c rfl
    have hp := publish_one_num_pends c s u c
    rw [publish_loop_cons]
    by_cases h : (vdrm_plane_publish s u.plane u (some c) true).1 = 0
    · rw [if_pos ⟨rfl, h⟩] at hp
      have hlt : ((set_updates (publish_one c s u) c rest).crtcs c).num_pends < UINT_MOD := by
        rw [hs, hp]
        exact Nat.mod_lt _ (by decide)
      rw [ih _ hlt, hs, hp]
      show _ = ((s.crtcs c).num_pends + ((if _ then 1 else 0) + _)) % UINT_MOD
      rw [if_pos h, Nat.mod_add_mod]
      congr 1
      omega
    · rw [if_neg (fun hh => h hh.2)] at hp
      have hlt : ((set_updates (publish_one c s u) c rest).crtcs c).num_pends < UINT_MOD := by
        rw [hs, hp]
        exact hn
      rw [ih _ hlt, hs, hp]
      show _ = ((s.crtcs c).num_pends + ((if _ then 1 else 0) + _)) % UINT_MOD
      rw [if_neg h, Nat.zero_add]

theorem publish_loop_num_pends_other (c : Nat) (l : List vdrm_plane_update) (s : World)
    (x : Nat) (hx : x ≠ c) :
    ((vdrm_crtc_publish_loop c l s).crtcs x).num_pends = (s.crtcs x).num_pends := by
  induction l generalizing s with
  | nil => rfl
  | cons u rest ih =>
    rw [publish_loop_cons, ih]
    refine Eq.trans (setCrtc_field (fun k => k.num_pends) _ c _ x rfl) ?_
    show ((publish_one c s u).crtcs x).num_pends = _
    rw [publish_one_num_pends, if_neg (fun hh => hx hh.1)]

theorem drain_successes_le (c : Nat) (l : List vdrm_plane_update) (s : World) :
    drain_successes c l s ≤ l.length := by
  induction l generalizing s with
  | nil => exact Nat.le_refl 0
  | cons u rest ih =>
    have h := ih (set_updates (publish_one c s u) c rest)
    show (if _ then 1 else 0) + drain_successes c rest _ ≤ rest.length + 1
    split_ifs <;> omega

theorem plane_publish_fail_frame (s : World) (plane : Nat) (u : vdrm_plane_update)
    (crtc : Option Nat) (need_cb : Bool)
    (h : (vdrm_plane_publish s plane u crtc need_cb).1 ≠ 0) :
    (vdrm_plane_publish s plane u crtc need_cb).2.devs = s.devs ∧
    (vdrm_plane_publish s plane u crtc need_cb).2.vdrm_ctrl_buf_idr
      = s.vdrm_ctrl_buf_idr := by
  unfold vdrm_plane_publish at h ⊢
  by_cases ha : (s.planes plane).active ≠ 0
  · rw [if_pos ha] at h ⊢
    cases hv : (s.planes plane).vdev with
    | none => exact ⟨rfl, rfl⟩
    | some dev =>
      rw [hv] at h
      exact publish_fail_frame s dev u crtc need_cb h
  · rw [if_neg ha]
    exact ⟨rfl, rfl⟩

/-- C25: with the counter of pipeline `c` at `n < 2^32`, after the drain
`vdrm_crtc_publish` it is `n + k` modulo 2^32 (`n + k` itself when that is below
2^32), where `k`, at most the queue length, is the number of iterations in
which `vdrm_plane_publish` returned 0; the counters
of the other pipelines are unchanged. An iteration whose publish does not
return 0 unlinks its update and leaves every channel, the registry and every
counter as they were. Such a publish returns `-EBUSY` when the plane has a
consumer, the allocations succeed and a gating event is Pending on its channel,
and returns -1 with the state untouched when the plane has no consumer. -/
theorem C25_drain_accounting (s : World) (c : Nat)
    (hn : (s.crtcs c).num_pends < UINT_MOD) :
    ((vdrm_crtc_publish s c).crtcs c).num_pends =
      ((s.crtcs c).num_pends + drain_successes c (s.crtcs c).updates s) % UINT_MOD ∧
    drain_successes c (s.crtcs c).updates s ≤ (s.crtcs c).updates.length ∧
    ((s.crtcs c).num_pends + drain_successes c (s.crtcs c).updates s < UINT_MOD →
      ((vdrm_crtc_publish s c).crtcs c).num_pends =
        (s.crtcs c).num_pends + drain_successes c (s.crtcs c).updates s) ∧
    (∀ x, x ≠ c → ((vdrm_crtc_publish s c).crtcs x).num_pends = (s.crtcs x).num_pends) ∧
    (∀ (u : vdrm_plane_update) (rest : List vdrm_plane_update),
      (s.crtcs c).updates = u :: rest →
      (vdrm_plane_publish s u.plane u (some c) true).1 ≠ 0 →
      vdrm_crtc_publish s c =
        vdrm_crtc_publish_loop c rest (set_updates (publish_one c s u) c rest) ∧
      ((set_updates (publish_one c s u) c rest).crtcs c).updates = rest ∧
      (set_updates (publish_one c s u) c rest).devs = s.devs ∧
      (set_updates (publish_one c s u) c rest).vdrm_ctrl_buf_idr = s.vdrm_ctrl_buf_idr ∧
      (∀ x, ((set_updates (publish_one c s u) c rest).crtcs x).num_pends
        = (s.crtcs x).num_pends) ∧
      drain_successes c (u :: rest) s =
        drain_successes c rest (set_updates (publish_one c s u) c rest)) ∧
    (∀ (u : vdrm_plane_update) (dev : Nat),
      (s.planes u.plane).active ≠ 0 → (s.planes u.plane).vdev = some dev →
      s.mem 0 = true → s.mem 1 = true → gating_pending (s.devs dev) = true →
      (vdrm_plane_publish s u.plane u (some c) true).1 = -EBUSY) ∧
    (∀ u : vdrm_plane_update, (s.planes u.plane).active = 0 →
      vdrm_plane_publish s u.plane u (some c) true = (-1, s)) := by
  refine ⟨publish_loop_num_pends c _ s hn, drain_successes_le c _ s,
    fun hlt => (publish_loop_num_pends c _ s hn).trans (Nat.mod_eq_of_lt hlt),
    fun x hx => publish_loop_num_pends_other c _ s x hx, ?_, ?_, ?_⟩
  · intro u rest hq hf
    have hone : publish_one c s u = (vdrm_plane_publish s u.plane u (some c) true).2 := by
      unfold publish_one
      simp only []
      rw [if_neg hf]
    obtain ⟨hd, hi⟩ := plane_publish_fail_frame s u.plane u (some c) true hf
    refine ⟨?_, ?_, ?_, ?_, ?_, ?_⟩
    · unfold vdrm_crtc_publish
      rw [hq, publish_loop_cons]
    · simp [set_updates, setCrtc]
    · rw [hone]
      exact hd
    · rw [hone]
      exact hi
    · intro x
      refine Eq.trans (setCrtc_field (fun k => k.num_pends) _ c _ x rfl) ?_
      show ((publish_one c s u).crtcs x).num_pends = _
      rw [publish_one_num_pends, if_neg (fun hh => hf hh.2)]
    · show (if _ then 1 else 0) + _ = _
      rw [if_neg hf, Nat.zero_add]
  · intro u dev ha hv h0 h1 hg
    unfold vdrm_plane_publish
    rw [if_pos ha, hv]
    exact (publish_ret_busy_iff s dev u (some c) true).2 ⟨h0, h1, hg⟩
  · intro u ha
    unfold vdrm_plane_publish
    rw [if_neg (by simp [ha])]

/-- C25 (witness): in `world_ready` the one queued update is published and the
counter goes from 0 to 1. -/
theorem C25_drain_accounting_witness :
    (world_ready.crtcs 0).num_pends < UINT_MOD ∧
    ((vdrm_crtc_publish world_ready 0).crtcs 0).num_pends =
      ((world_ready.crtcs 0).num_pends
        + drain_successes 0 (world_ready.crtcs 0).updates world_ready) % UINT_MOD ∧
    drain_successes 0 (world_ready.crtcs 0).updates world_ready = 1 :=
  ⟨by decide, (C25_drain_accounting world_ready 0 (by decide)).1, by decide⟩


/-! ## The handles of the registry -/

theorem idr_evolve_of_eq (s t : World)
    (h : t.vdrm_ctrl_buf_idr = s.vdrm_ctrl_buf_idr) : idr_evolve s t := by
  unfold idr_evolve
  rw [h]

theorem idr_evolve_trans (s t r : World) (h1 : idr_evolve s t) (h2 : idr_evolve t r) :
    idr_evolve s r :=
  Relation.ReflTransGen.trans h1 h2

theorem publish_idr_evolve (s : World) (dev : Nat) (u : vdrm_plane_update)
    (crtc : Option Nat) (need_cb : Bool) :
    idr_evolve s (vdrm_ctrl_publish s dev u crtc need_cb).2 := by
  unfold idr_evolve vdrm_ctrl_publish
  simp only [kzalloc, setDev, call]
  split_ifs
  · exact Relation.ReflTransGen.refl
  · exact Relation.ReflTransGen.refl
  · exact Relation.ReflTransGen.refl
  · exact Relation.ReflTransGen.refl
  · exact Relation.ReflTransGen.single (idr_step.put _ _ _ ⟨rfl, rfl⟩)

theorem plane_publish_idr_evolve (s : World) (plane : Nat) (u : vdrm_plane_update)
    (crtc : Option Nat) (need_cb : Bool) :
    idr_evolve s (vdrm_plane_publish s plane u crtc need_cb).2 := by
  unfold vdrm_plane_publish
  split_ifs
  · cases (s.planes plane).vdev with
    | none => exact idr_evolve_of_eq _ _ rfl
    | some dev => exact publish_idr_evolve s dev u crtc need_cb
  · exact idr_evolve_of_eq _ _ rfl

theorem install_idr_evolve (s : World) (plane : Nat) :
    idr_evolve s (vdrm_plane_install_consumer s plane) := by
  have key : ∀ w : World, w.vdrm_ctrl_buf_idr = s.vdrm_ctrl_buf_idr → ∀ u,
      idr_evolve s (vdrm_plane_publish w plane u none false).2 := by
    intro w hd u
    exact idr_evolve_trans s w _ (idr_evolve_of_eq s w hd)
      (plane_publish_idr_evolve w plane u none false)
  unfold vdrm_plane_install_consumer
  simp only []
  split
  · exact idr_evolve_of_eq _ _ (by simp [setPlane])
  · split
    · exact idr_evolve_of_eq _ _ (by simp [setPlane])
    · split_ifs with h1
      · exact idr_evolve_of_eq _ _ (by simp [setPlane, null_deref, kzalloc])
      · split
        · exact idr_evolve_of_eq _ _ (by simp [setPlane, null_deref, kzalloc])
        · apply key
          simp [setPlane, kzalloc]

theorem open_idr_evolve (s : World) (dev : Nat) : idr_evolve s (vdrm_ctrl_open s dev).2 := by
  unfold vdrm_ctrl_open
  simp only []
  split_ifs with h1
  · exact idr_evolve_of_eq _ _ rfl
  · refine idr_evolve_trans s _ _ ?_ (install_idr_evolve _ _)
    exact idr_evolve_of_eq _ _ rfl

theorem read_idr (s : World) (dev : Nat) (a : read_args) :
    (vdrm_ctrl_read s dev a).2.vdrm_ctrl_buf_idr = s.vdrm_ctrl_buf_idr := by
  unfold vdrm_ctrl_read
  by_cases h : a.access_ok = false
  · rw [if_pos h]
  · rw [if_neg h]
    cases (s.devs dev).event with
    | none =>
      simp only []
      split_ifs <;> rfl
    | some e =>
      simp only []
      split_ifs <;> rfl

theorem ack_idr_evolve (s : World) (dev id : Nat) :
    idr_evolve s (vdrm_ctrl_buf_submit_done s dev id).2 := by
  unfold idr_evolve vdrm_ctrl_buf_submit_done
  simp only []
  split
  · exact Relation.ReflTransGen.refl
  · have h : ∀ (w : World) (b : Prop) [Decidable b] (crtc : Option Nat),
        (if b then vdrm_crtc_signal w crtc else w).vdrm_ctrl_buf_idr
          = w.vdrm_ctrl_buf_idr := by
      intro w b _ crtc
      split_ifs
      · exact signal_idr w crtc
      · rfl
    rw [h]
    exact Relation.ReflTransGen.single (idr_step.remove _ id)

theorem release_idr_evolve (s : World) (dev : Nat) :
    idr_evolve s (vdrm_ctrl_release s dev).2 := by
  have h : ∀ (w : World) (b : Prop) [Decidable b] (crtc : Option Nat),
      (if b then vdrm_crtc_signal w crtc else w).vdrm_ctrl_buf_idr
        = w.vdrm_ctrl_buf_idr := by
    intro w b _ crtc
    split_ifs
    · exact signal_idr w crtc
    · rfl
  have hu : ∀ d : vdrm_ctrl_device,
      (setDev (vdrm_plane_uninstall_consumer s (s.devs dev).plane) dev d).vdrm_ctrl_buf_idr
        = s.vdrm_ctrl_buf_idr := fun _ => uninstall_idr s _
  unfold idr_evolve vdrm_ctrl_release
  simp only []
  split
  · rw [release_open_count_idr, hu]
  · rw [release_open_count_idr, h]
    show Relation.ReflTransGen idr_step s.vdrm_ctrl_buf_idr (idr_remove _ _).2
    rw [hu]
    exact Relation.ReflTransGen.single (idr_step.remove _ _)

theorem chan_step_idr_evolve (s : World) (op : ChanOp) : idr_evolve s (chan_step s op) := by
  cases op with
  | open_dev dev => exact open_idr_evolve s dev
  | publish dev u crtc need_cb => exact publish_idr_evolve s dev u crtc need_cb
  | read dev a => exact idr_evolve_of_eq _ _ (read_idr s dev a)
  | ack dev id => exact ack_idr_evolve s dev id
  | close dev => exact release_idr_evolve s dev

theorem publish_loop_idr_evolve (c : Nat) (l : List vdrm_plane_update) (s : World) :
    idr_evolve s (vdrm_crtc_publish_loop c l s) := by
  induction l generalizing s with
  | nil => exact idr_evolve_of_eq _ _ rfl
  | cons u rest ih =>
    simp only [vdrm_crtc_publish_loop]
    refine idr_evolve_trans s _ _ ?_ (ih _)
    refine idr_evolve_trans s _ _ (plane_publish_idr_evolve s u.plane u (some c) true) ?_
    apply idr_evolve_of_eq
    split_ifs <;> rfl

theorem crtc_publish_idr_evolve (s : World) (c : Nat) :
    idr_evolve s (vdrm_crtc_publish s c) :=
  publish_loop_idr_evolve c _ s

theorem vblank_irq_idr (s : World) (c : Nat) :
    (vdrm_crtc_vblank_irq s c).vdrm_ctrl_buf_idr = s.vdrm_ctrl_buf_idr := by
  unfold vdrm_crtc_vblank_irq
  cases (s.crtcs c).event <;> simp only [setCrtc, call] <;> split_ifs <;> rfl

theorem sys_step_idr_evolve (s : World) (op : SysOp) : idr_evolve s (sys_step s op) := by
  cases op with
  | chan op => exact chan_step_idr_evolve s op
  | queue op =>
    cases op with
    | add_enable c plane =>
      apply idr_evolve_of_eq
      simp only [sys_step, queue_step]
      unfold vdrm_crtc_add_enable
      cases (s.planes plane).state with
      | none => rfl
      | some state =>
        simp only []
        cases state.fb with
        | none => rfl
        | some fb =>
          simp only [kzalloc]
          split_ifs <;> rfl
    | add_disable c plane =>
      apply idr_evolve_of_eq
      simp only [sys_step, queue_step]
      unfold vdrm_crtc_add_disable
      simp only [kzalloc]
      split_ifs <;> rfl
    | drain c => exact crtc_publish_idr_evolve s c
  | atomic_enable c =>
    simp only [sys_step]
    unfold vdrm_crtc_atomic_enable
    split_ifs
    · exact idr_evolve_of_eq _ _ rfl
    · simp only []
      refine idr_evolve_trans s (setCrtc s c { s.crtcs c with enabled := true }) _
        (idr_evolve_of_eq _ _ rfl) ?_
      refine idr_evolve_trans _ _ _ (crtc_publish_idr_evolve _ c) ?_
      apply idr_evolve_of_eq
      rw [arm_event_idr]
      rfl
  | atomic_flush c =>
    simp only [sys_step]
    unfold vdrm_crtc_atomic_flush
    split_ifs
    · exact idr_evolve_of_eq _ _ rfl
    · simp only []
      refine idr_evolve_trans s _ _
        (idr_evolve_of_eq s (call s (HostCall.drm_crtc_vblank_get c)) rfl) ?_
      refine idr_evolve_trans _ _ _ (crtc_publish_idr_evolve _ c) ?_
      apply idr_evolve_of_eq
      rw [arm_event_idr]
  | tick c =>
    apply idr_evolve_of_eq
    simp only [sys_step]
    unfold vsync_timer
    simp only [call]
    split_ifs
    · rw [vblank_irq_idr]
    · rfl
  | enable_vblank c => exact idr_evolve_of_eq _ _ rfl
  | disable_vblank c => exact idr_evolve_of_eq _ _ rfl
  | set_plane_state plane state => exact idr_evolve_of_eq _ _ rfl
  | set_state_event c ev => exact idr_evolve_of_eq _ _ rfl

theorem idr_step_stamped (a b : Idr) (h : idr_step a b) (ha : registry_stamped a) :
    registry_stamped b := by
  cases h with
  | put i e he =>
    intro j e2 h2
    rw [idr_find_put] at h2
    split_ifs at h2 with hj
    · simp only [Option.some.injEq] at h2
      rw [← h2, hj]
      exact he
    · exact ha j e2 h2
  | remove i =>
    intro j e2 h2
    rw [idr_find_remove] at h2
    split_ifs at h2 with hj
    · exact ha j e2 h2

theorem reach_registry (s : World) (h : SysReach s) :
    registry_stamped s.vdrm_ctrl_buf_idr := by
  induction h with
  | init s h =>
    intro i e hi
    rw [h.1.1, idr_find_nil] at hi
    exact absurd hi (by simp)
  | step s op _ ih =>
    have key : ∀ a b, Relation.ReflTransGen idr_step a b →
        registry_stamped a → registry_stamped b := by
      intro a b hab ha
      induction hab with
      | refl => exact ha
      | tail _ hstep ih2 => exact idr_step_stamped _ _ hstep ih2
    exact key _ _ (sys_step_idr_evolve s op) ih

/-! ## C12: a successful read -/

theorem publish_then_read (s0 : World) (dev : Nat) (u : vdrm_plane_update)
    (crtc : Option Nat) (need_cb : Bool) (a : read_args)
    (hp : (vdrm_ctrl_publish s0 dev u crtc need_cb).1 = 0)
    (hacc : a.access_ok = true) (hcopy : a.copy_fault = false)
    (hlen : sizeof_v_ctrl_event_new_buffer ≤ a.count) :
    idr_find s0.vdrm_ctrl_buf_idr (idr_first_free s0.vdrm_ctrl_buf_idr) = none ∧
    (vdrm_ctrl_read (vdrm_ctrl_publish s0 dev u crtc need_cb).2 dev a).1 =
      read_result.ret (sizeof_v_ctrl_event_new_buffer : Int)
        (some (with_handle (build_pending dev u crtc need_cb)
          (idr_first_free s0.vdrm_ctrl_buf_idr)).event) ∧
    (with_handle (build_pending dev u crtc need_cb)
      (idr_first_free s0.vdrm_ctrl_buf_idr)).event.v_ctrl_buf_id
        = idr_first_free s0.vdrm_ctrl_buf_idr ∧
    ((vdrm_ctrl_read (vdrm_ctrl_publish s0 dev u crtc need_cb).2 dev a).2.devs dev).pending_event
      = some (with_handle (build_pending dev u crtc need_cb)
          (idr_first_free s0.vdrm_ctrl_buf_idr)) ∧
    idr_find (vdrm_ctrl_read (vdrm_ctrl_publish s0 dev u crtc need_cb).2 dev a).2.vdrm_ctrl_buf_idr
        (idr_first_free s0.vdrm_ctrl_buf_idr)
      = some (with_handle (build_pending dev u crtc need_cb)
          (idr_first_free s0.vdrm_ctrl_buf_idr)) := by
  obtain ⟨m0, m1, m2, hg, hsp⟩ := publish_zero s0 dev u crtc need_cb hp
  obtain ⟨_, hidr, hdevs, _, _⟩ := publish_ok s0 dev u crtc need_cb m0 m1 m2 hg hsp
  have hbl : (with_handle (build_pending dev u crtc need_cb)
      (idr_first_free s0.vdrm_ctrl_buf_idr)).event.base.length
        = sizeof_v_ctrl_event_new_buffer := build_event_length u
  have he1 : ((vdrm_ctrl_publish s0 dev u crtc need_cb).2.devs dev).event =
      some (with_handle (build_pending dev u crtc need_cb)
        (idr_first_free s0.vdrm_ctrl_buf_idr)) := by
    rw [hdevs]
    simp
  rw [read_ok _ dev a _ he1 hacc hcopy (by rw [hbl]; exact hlen)]
  refine ⟨idr_find_first_free _, ?_, rfl, ?_, ?_⟩
  · rw [hbl]
  · simp [setDev]
  · show idr_find (vdrm_ctrl_publish s0 dev u crtc need_cb).2.vdrm_ctrl_buf_idr _ = _
    rw [hidr, idr_find_put, if_pos rfl]

/-- C19 (the code at the failing input): every plane of `world_px` shows a
640x480 framebuffer in a 640x480 rectangle at (100, 50), the destination
rectangle given in whole pixels. The open of channel 0 returns 0, marks the
plane active and leaves a registered Pending event without `need_cb`, with
`valid = 1` and the source size 640x480, but with the destination rectangle
(0, 0, 0, 0): each of `crtc_x, crtc_y, crtc_w, crtc_h` was shifted right by 16
bits. The rectangle arrives only for a state like `state_fx`, which holds the
four values shifted left by 16 bits. -/
theorem C19_install_dst_rectangle :
    (state_px.crtc_x = 100 ∧ state_px.crtc_y = 50 ∧ state_px.crtc_w = 640 ∧
      state_px.crtc_h = 480 ∧ state_px.src_w = 640 * 65536 ∧
      state_px.src_h = 480 * 65536) ∧
    ((vdrm_ctrl_open world_px 0).1 = 0 ∧
      ((vdrm_ctrl_open world_px 0).2.planes 0).active = 1 ∧
      ((vdrm_ctrl_open world_px 0).2.devs 0).event =
        some (with_handle
          (build_pending 0 (update_of_state 64 0 state_px fb0) none false) 0) ∧
      idr_find (vdrm_ctrl_open world_px 0).2.vdrm_ctrl_buf_idr 0 =
        ((vdrm_ctrl_open world_px 0).2.devs 0).event ∧
      (((vdrm_ctrl_open world_px 0).2.devs 0).event.map
        (fun e => (e.need_cb, e.event.valid))) = some (false, 1) ∧
      pending_geometry (vdrm_ctrl_open world_px 0).2 0 = some ((0, 0, 0, 0), (640, 480))) ∧
    (state_fx.crtc_x = 100 * 65536 ∧ state_fx.crtc_y = 50 * 65536 ∧
      state_fx.crtc_w = 640 * 65536 ∧ state_fx.crtc_h = 480 * 65536 ∧
      pending_geometry (vdrm_ctrl_open world_fx 0).2 0
        = some ((100, 50, 640, 480), (640, 480))) := by
  decide

/-! ## C20: a second close after a complete first one -/

theorem release_nothing (t : World) (dev : Nat)
    (h1 : (t.devs dev).event = none) (h2 : (t.devs dev).pending_event = none)
    (h3 : (t.devs dev).open_count = 0) :
    (vdrm_ctrl_release t dev).1 = 0 ∧
    (vdrm_ctrl_release t dev).2.devs = t.devs ∧
    (vdrm_ctrl_release t dev).2.vdrm_ctrl_buf_idr = t.vdrm_ctrl_buf_idr ∧
    (vdrm_ctrl_release t dev).2.crtcs = t.crtcs ∧
    HostCall.WARN_ON WarnSite.release_open_count ∈
      calls_since t (vdrm_ctrl_release t dev).2 := by
  have ht : release_take (t.devs dev) = (none, t.devs dev) := by
    unfold release_take
    rw [h1, h2]
  have hd : (vdrm_ctrl_release t dev).2.devs = t.devs := by
    funext x
    rw [release_devs, ht]
    by_cases hx : x = dev
    · rw [if_pos hx, hx]
      simp only [atomic_add_unless, h3, if_true]
      cases hdv : t.devs dev with
      | mk p ev pe oc =>
        rw [hdv] at h3
        simp only at h3
        rw [h3]
    · rw [if_neg hx]
  refine ⟨?_, hd, ?_, ?_, ?_⟩
  · unfold vdrm_ctrl_release
    simp only []
    split <;> rfl
  · unfold vdrm_ctrl_release
    simp only [uninstall_devs, ht]
    simp [setDev]
  · unfold vdrm_ctrl_release
    simp only [uninstall_devs, ht]
    simp [setDev]
  · unfold vdrm_ctrl_release calls_since
    simp only [uninstall_devs, ht]
    simp [setDev, release_open_count, atomic_add_unless, h3, warn_on, call,
      vdrm_plane_uninstall_consumer, setPlane]
    split_ifs <;> simp

end Vdrm
